import Mathlib

/-!
# Feruza quiz bot: quiz engine, admin wizards and their persisted collections

A shallow embedding of `src/index.js` (the handlers) over the collections of
`src/storage.js`.

* A handler is a function from the `World` it finds (the sender's session, the
  five persisted collections, the in-memory dynamic-admin set) to an `Outcome`:
  the world it leaves, the replies it sent, and the value it returned (`none`
  when an exception escaped the handler and reached `bot.catch`).
* What the handler gets from outside is read from `Env`: the configured admin
  lists, the value of `Number(text)`, the date, whether a `writeJson` of a
  collection succeeds, whether the i-th `copyMessage` succeeds, the results of
  `getChat` and `getChatMember`. Replies themselves (`ctx.reply`, `ctx.answerCbQuery`) are taken to
  succeed.
* Finite JavaScript numbers are rationals; `fl64` is rounding to the nearest
  binary64 value, so `correct / total * 100` is computed as the source computes
  it.
-/

namespace Feruza

/-! ## JavaScript numbers -/

/-- Nearest integer, a tie going to the even one: the rounding of a binary64
significand. -/
def roundHalfEven (q : ℚ) : ℤ :=
  let f := ⌊q⌋
  if q - f < 1 / 2 then f
  else if 1 / 2 < q - f then f + 1
  else if f % 2 = 0 then f else f + 1

/-- Rounding of a rational to the nearest binary64 number (53-bit significand,
ties to even). The exponent is not bounded: the values the handlers compute lie
between `2⁻³²` and `101`, far from overflow and from the subnormal range. -/
def fl64 (q : ℚ) : ℚ :=
  if q = 0 then 0
  else
    let e := Int.log 2 |q|
    (roundHalfEven (q / (2 : ℚ) ^ (e - 52)) : ℚ) * (2 : ℚ) ^ (e - 52)

/-- `Math.round`: the closest integer, a tie going towards `+∞`. -/
def mathRound (q : ℚ) : ℤ := ⌊q + 1 / 2⌋

/-- `Number.isInteger` on a finite number. -/
def isInteger (q : ℚ) : Bool := q.den == 1

/-- The sum `m + 1` of JavaScript on an integer `m`: binary64 holds every
integer from `-2 ^ 53` to `2 ^ 53`, so a sum in that range is exact; a sum
outside it is rounded to the nearest binary64 number, which is an integer. -/
def addOne (m : ℤ) : ℤ :=
  if -9007199254740992 ≤ m + 1 ∧ m + 1 ≤ 9007199254740992 then m + 1
  else ⌊fl64 ((m : ℚ) + 1)⌋

/-! ## JavaScript strings -/

/-- The characters `String.prototype.trim` removes: WhiteSpace and
LineTerminator of ECMAScript. -/
def isWhiteSpace (c : Char) : Bool :=
  let n := c.toNat
  n == 0x9 || n == 0xA || n == 0xB || n == 0xC || n == 0xD || n == 0x20 || n == 0xA0 ||
  n == 0x1680 || (0x2000 ≤ n && n ≤ 0x200A) || n == 0x2028 || n == 0x2029 ||
  n == 0x202F || n == 0x205F || n == 0x3000 || n == 0xFEFF

/-- `trim` on the characters of a string. -/
def trimChars (cs : List Char) : List Char :=
  ((cs.dropWhile isWhiteSpace).reverse.dropWhile isWhiteSpace).reverse

/-- `s.trim()`. -/
def trim (s : String) : String := String.mk (trimChars s.data)

/-- `s.split(sep)` for a one-character separator, on the characters. -/
def splitChars (sep : Char) : List Char → List (List Char)
  | [] => [[]]
  | c :: cs =>
    if c = sep then [] :: splitChars sep cs
    else
      match splitChars sep cs with
      | [] => [[c]]
      | p :: ps => (c :: p) :: ps

/-- `text.split("|").map((s) => s.trim()).filter(Boolean)`. -/
def parseOptions (text : String) : List String :=
  ((splitChars '|' text.data).map (fun p => trim (String.mk p))).filter (fun s => s ≠ "")

/-- `s.startsWith(c)` for a one-character string `c`. -/
def startsWithChar (c : Char) (s : String) : Bool := s.data.head? == some c

/-- The test `/^-?\d+$/` of the add_channel step. -/
def isSignedDigits (s : String) : Bool :=
  let ds := match s.data with
    | '-' :: rest => rest
    | cs => cs
  !ds.isEmpty && ds.all (fun c => '0' ≤ c && c ≤ '9')

/-- JavaScript truthiness of an optional string: absent and `""` are falsy. -/
def truthy (t : Option String) : Bool :=
  match t with
  | none => false
  | some s => s ≠ ""

/-! ## Data model -/

/-- One question of a test. The wizard stores `index - 1` for an integer `index`,
so `correct_answer` is an integer. -/
structure Question where
  question : String
  options : List String
  correct_answer : ℤ
  deriving DecidableEq

/-- A record of the `tests` collection. -/
structure Test where
  id : ℤ
  title : String
  status : String
  questions : List Question
  created_at : String
  deriving DecidableEq

/-- A record of the `users` collection. -/
structure User where
  id : ℤ
  username : String
  full_name : String
  joined_date : String
  tests_worked : ℕ
  deriving DecidableEq

/-- A record of the `results` collection. -/
structure Result where
  user_id : ℤ
  username : String
  full_name : String
  test_id : ℤ
  correct : ℕ
  wrong : ℤ
  percentage : ℤ
  date : String
  deriving DecidableEq

/-- A record of the `channels` collection. -/
structure Channel where
  id : ℤ
  name : String
  username : String
  status : String
  deriving DecidableEq

/-- The five collections of `storage.js`. -/
structure Store where
  users : List User
  channels : List Channel
  tests : List Test
  results : List Result
  admins : List ℚ
  deriving DecidableEq

/-- The value of `ctx.session.test`. -/
structure QuizState where
  testId : ℤ
  index : ℕ
  correct : ℕ
  deriving DecidableEq

/-- The object `admin.newTest` of the creation wizard. -/
structure NewTest where
  title : String
  totalQuestions : ℚ
  questions : List Question
  deriving DecidableEq

/-- The object `admin.currentQuestion`: a question under construction, whose
`options` and `correct_answer` are set by later steps. -/
structure Draft where
  question : String
  options : Option (List String)
  correct_answer : Option ℤ
  deriving DecidableEq

/-- The value of `ctx.session.admin`; a field no wizard entry sets is `none`. -/
structure AdminState where
  mode : String
  newTest : Option NewTest
  currentQuestion : Option Draft
  testId : Option ℤ
  deriving DecidableEq

/-- The session of one user: `ctx.session`. -/
structure Session where
  admin : Option AdminState
  test : Option QuizState
  deriving DecidableEq

/-- What a handler reads and writes. -/
structure World where
  session : Session
  store : Store
  dynamicAdmins : List ℚ
  deriving DecidableEq

/-- The sender of an update: `ctx.from`; an absent name is `""`. -/
structure Sender where
  id : ℤ
  username : String
  first_name : String
  last_name : String
  deriving DecidableEq

/-- The part of `ctx` a handler looks at: the sender and `ctx.message.text`. -/
structure Ctx where
  sender : Sender
  text : Option String
  deriving DecidableEq

/-- The result of `ctx.telegram.getChat`. -/
structure Chat where
  id : ℤ
  title : String
  username : String
  type : String
  deriving DecidableEq

/-- What a handler is given from outside the session and the store. -/
structure Env where
  SUPER_ADMIN_IDS : List ℚ
  ADMIN_IDS : List ℚ
  Number : String → Option ℚ
  formatDate : String
  writeJson : String → Bool
  copyMessage : ℕ → Bool
  getChat : String → Option Chat
  getChatMember : ℤ → ℤ → Option String

/-- A message sent by a handler; `copyMessage` is one call of
`ctx.telegram.copyMessage` to the chat `chatId`, with whether it succeeded;
`testChoices` is the keyboard of `sendTestChoices`; `info` stands for the
listing an informational handler sends, whose text is not modelled. -/
inductive Reply where
  | text (body : String)
  | question (test : Test) (index : ℕ)
  | statusKeyboard
  | adminMenu (superAdmin : Bool)
  | copyMessage (chatId : ℤ) (delivered : Bool)
  | testChoices (tests : List Test)
  | info (handler : String)
  deriving DecidableEq

/-- What a handler leaves: the world, the replies, and the returned value
(`none`: an exception escaped). -/
structure Outcome (α : Type) where
  world : World
  replies : List Reply
  value : Option α

/-! ## Configuration and helpers -/

/-- The list `EFFECTIVE_SUPER_ADMIN_IDS`. -/
def EFFECTIVE_SUPER_ADMIN_IDS (env : Env) : List ℚ :=
  if env.SUPER_ADMIN_IDS.length ≠ 0 then env.SUPER_ADMIN_IDS else env.ADMIN_IDS

/-- The function `isSuperAdmin(id)`. -/
def isSuperAdmin (env : Env) (id : ℚ) : Bool :=
  decide (id ∈ EFFECTIVE_SUPER_ADMIN_IDS env)

/-- The function `isAdmin(id)`. -/
def isAdmin (env : Env) (w : World) (id : ℚ) : Bool :=
  isSuperAdmin env id || decide (id ∈ env.ADMIN_IDS) || decide (id ∈ w.dynamicAdmins)

/-- The function `parseAdminId(text)`; `none` is its `null`. -/
def parseAdminId (env : Env) (text : String) : Option ℚ :=
  match env.Number (trim text) with
  | none => none
  | some id => if id ≤ 0 then none else some id

/-- An in-place change of the object `xs.find(p)` returns: the first element
satisfying `p` is replaced by its image, the others stay. -/
def updateFirst {α : Type} (p : α → Bool) (f : α → α) : List α → List α
  | [] => []
  | x :: xs => if p x then f x :: xs else x :: updateFirst p f xs

/-- The value of `[first_name, last_name].filter(Boolean).join(" ").trim()`. -/
def fullName (s : Sender) : String :=
  trim (" ".intercalate ([s.first_name, s.last_name].filter (fun n => n ≠ "")))

/-- The users array `ensureUser(ctx)` hands to `saveUsersData`, with the user
object it returns. -/
def ensureUser (env : Env) (s : Sender) (users : List User) : User × List User :=
  match users.find? (fun u => u.id = s.id) with
  | none =>
    let user : User :=
      { id := s.id, username := s.username, full_name := fullName s,
        joined_date := env.formatDate, tests_worked := 0 }
    (user, users ++ [user])
  | some u =>
    let touch : User → User := fun v =>
      { v with
        username := if s.username ≠ "" then s.username else v.username
        full_name := if fullName s ≠ "" then fullName s else v.full_name }
    (touch u, updateFirst (fun v => v.id = s.id) touch users)

/-- The users array `incrementTestsWorked(userId)` saves; `none` when no user
has that id and nothing is written. -/
def incrementTestsWorked (userId : ℤ) (users : List User) : Option (List User) :=
  match users.find? (fun u => u.id = userId) with
  | none => none
  | some _ =>
    some (updateFirst (fun u => u.id = userId)
      (fun u => { u with tests_worked := u.tests_worked + 1 }) users)

/-- The percentage of `finishTest`:
`total ? Math.round((correct / total) * 100) : 0`. -/
def percentage (total correct : ℕ) : ℤ :=
  if total = 0 then 0
  else mathRound (fl64 (fl64 ((correct : ℚ) / (total : ℚ)) * 100))

/-- The record `finishTest` pushes to the results. -/
def resultRecord (env : Env) (s : Sender) (user : User) (test : Test) (correct : ℕ) : Result :=
  { user_id := s.id
    username := user.username
    full_name := user.full_name
    test_id := test.id
    correct := correct
    wrong := (test.questions.length : ℤ) - (correct : ℤ)
    percentage := percentage test.questions.length correct
    date := env.formatDate }

/-! ## Quiz engine -/

/-- The function `sendQuestion(ctx, test, index)`: the question message, or
`none` when `test.questions[index]` is undefined and reading its options
throws. -/
def sendQuestion (test : Test) (index : ℕ) : Option Reply :=
  if index < test.questions.length then some (Reply.question test index) else none

/-- The function `startTest(ctx, test)`. -/
def startTest (test : Test) (w : World) : Outcome Unit :=
  match w.session.test with
  | some _ =>
    { world := w
      replies := [Reply.text "⚠️ Sizda faol test bor. Avval uni yakunlang."]
      value := some () }
  | none =>
    let w1 : World :=
      { w with session := { w.session with test := some { testId := test.id, index := 0, correct := 0 } } }
    match sendQuestion test 0 with
    | some r => { world := w1, replies := [r], value := some () }
    | none => { world := w1, replies := [], value := none }

/-- The function `finishTest(ctx, test, correct)`. -/
def finishTest (env : Env) (ctx : Ctx) (test : Test) (correct : ℕ) (w : World) : Outcome Unit :=
  let ensured := ensureUser env ctx.sender w.store.users
  if !env.writeJson "users" then { world := w, replies := [], value := none }
  else
    let w1 : World := { w with store := { w.store with users := ensured.2 } }
    let w2 : World :=
      match incrementTestsWorked ctx.sender.id w1.store.users with
      | none => w1
      | some users => { w1 with store := { w1.store with users := users } }
    if !env.writeJson "results" then { world := w2, replies := [], value := none }
    else
      { world :=
          { w2 with
            store :=
              { w2.store with
                results := w2.store.results ++ [resultRecord env ctx.sender ensured.1 test correct] } }
        replies := []
        value := some () }

/-- The handler `bot.action(/^ans:(\d+):(\d+):(\d+)$/)`, on the three numbers
of the callback data. -/
def ansAction (env : Env) (ctx : Ctx) (testId qIndex optIndex : ℕ) (w : World) : Outcome Unit :=
  match w.session.test with
  | none => { world := w, replies := [], value := some () }
  | some sessionTest =>
    if sessionTest.testId ≠ (testId : ℤ) ∨ sessionTest.index ≠ qIndex then
      { world := w, replies := [], value := some () }
    else
      match w.store.tests.find? (fun t => t.id = (testId : ℤ)) with
      | none => { world := w, replies := [], value := some () }
      | some test =>
        match test.questions[qIndex]? with
        | none => { world := w, replies := [], value := some () }
        | some question =>
          let correct :=
            if (optIndex : ℤ) = question.correct_answer then sessionTest.correct + 1
            else sessionTest.correct
          let index := sessionTest.index + 1
          if index ≥ test.questions.length then
            let r := finishTest env ctx test correct { w with session := { w.session with test := none } }
            match r.value with
            | none => r
            | some _ =>
              { world := r.world
                replies := r.replies ++ [Reply.text "✅ Test yakunlandi. Rahmat!"]
                value := some () }
          else
            let w1 : World :=
              { w with
                session :=
                  { w.session with
                    test := some { testId := sessionTest.testId, index := index, correct := correct } } }
            match sendQuestion test index with
            | some q => { world := w1, replies := [q], value := some () }
            | none => { world := w1, replies := [], value := none }

/-! ## Admin wizards -/

/-- The function `showAdminMenu(ctx)`. -/
def showAdminMenu (env : Env) (ctx : Ctx) : Reply :=
  Reply.adminMenu (isSuperAdmin env ctx.sender.id)

/-- The world with `ctx.session.admin` set to `a`. -/
def setAdmin (w : World) (a : Option AdminState) : World :=
  { w with session := { w.session with admin := a } }

/-- The delivery loop of the broadcast step over the users still to serve: `i`
is the number of `copyMessage` calls made so far, the pair is `(ok, fail)`. -/
def broadcastLoop (env : Env) : List User → ℕ → ℕ × ℕ → ℕ × ℕ
  | [], _, tally => tally
  | _ :: rest, i, (ok, fail) =>
    if env.copyMessage i then broadcastLoop env rest (i + 1) (ok + 1, fail)
    else broadcastLoop env rest (i + 1) (ok, fail + 1)

/-- The `copyMessage` calls of the broadcast step over the users still to serve,
in the order they are made, each with its recipient and whether it succeeded;
`i` is the number of calls made before. -/
def broadcastSends (env : Env) : List User → ℕ → List Reply
  | [], _ => []
  | user :: rest, i =>
    Reply.copyMessage user.id (env.copyMessage i) :: broadcastSends env rest (i + 1)

/-- The channels array the add_channel step saves for the resolved `chat`. -/
def upsertChannel (chat : Chat) (channels : List Channel) : List Channel :=
  let same : Channel → Bool := fun c =>
    decide (c.id = chat.id) || (decide (chat.username ≠ "") && decide (c.username = "@" ++ chat.username))
  match channels.find? same with
  | some _ =>
    updateFirst same
      (fun c =>
        { c with
          name := if chat.title ≠ "" then chat.title else c.name
          username := if chat.username ≠ "" then "@" ++ chat.username else c.username
          status := "active" })
      channels
  | none =>
    channels ++
      [{ id := chat.id
         name := if chat.title ≠ "" then chat.title else "Kanal"
         username := if chat.username ≠ "" then "@" ++ chat.username else ""
         status := "active" }]

/-- The block `admin.mode === "broadcast"` of `handleAdminMessage`. -/
def broadcastStep (env : Env) (ctx : Ctx) (w : World) : Outcome Bool :=
  let tally := broadcastLoop env w.store.users 0 (0, 0)
  { world := setAdmin w none
    replies :=
      broadcastSends env w.store.users 0 ++
        [Reply.text ("✅ Xabar yuborildi.\nYetkazildi: " ++ toString tally.1 ++ "\nXatolar: " ++
          toString tally.2),
         showAdminMenu env ctx]
    value := some true }

/-- The block `admin.mode === "create_test_title"` of `handleAdminMessage`;
`text` is the trimmed text of the message. -/
def createTestTitleStep (admin : AdminState) (text : String) (w : World) : Outcome Bool :=
  if text = "" then
    { world := w
      replies := [Reply.text "🧩 Test yaratish (1/5)\n\nTest nomini kiriting."]
      value := some true }
  else
    match admin.newTest with
    | none => { world := w, replies := [], value := none }
    | some newTest =>
      { world :=
          setAdmin w (some
            { admin with
              newTest := some { newTest with title := text }
              mode := "create_test_count" })
        replies := [Reply.text "🧩 Test yaratish (2/5)\n\nSavollar sonini kiriting (1-100)."]
        value := some true }

/-- The block `admin.mode === "create_test_count"` of `handleAdminMessage`. -/
def createTestCountStep (env : Env) (admin : AdminState) (text : String) (w : World) :
    Outcome Bool :=
  let rejected : Outcome Bool :=
    { world := w
      replies := [Reply.text "⚠️ Iltimos, 1 dan 100 gacha bo'lgan son kiriting."]
      value := some true }
  match env.Number text with
  | none => rejected
  | some count =>
    if !isInteger count || decide (count ≤ 0) || decide (count > 100) then rejected
    else
      match admin.newTest with
      | none => { world := w, replies := [], value := none }
      | some newTest =>
        { world :=
            setAdmin w (some
              { admin with
                newTest := some { newTest with totalQuestions := count }
                mode := "create_test_question" })
          replies :=
            [Reply.text ("🧩 Test yaratish (3/5)\n\nSavol 1/" ++ toString count ++
              " matnini kiriting.")]
          value := some true }

/-- The block `admin.mode === "create_test_question"` of `handleAdminMessage`. -/
def createTestQuestionStep (admin : AdminState) (text : String) (w : World) : Outcome Bool :=
  let admin1 : AdminState :=
    { admin with
      currentQuestion := some { question := text, options := none, correct_answer := none }
      mode := "create_test_options" }
  match admin.newTest with
  | none => { world := setAdmin w (some admin1), replies := [], value := none }
  | some newTest =>
    { world := setAdmin w (some admin1)
      replies :=
        [Reply.text ("🧩 Test yaratish (4/5)\n\nSavol " ++ toString (newTest.questions.length + 1) ++
          "/" ++ toString newTest.totalQuestions ++
          " uchun variantlarni '|' bilan ajrating (masalan: A|B|C|D).")]
      value := some true }

/-- The block `admin.mode === "create_test_options"` of `handleAdminMessage`. -/
def createTestOptionsStep (admin : AdminState) (text : String) (w : World) : Outcome Bool :=
  let options := parseOptions text
  if options.length < 2 then
    { world := w, replies := [Reply.text "⚠️ Kamida 2 ta variant kiriting."], value := some true }
  else
    match admin.currentQuestion with
    | none => { world := w, replies := [], value := none }
    | some cq =>
      let admin1 : AdminState :=
        { admin with
          currentQuestion := some { cq with options := some options }
          mode := "create_test_correct" }
      match admin.newTest with
      | none => { world := setAdmin w (some admin1), replies := [], value := none }
      | some newTest =>
        { world := setAdmin w (some admin1)
          replies :=
            [Reply.text ("🧩 Test yaratish (5/5)\n\nSavol " ++
              toString (newTest.questions.length + 1) ++ "/" ++ toString newTest.totalQuestions ++
              " uchun to'g'ri javob raqamini kiriting (1-" ++ toString options.length ++ ").")]
          value := some true }

/-- The block `admin.mode === "create_test_correct"` of `handleAdminMessage`.
Past the check `Number.isInteger(index)` the number `index` is its numerator,
and `index - 1` is stored as that integer less one. -/
def createTestCorrectStep (env : Env) (admin : AdminState) (text : String) (w : World) :
    Outcome Bool :=
  match admin.currentQuestion with
  | none => { world := w, replies := [], value := none }
  | some cq =>
    match cq.options with
    | none => { world := w, replies := [], value := none }
    | some opts =>
      let total := opts.length
      let rejected : Outcome Bool :=
        { world := w
          replies := [Reply.text ("⚠️ Iltimos, 1 dan " ++ toString total ++ " gacha son kiriting.")]
          value := some true }
      match env.Number text with
      | none => rejected
      | some index =>
        if !isInteger index || decide (index < 1) || decide (index > (total : ℚ)) then rejected
        else
          match admin.newTest with
          | none =>
            { world :=
                setAdmin w (some
                  { admin with
                    currentQuestion := some { cq with correct_answer := some (index.num - 1) } })
              replies := []
              value := none }
          | some newTest =>
            let questions :=
              newTest.questions ++
                [{ question := cq.question, options := opts, correct_answer := index.num - 1 }]
            let admin1 : AdminState :=
              { admin with
                newTest := some { newTest with questions := questions }
                currentQuestion := none }
            if ((questions.length : ℕ) : ℚ) ≥ newTest.totalQuestions then
              { world := setAdmin w (some { admin1 with mode := "create_test_status" })
                replies := [Reply.statusKeyboard]
                value := some true }
            else
              { world := setAdmin w (some { admin1 with mode := "create_test_question" })
                replies :=
                  [Reply.text ("🧩 Test yaratish (3/5)\n\nSavol " ++ toString (questions.length + 1) ++
                    "/" ++ toString newTest.totalQuestions ++ " matnini kiriting.")]
                value := some true }

/-- The block `admin.mode === "edit_test_title"` of `handleAdminMessage`. -/
def editTestTitleStep (env : Env) (ctx : Ctx) (admin : AdminState) (text : String) (w : World) :
    Outcome Bool :=
  match w.store.tests.find? (fun t => some t.id = admin.testId) with
  | none =>
    { world := setAdmin w none, replies := [Reply.text "⚠️ Test topilmadi."], value := some true }
  | some _ =>
    if !env.writeJson "tests" then { world := w, replies := [], value := none }
    else
      let tests :=
        updateFirst (fun t => some t.id = admin.testId) (fun t => { t with title := text })
          w.store.tests
      { world := setAdmin { w with store := { w.store with tests := tests } } none
        replies := [Reply.text "✅ Test nomi yangilandi.", showAdminMenu env ctx]
        value := some true }

/-- The block `admin.mode === "add_admin"` of `handleAdminMessage`. -/
def addAdminStep (env : Env) (ctx : Ctx) (text : String) (w : World) : Outcome Bool :=
  if !isSuperAdmin env ctx.sender.id then
    { world := setAdmin w none, replies := [Reply.text "⛔ Ruxsat yo'q."], value := some true }
  else
    match parseAdminId env text with
    | none =>
      { world := w
        replies := [Reply.text "⚠️ Admin ID raqamini kiriting (faqat raqam)."]
        value := some true }
    | some id =>
      if isSuperAdmin env id then
        { world := w, replies := [Reply.text "ℹ️ Bu foydalanuvchi super admin."], value := some true }
      else if isAdmin env w id then
        { world := w
          replies := [Reply.text "ℹ️ Bu foydalanuvchi allaqachon admin."]
          value := some true }
      else
        let w1 : World := { w with dynamicAdmins := w.dynamicAdmins ++ [id] }
        if !env.writeJson "admins" then { world := w1, replies := [], value := none }
        else
          { world := setAdmin { w1 with store := { w1.store with admins := w1.dynamicAdmins } } none
            replies := [Reply.text ("✅ Admin qo'shildi: " ++ toString id), showAdminMenu env ctx]
            value := some true }

/-- The block `admin.mode === "remove_admin"` of `handleAdminMessage`. -/
def removeAdminStep (env : Env) (ctx : Ctx) (text : String) (w : World) : Outcome Bool :=
  if !isSuperAdmin env ctx.sender.id then
    { world := setAdmin w none, replies := [Reply.text "⛔ Ruxsat yo'q."], value := some true }
  else
    match parseAdminId env text with
    | none =>
      { world := w
        replies := [Reply.text "⚠️ Admin ID raqamini kiriting (faqat raqam)."]
        value := some true }
    | some id =>
      if isSuperAdmin env id then
        { world := w
          replies := [Reply.text "⚠️ Super adminni olib tashlab bo'lmaydi."]
          value := some true }
      else if decide (id ∈ env.ADMIN_IDS) then
        { world := w
          replies := [Reply.text "⚠️ Bu admin .env orqali belgilangan, olib tashlab bo'lmaydi."]
          value := some true }
      else if !decide (id ∈ w.dynamicAdmins) then
        { world := w, replies := [Reply.text "ℹ️ Bu foydalanuvchi admin emas."], value := some true }
      else
        let w1 : World := { w with dynamicAdmins := w.dynamicAdmins.filter (fun a => a ≠ id) }
        if !env.writeJson "admins" then { world := w1, replies := [], value := none }
        else
          { world := setAdmin { w1 with store := { w1.store with admins := w1.dynamicAdmins } } none
            replies :=
              [Reply.text ("✅ Admin olib tashlandi: " ++ toString id), showAdminMenu env ctx]
            value := some true }

/-- The block `admin.mode === "add_channel"` of `handleAdminMessage`. -/
def addChannelStep (env : Env) (ctx : Ctx) (text : String) (w : World) : Outcome Bool :=
  if !startsWithChar '@' text && !isSignedDigits text then
    { world := w
      replies :=
        [Reply.text "⚠️ Kanal username yoki ID kiriting (masalan: @kanal yoki -100123...)."]
      value := some true }
  else
    let failed : Outcome Bool :=
      { world := w
        replies := [Reply.text "⚠️ Kanal topilmadi yoki botda ruxsat yo'q."]
        value := some true }
    match env.getChat text with
    | none => failed
    | some chat =>
      if chat.type ≠ "channel" then
        { world := w
          replies := [Reply.text "⚠️ Bu kanal emas. Iltimos, kanal kiriting."]
          value := some true }
      else if !env.writeJson "channels" then failed
      else
        { world :=
            setAdmin
              { w with store := { w.store with channels := upsertChannel chat w.store.channels } }
              none
          replies :=
            [Reply.text ("✅ Kanal qo'shildi: " ++
              (if chat.title ≠ "" then chat.title else toString chat.id)),
             showAdminMenu env ctx]
          value := some true }

/-- The function `handleAdminMessage(ctx)`, each of its mode blocks being the
step above; the value is the boolean it returns. -/
def handleAdminMessage (env : Env) (ctx : Ctx) (w : World) : Outcome Bool :=
  match w.session.admin with
  | none => { world := w, replies := [], value := some false }
  | some admin =>
    if truthy ctx.text && startsWithChar '/' (trim (ctx.text.getD "")) then
      { world := w, replies := [], value := some false }
    else if admin.mode = "broadcast" then broadcastStep env ctx w
    else if !truthy ctx.text then
      { world := w, replies := [Reply.text "⚠️ Iltimos, matn yuboring."], value := some true }
    else
      let text := trim (ctx.text.getD "")
      if admin.mode = "create_test_title" then createTestTitleStep admin text w
      else if admin.mode = "create_test_count" then createTestCountStep env admin text w
      else if admin.mode = "create_test_question" then createTestQuestionStep admin text w
      else if admin.mode = "create_test_options" then createTestOptionsStep admin text w
      else if admin.mode = "create_test_correct" then createTestCorrectStep env admin text w
      else if admin.mode = "edit_test_title" then editTestTitleStep env ctx admin text w
      else if admin.mode = "add_admin" then addAdminStep env ctx text w
      else if admin.mode = "remove_admin" then removeAdminStep env ctx text w
      else if admin.mode = "add_channel" then addChannelStep env ctx text w
      else { world := w, replies := [], value := some false }

/-! ## Test administration -/

/-- The session value the handler of "🧩 Test yaratish" installs. -/
def createTestEntry : AdminState :=
  { mode := "create_test_title"
    newTest := some { title := "", totalQuestions := 0, questions := [] }
    currentQuestion := none
    testId := none }

/-- The handler `bot.hears("🧩 Test yaratish")`. -/
def createTestHears (env : Env) (ctx : Ctx) (w : World) : Outcome Unit :=
  if !isAdmin env w ctx.sender.id then { world := w, replies := [], value := some () }
  else
    { world := setAdmin w (some createTestEntry)
      replies := [Reply.text "🧩 Test yaratish (1/5)\n\nTest nomini kiriting."]
      value := some () }

/-- The expression `testsData.tests.reduce((max, t) => Math.max(max, t.id), 0)`:
the greatest id, `0` for a collection without a positive id. -/
def maxId (tests : List Test) : ℤ :=
  tests.foldl (fun m t => max m t.id) 0

/-- The expression `testsData.tests.reduce((max, t) => Math.max(max, t.id), 0) + 1`,
the sum being the one of binary64. -/
def nextId (tests : List Test) : ℤ :=
  addOne (maxId tests)

/-- The handler `bot.action(/^test_status:(open|closed)$/)`; `status` is the
matched word. -/
def testStatusAction (env : Env) (ctx : Ctx) (status : String) (w : World) : Outcome Unit :=
  if !isAdmin env w ctx.sender.id then { world := w, replies := [], value := some () }
  else
    match w.session.admin with
    | none => { world := w, replies := [], value := some () }
    | some admin =>
      if admin.mode ≠ "create_test_status" then { world := w, replies := [], value := some () }
      else
        match admin.newTest with
        | none => { world := w, replies := [], value := none }
        | some newTest =>
          let record : Test :=
            { id := nextId w.store.tests
              title := newTest.title
              status := status
              questions := newTest.questions
              created_at := env.formatDate }
          if !env.writeJson "tests" then { world := w, replies := [], value := none }
          else
            { world :=
                setAdmin { w with store := { w.store with tests := w.store.tests ++ [record] } } none
              replies :=
                [Reply.text ("✅ Test yaratildi: #" ++ toString record.id ++ " " ++ record.title),
                 showAdminMenu env ctx]
              value := some () }

/-- The handler `bot.action(/^test_delete_confirm:(\d+)$/)`. -/
def testDeleteConfirmAction (env : Env) (ctx : Ctx) (testId : ℕ) (w : World) : Outcome Unit :=
  if !isAdmin env w ctx.sender.id then { world := w, replies := [], value := some () }
  else
    let tests := w.store.tests.filter (fun t => t.id ≠ (testId : ℤ))
    if tests.length = w.store.tests.length then
      { world := w, replies := [Reply.text "⚠️ Test topilmadi."], value := some () }
    else if !env.writeJson "tests" then { world := w, replies := [], value := none }
    else
      { world := { w with store := { w.store with tests := tests } }
        replies := [Reply.text "✅ Test o'chirildi."]
        value := some () }

/-- The function `formatTestStatus(status)`. -/
def formatTestStatus (status : String) : String :=
  if status = "open" then "✅ Ochiq" else "❌ Yopiq"

/-- The handler `bot.action(/^test_toggle:(\d+)$/)`. -/
def testToggleAction (env : Env) (ctx : Ctx) (testId : ℕ) (w : World) : Outcome Unit :=
  if !isAdmin env w ctx.sender.id then { world := w, replies := [], value := some () }
  else
    match w.store.tests.find? (fun t => t.id = (testId : ℤ)) with
    | none => { world := w, replies := [Reply.text "⚠️ Test topilmadi."], value := some () }
    | some test =>
      let status := if test.status = "open" then "closed" else "open"
      if !env.writeJson "tests" then { world := w, replies := [], value := none }
      else
        { world :=
            { w with
              store :=
                { w.store with
                  tests :=
                    updateFirst (fun t => t.id = (testId : ℤ)) (fun t => { t with status := status })
                      w.store.tests } }
          replies := [Reply.text ("✅ Test holati yangilandi: " ++ formatTestStatus status)]
          value := some () }

/-- The handler `bot.action(/^test_edit:(\d+)$/)`. -/
def testEditAction (env : Env) (ctx : Ctx) (testId : ℕ) (w : World) : Outcome Unit :=
  if !isAdmin env w ctx.sender.id then { world := w, replies := [], value := some () }
  else
    { world :=
        setAdmin w (some
          { mode := "edit_test_title", newTest := none, currentQuestion := none,
            testId := some (testId : ℤ) })
      replies := [Reply.text "✏️ Test tahriri\n\nYangi test nomini kiriting."]
      value := some () }

/-- The handler `bot.action(/^remove_channel:(-?\\d+)$/)`. -/
def removeChannelAction (env : Env) (ctx : Ctx) (channelId : ℤ) (w : World) : Outcome Unit :=
  if !isAdmin env w ctx.sender.id then { world := w, replies := [], value := some () }
  else
    match w.store.channels.find? (fun c => c.id = channelId) with
    | none => { world := w, replies := [Reply.text "⚠️ Kanal topilmadi."], value := some () }
    | some channel =>
      if !env.writeJson "channels" then { world := w, replies := [], value := none }
      else
        { world :=
            { w with
              store :=
                { w.store with
                  channels :=
                    updateFirst (fun c => c.id = channelId) (fun c => { c with status := "inactive" })
                      w.store.channels } }
          replies := [Reply.text ("✅ Kanal o'chirildi: " ++ channel.name)]
          value := some () }

/-- The handler `bot.on("message")`; the value tells whether the message was
consumed (`false`: `next()` is called). -/
def onMessage (env : Env) (ctx : Ctx) (w : World) : Outcome Bool :=
  if isAdmin env w ctx.sender.id && w.session.admin.isSome then handleAdminMessage env ctx w
  else { world := w, replies := [], value := some false }

/-- The handler `bot.command("cancel")`. -/
def cancelCommand (w : World) : Outcome Unit :=
  { world := { w with session := { admin := none, test := none } }
    replies := [Reply.text "✅ Bekor qilindi."]
    value := some () }

/-! ## Menu and quiz entry -/

/-- The function `getActiveChannels()`. -/
def getActiveChannels (w : World) : List Channel :=
  w.store.channels.filter (fun c => c.status = "active")

/-- The function `checkAllChannels(ctx)`; a `getChatMember` call that throws
(`none`) counts as not joined. -/
def checkAllChannels (env : Env) (ctx : Ctx) (w : World) : Bool :=
  (getActiveChannels w).all (fun c =>
    match env.getChatMember c.id ctx.sender.id with
    | some status => decide (status ∈ ["creator", "administrator", "member"])
    | none => false)

/-- The reply of `ensureJoined(ctx)` to a sender who has not joined. -/
def notJoined : Reply :=
  Reply.text
    "⛔ Kirish cheklangan\n\nBotdan foydalanish uchun barcha kanallarga a'zo bo'lishingiz kerak."

/-- The function `getAttemptedTestIds(userId)`: the test ids of the user's
results. -/
def getAttemptedTestIds (userId : ℤ) (w : World) : List ℤ :=
  (w.store.results.filter (fun r => r.user_id = userId)).map (fun r => r.test_id)

/-- The handler `bot.hears("📝 Testlar")`. -/
def testsHears (env : Env) (ctx : Ctx) (w : World) : Outcome Unit :=
  if !checkAllChannels env ctx w then { world := w, replies := [notJoined], value := some () }
  else
    let openTests := w.store.tests.filter (fun t => t.status = "open")
    if openTests.length = 0 then
      { world := w, replies := [Reply.text "⏳ Hozir testlar yopiq."], value := some () }
    else
      let attempted := getAttemptedTestIds ctx.sender.id w
      let availableTests := openTests.filter (fun t => !decide (t.id ∈ attempted))
      match availableTests with
      | [] =>
        { world := w
          replies := [Reply.text "✅ Siz barcha ochiq testlarni ishlab bo'lgansiz."]
          value := some () }
      | [test] => startTest test w
      | _ => { world := w, replies := [Reply.testChoices availableTests], value := some () }

/-- The handler `bot.action(/^start_test:(\\d+)$/)`. -/
def startTestAction (env : Env) (ctx : Ctx) (testId : ℕ) (w : World) : Outcome Unit :=
  if !checkAllChannels env ctx w then { world := w, replies := [notJoined], value := some () }
  else if decide ((testId : ℤ) ∈ getAttemptedTestIds ctx.sender.id w) then
    { world := w, replies := [Reply.text "⚠️ Bu testni allaqachon ishlagansiz."], value := some () }
  else
    match w.store.tests.find? (fun t => decide (t.id = (testId : ℤ)) && decide (t.status = "open")) with
    | none => { world := w, replies := [Reply.text "⏳ Hozir testlar yopiq."], value := some () }
    | some test => startTest test w

/-- The entry of a one-state wizard: `ctx.session.admin = { mode }` for a sender
who is allowed, nothing for another. -/
def enterWizard (allowed : Bool) (mode : String) (prompt : String) (w : World) : Outcome Unit :=
  if !allowed then { world := w, replies := [], value := some () }
  else
    { world :=
        setAdmin w (some { mode := mode, newTest := none, currentQuestion := none, testId := none })
      replies := [Reply.text prompt]
      value := some () }

/-- The handler `bot.hears("📣 Xabar yuborish")`. -/
def broadcastHears (env : Env) (ctx : Ctx) (w : World) : Outcome Unit :=
  enterWizard (isAdmin env w ctx.sender.id) "broadcast"
    "📣 Xabar yuborish\n\nYuboriladigan xabarni jo'nating.\nBekor qilish: /cancel" w

/-- The handler `bot.action("admins_add")`. -/
def adminsAddAction (env : Env) (ctx : Ctx) (w : World) : Outcome Unit :=
  enterWizard (isSuperAdmin env ctx.sender.id) "add_admin"
    "👑 Admin qo'shish\n\nAdmin ID raqamini kiriting." w

/-- The handler `bot.action("admins_remove")`. -/
def adminsRemoveAction (env : Env) (ctx : Ctx) (w : World) : Outcome Unit :=
  enterWizard (isSuperAdmin env ctx.sender.id) "remove_admin"
    "👑 Admin o'chirish\n\nAdmin ID raqamini kiriting." w

/-- The handler `bot.action("channels_add")`. -/
def channelsAddAction (env : Env) (ctx : Ctx) (w : World) : Outcome Unit :=
  enterWizard (isAdmin env w ctx.sender.id) "add_channel"
    "📡 Kanal qo'shish\n\nKanal username yoki ID kiriting (masalan: @kanal yoki -100123...)." w

/-- An informational handler (`📚 Testlar`, `📊 Natijalar`, `👥 Foydalanuvchilar`,
`👑 Adminlar`, `📡 Kanallar`, `ℹ️ Bot haqida`, `⬅️ Orqaga`): for a sender who is
allowed it sends its listing, and it changes nothing. -/
def infoHears (allowed : Bool) (handler : String) (w : World) : Outcome Unit :=
  if !allowed then { world := w, replies := [], value := some () }
  else { world := w, replies := [Reply.info handler], value := some () }

/-- The handler `bot.hears("📊 Urinishlarim")`. -/
def attemptsHears (env : Env) (ctx : Ctx) (w : World) : Outcome Unit :=
  if !checkAllChannels env ctx w then { world := w, replies := [notJoined], value := some () }
  else if (w.store.results.filter (fun r => r.user_id = ctx.sender.id)).length = 0 then
    { world := w, replies := [Reply.text "ℹ️ Hali urinishlar yo'q."], value := some () }
  else { world := w, replies := [Reply.info "📊 Urinishlarim"], value := some () }

/-- The handler `bot.start`: it records the sender among the users, then shows
the join prompt, the admin menu or the main menu. -/
def startCommand (env : Env) (ctx : Ctx) (w : World) : Outcome Unit :=
  if !env.writeJson "users" then { world := w, replies := [], value := none }
  else
    let w1 : World :=
      { w with store := { w.store with users := (ensureUser env ctx.sender w.store.users).2 } }
    if !checkAllChannels env ctx w1 then
      { world := w1, replies := [Reply.info "showJoinPrompt"], value := some () }
    else if isAdmin env w1 ctx.sender.id then
      { world := w1, replies := [showAdminMenu env ctx], value := some () }
    else { world := w1, replies := [Reply.info "showMainMenu"], value := some () }

/-- The handlers that read and reply only: `/admin`, `check_channels`,
`admins_list`, `channels_remove`, `test_answers`, `test_delete` and
`test_delete_cancel`. None of them assigns to the session, calls a save
function or changes the set of dynamic admins; what they send is not
modelled. -/
def readOnlyAction (w : World) : Outcome Unit :=
  { world := w, replies := [], value := some () }

/-- The texts the `bot.hears` handlers are registered for, in the order of their
registration. -/
def menuLabels : List String :=
  ["⬅️ Orqaga", "📝 Testlar", "📊 Urinishlarim", "ℹ️ Bot haqida", "📣 Xabar yuborish",
   "🧩 Test yaratish", "📚 Testlar", "📊 Natijalar", "👥 Foydalanuvchilar", "👑 Adminlar",
   "📡 Kanallar"]

/-- The handling of a text message that is none of the commands `/start`,
`/admin`, `/cancel`: the `bot.hears` handler registered for exactly this text
runs and ends the handling; when there is none, `bot.on("message")` runs, the
last handler of the chain. -/
def onText (env : Env) (ctx : Ctx) (w : World) : Outcome Unit :=
  if ctx.text = some "⬅️ Orqaga" then infoHears true "⬅️ Orqaga" w
  else if ctx.text = some "📝 Testlar" then testsHears env ctx w
  else if ctx.text = some "📊 Urinishlarim" then attemptsHears env ctx w
  else if ctx.text = some "ℹ️ Bot haqida" then infoHears true "ℹ️ Bot haqida" w
  else if ctx.text = some "📣 Xabar yuborish" then broadcastHears env ctx w
  else if ctx.text = some "🧩 Test yaratish" then createTestHears env ctx w
  else if ctx.text = some "📚 Testlar" then infoHears (isAdmin env w ctx.sender.id) "📚 Testlar" w
  else if ctx.text = some "📊 Natijalar" then
    infoHears (isAdmin env w ctx.sender.id) "📊 Natijalar" w
  else if ctx.text = some "👥 Foydalanuvchilar" then
    infoHears (isAdmin env w ctx.sender.id) "👥 Foydalanuvchilar" w
  else if ctx.text = some "👑 Adminlar" then infoHears (isSuperAdmin env ctx.sender.id) "👑 Adminlar" w
  else if ctx.text = some "📡 Kanallar" then infoHears (isAdmin env w ctx.sender.id) "📡 Kanallar" w
  else
    let r := onMessage env ctx w
    { world := r.world, replies := r.replies, value := r.value.map (fun _ => ()) }

/-! ## Sequences of updates -/

/-- The state of the running bot: one session per user id, the collections, the
dynamic-admin set. -/
structure Bot where
  sessions : ℤ → Session
  store : Store
  dynamicAdmins : List ℚ

/-- The world the handler of an update of user `id` finds. -/
def Bot.view (b : Bot) (id : ℤ) : World :=
  { session := b.sessions id, store := b.store, dynamicAdmins := b.dynamicAdmins }

/-- The bot after the handler of an update of user `id` left the world `w`. -/
def Bot.merge (b : Bot) (id : ℤ) (w : World) : Bot :=
  { sessions := Function.update b.sessions id w.session
    store := w.store
    dynamicAdmins := w.dynamicAdmins }

/-- The updates: a text message by the menu (`text`), a text message taken
straight to `bot.on("message")` (`message`), the menu choice "🧩 Test yaratish"
(`createTest`), the callbacks of the buttons, and the commands `/cancel` and
`/start`; `readOnly` is any of the updates whose handler reads and replies
only. -/
inductive Event where
  | createTest
  | message
  | testStatus (status : String)
  | testDeleteConfirm (testId : ℕ)
  | testToggle (testId : ℕ)
  | testEdit (testId : ℕ)
  | cancel
  | text
  | startTest (testId : ℕ)
  | answer (testId qIndex optIndex : ℕ)
  | adminsAdd
  | adminsRemove
  | channelsAdd
  | removeChannel (channelId : ℤ)
  | start
  | readOnly
  deriving DecidableEq

/-- One update: what it is, who sent it with which text, and what the outside
answers while it is handled. -/
structure Update where
  env : Env
  ctx : Ctx
  event : Event

/-- The world the handler of `u` leaves. -/
def handle (u : Update) (w : World) : World :=
  match u.event with
  | Event.createTest => (createTestHears u.env u.ctx w).world
  | Event.message => (onMessage u.env u.ctx w).world
  | Event.testStatus status => (testStatusAction u.env u.ctx status w).world
  | Event.testDeleteConfirm testId => (testDeleteConfirmAction u.env u.ctx testId w).world
  | Event.testToggle testId => (testToggleAction u.env u.ctx testId w).world
  | Event.testEdit testId => (testEditAction u.env u.ctx testId w).world
  | Event.cancel => (cancelCommand w).world
  | Event.text => (onText u.env u.ctx w).world
  | Event.startTest testId => (startTestAction u.env u.ctx testId w).world
  | Event.answer testId qIndex optIndex => (ansAction u.env u.ctx testId qIndex optIndex w).world
  | Event.adminsAdd => (adminsAddAction u.env u.ctx w).world
  | Event.adminsRemove => (adminsRemoveAction u.env u.ctx w).world
  | Event.channelsAdd => (channelsAddAction u.env u.ctx w).world
  | Event.removeChannel channelId => (removeChannelAction u.env u.ctx channelId w).world
  | Event.start => (startCommand u.env u.ctx w).world
  | Event.readOnly => (readOnlyAction w).world

/-- The bot after one update. -/
def step (b : Bot) (u : Update) : Bot :=
  b.merge u.ctx.sender.id (handle u (b.view u.ctx.sender.id))

/-- The bot after a sequence of updates, handled one after the other. -/
def run (b : Bot) (us : List Update) : Bot := us.foldl step b

/-- The number of tests a user has worked, as the users collection records it
(`0` for a user it does not hold). -/
def testsWorked (users : List User) (id : ℤ) : ℕ :=
  match users.find? (fun u => u.id = id) with
  | some u => u.tests_worked
  | none => 0

/-- The id of the test the update `u` creates on the bot `b`: the id of the
record its `test_status` handler appended to the tests, `none` when it appended
none. -/
def createdId (b : Bot) (u : Update) : Option ℤ :=
  match u.event with
  | Event.testStatus _ =>
    if (step b u).store.tests.length = b.store.tests.length + 1 then
      (step b u).store.tests.getLast?.map (fun t => t.id)
    else none
  | _ => none

/-- The ids of the tests created along a sequence of updates, in the order of
their creation. -/
def createdIds : Bot → List Update → List ℤ
  | _, [] => []
  | b, u :: us => (createdId b u).toList ++ createdIds (step b u) us

/-- The ids of the tests of a collection, in its order. -/
def testIds (tests : List Test) : List ℤ := tests.map (fun t => t.id)

/-- The invariant of a question: `0 ≤ correct_answer < options.length`. -/
def inRange (q : Question) : Prop :=
  0 ≤ q.correct_answer ∧ q.correct_answer < (q.options.length : ℤ)

/-- The questions a session's creation wizard has collected so far are all in
range. A session without a wizard, and the entry state of the wizard, satisfy
it. -/
def draftsInRange (s : Session) : Prop :=
  ∀ a nt, s.admin = some a → a.newTest = some nt → ∀ q ∈ nt.questions, inRange q

/-- The message is a command: `text.trim().startsWith("/")` on a truthy text. -/
def isCommand (ctx : Ctx) : Bool :=
  truthy ctx.text && startsWithChar '/' (trim (ctx.text.getD ""))

/-- The text the wizard steps read: `ctx.message.text.trim()`. -/
def messageText (ctx : Ctx) : String := trim (ctx.text.getD "")

/-- The validation failures of the creation wizard, in the words of the spec:
at the Title step an empty title; at the Count step a count that is no integer
in `1..100`; at the Options step fewer than two non-empty entries after
splitting on `|` and trimming; at the Correct step an answer that is no integer
in `1..` the number of options. -/
def failsValidation (env : Env) (admin : AdminState) (text : String) : Prop :=
  (admin.mode = "create_test_title" ∧ text = "") ∨
  (admin.mode = "create_test_count" ∧
    ¬ ∃ n : ℤ, env.Number text = some (n : ℚ) ∧ 1 ≤ n ∧ n ≤ 100) ∨
  (admin.mode = "create_test_options" ∧ (parseOptions text).length < 2) ∨
  (admin.mode = "create_test_correct" ∧
    ∀ cq opts, admin.currentQuestion = some cq → cq.options = some opts →
      ¬ ∃ k : ℤ, env.Number text = some (k : ℚ) ∧ 1 ≤ k ∧ k ≤ (opts.length : ℤ))

/-- One message sent to a wizard, with what the outside answers while it is
handled. -/
structure Input where
  env : Env
  ctx : Ctx

/-- The trimmed text of an input. -/
def Input.text (m : Input) : String := messageText m.ctx

/-- The number `Number(text)` of an input, `0` when it is none. -/
def Input.number (m : Input) : ℚ := (m.env.Number (messageText m.ctx)).getD 0

/-- The world after the messages `ms` were handled by `handleAdminMessage`, one
after the other. -/
def wizardRun (w : World) (ms : List Input) : World :=
  ms.foldl (fun v m => (handleAdminMessage m.env m.ctx v).world) w

/-- The three messages the admin entered for one question: its text, its
options, the number of its correct option. -/
structure Entered where
  question : Input
  options : Input
  correct : Input

/-- The question the three entered messages describe: the text, the options
split on `|`, and the entered number less one as the correct answer. -/
def Entered.toQuestion (e : Entered) : Question :=
  { question := e.question.text
    options := parseOptions e.options.text
    correct_answer := e.correct.number.num - 1 }

/-- The three entered messages pass the validations: at least two options, and
a correct answer that is an integer from 1 to their number. -/
def Entered.valid (e : Entered) : Prop :=
  2 ≤ (parseOptions e.options.text).length ∧
  ∃ k : ℤ, e.correct.env.Number e.correct.text = some (k : ℚ) ∧ 1 ≤ k ∧
    k ≤ ((parseOptions e.options.text).length : ℤ)

/-- The messages of a list of entered questions, in the order of entry. -/
def enteredMessages : List Entered → List Input
  | [] => []
  | e :: es => e.question :: e.options :: e.correct :: enteredMessages es

/-- What the admin entered in a run of the creation wizard: the title, the count
and, question after question, the three messages of each. -/
structure Script where
  title : Input
  count : Input
  entered : List Entered

/-- The messages of a script, in the order of entry. -/
def Script.messages (s : Script) : List Input :=
  s.title :: s.count :: enteredMessages s.entered

/-- The object `newTest` a script describes. -/
def Script.newTest (s : Script) : NewTest :=
  { title := s.title.text
    totalQuestions := s.count.number
    questions := s.entered.map Entered.toQuestion }

/-- The script declares the count `n`, an integer from 1 to 100, has a non-empty
title, and every question entered so far passed the validations. -/
def Script.declares (s : Script) (n : ℤ) : Prop :=
  s.title.text ≠ "" ∧ s.count.env.Number s.count.text = some (n : ℚ) ∧ 1 ≤ n ∧ n ≤ 100 ∧
  ∀ e ∈ s.entered, e.valid

/-- The state of the creation wizard after the accepted messages `S`: what the
entry state, the Title step, the Count step and the steps of the loop leave. -/
inductive Shape : List Input → AdminState → Prop where
  | title (a : AdminState) :
      a.mode = "create_test_title" →
      a.newTest = some { title := "", totalQuestions := 0, questions := [] } →
      Shape [] a
  | count (t : Input) (a : AdminState) :
      a.mode = "create_test_count" → t.text ≠ "" →
      a.newTest = some { title := t.text, totalQuestions := 0, questions := [] } →
      Shape [t] a
  | question (s : Script) (n : ℤ) (a : AdminState) :
      a.mode = "create_test_question" → s.declares n → (s.entered.length : ℤ) < n →
      a.newTest = some s.newTest →
      Shape s.messages a
  | options (s : Script) (n : ℤ) (q : Input) (a : AdminState) :
      a.mode = "create_test_options" → s.declares n → (s.entered.length : ℤ) < n →
      a.newTest = some s.newTest →
      a.currentQuestion = some { question := q.text, options := none, correct_answer := none } →
      Shape (s.messages ++ [q]) a
  | correct (s : Script) (n : ℤ) (q o : Input) (a : AdminState) :
      a.mode = "create_test_correct" → s.declares n → (s.entered.length : ℤ) < n →
      a.newTest = some s.newTest → 2 ≤ (parseOptions o.text).length →
      a.currentQuestion
        = some { question := q.text, options := some (parseOptions o.text), correct_answer := none } →
      Shape (s.messages ++ [q, o]) a
  | status (s : Script) (n : ℤ) (a : AdminState) :
      a.mode = "create_test_status" → s.declares n → (s.entered.length : ℤ) = n →
      a.newTest = some s.newTest →
      Shape s.messages a

/-- The string has no leading and no trailing whitespace. -/
def noEdgeWhiteSpace (s : String) : Prop :=
  (∀ c, s.data.head? = some c → isWhiteSpace c = false) ∧
  (∀ c, s.data.getLast? = some c → isWhiteSpace c = false)

/-- The outcomes of the first `n` deliveries of a broadcast, in their order. -/
def deliveryOutcomes (env : Env) (n : ℕ) : List Bool := (List.range n).map env.copyMessage

/-- The report the broadcast step sends for a tally of deliveries and errors. -/
def broadcastReport (delivered errors : ℕ) : Reply :=
  Reply.text ("✅ Xabar yuborildi.\nYetkazildi: " ++ toString delivered ++ "\nXatolar: " ++
    toString errors)

/-- The ids of the channels of a collection, in its order. -/
def channelIds (channels : List Channel) : List ℤ := channels.map (fun c => c.id)

/-! ## Handlers that run at the same time

A handler that changes a collection reads it (`await getTestsData()`), changes
the copy it holds, and writes the copy back (`await saveTestsData(data)`). It can
be suspended at each `await`, so the read and the write of one handler are two
steps between which the steps of another handler can run. `writeJson` puts the
writes of one collection in a queue: each write replaces the whole collection,
one after the other, in the order of submission. -/

/-- The part of the `test_toggle` handler between its read and its write: the
copy of the tests with the status of its test toggled; `none` when the copy has
no such test and the handler ends without writing. -/
def toggleRead (testId : ℕ) (tests : List Test) : Option (List Test) :=
  match tests.find? (fun t => t.id = (testId : ℤ)) with
  | none => none
  | some test =>
    some (updateFirst (fun t => t.id = (testId : ℤ))
      (fun t => { t with status := if test.status = "open" then "closed" else "open" }) tests)

/-- One of two handlers that run at the same time. -/
inductive Task where
  | first
  | second
  deriving DecidableEq

/-- A step of one of the two handlers: its read of the collection, or its
write. -/
inductive Atom where
  | read (t : Task)
  | write (t : Task)
  deriving DecidableEq

/-- The tests collection as persisted, and the copy each of the two handlers
holds after its read (`none` before the read, and when the handler ended
without a copy to write). -/
structure Shared where
  tests : List Test
  first : Option (List Test)
  second : Option (List Test)
  deriving DecidableEq

/-- One step of one of two handlers, whose changes of the copy they read are
`fa` and `fb`. -/
def Shared.step (fa fb : List Test → Option (List Test)) (s : Shared) : Atom → Shared
  | Atom.read Task.first => { s with first := fa s.tests }
  | Atom.read Task.second => { s with second := fb s.tests }
  | Atom.write Task.first =>
    match s.first with
    | some data => { s with tests := data }
    | none => s
  | Atom.write Task.second =>
    match s.second with
    | some data => { s with tests := data }
    | none => s

/-- The tests collection after the steps of a schedule, from the collection
`tests`. -/
def interleave (fa fb : List Test → Option (List Test)) (tests : List Test)
    (schedule : List Atom) : List Test :=
  (schedule.foldl (Shared.step fa fb) { tests := tests, first := none, second := none }).tests

/-- The schedules of two handlers that both complete: each reads once, then
writes once. -/
def schedules : List (List Atom) :=
  [[Atom.read Task.first, Atom.write Task.first, Atom.read Task.second, Atom.write Task.second],
   [Atom.read Task.second, Atom.write Task.second, Atom.read Task.first, Atom.write Task.first],
   [Atom.read Task.first, Atom.read Task.second, Atom.write Task.first, Atom.write Task.second],
   [Atom.read Task.first, Atom.read Task.second, Atom.write Task.second, Atom.write Task.first],
   [Atom.read Task.second, Atom.read Task.first, Atom.write Task.first, Atom.write Task.second],
   [Atom.read Task.second, Atom.read Task.first, Atom.write Task.second, Atom.write Task.first]]

/-- The collection after a handler with the change `f` ran alone on `tests`. -/
def alone (f : List Test → Option (List Test)) (tests : List Test) : List Test :=
  (f tests).getD tests

/-- User `id` is no administrator when any of their updates of the sequence is
handled: `isAdmin(id)` is false on the bot each of them finds. -/
def neverAdmin (id : ℤ) : Bot → List Update → Bool
  | _, [] => true
  | b, u :: us =>
    (decide (u.ctx.sender.id ≠ id) || !isAdmin u.env (b.view id) id) && neverAdmin id (step b u) us

/-- The (user, test) pairs of the results, in their order; at most one result
per pair means that this list has no duplicates. -/
def resultPairs (results : List Result) : List (ℤ × ℤ) :=
  results.map (fun r => (r.user_id, r.test_id))

/-- The pieces of a text cut at every `sep`, as a specification: there is at
least one piece, no piece holds a `sep`, and the pieces joined with a `sep`
between them are the text. -/
def IsSplit (sep : Char) (cs : List Char) (pieces : List (List Char)) : Prop :=
  pieces ≠ [] ∧ (∀ p ∈ pieces, sep ∉ p) ∧ List.intercalate [sep] pieces = cs

/-- The text `o` is the text `p` trimmed, as a specification: `p` is `o` between
two runs of whitespace, and `o` neither starts nor ends with whitespace. -/
def IsTrimmed (p o : List Char) : Prop :=
  (∃ pre post : List Char, (∀ c ∈ pre, isWhiteSpace c = true) ∧
    (∀ c ∈ post, isWhiteSpace c = true) ∧ p = pre ++ o ++ post) ∧
  (∀ c, o.head? = some c → isWhiteSpace c = false) ∧
  (∀ c, o.getLast? = some c → isWhiteSpace c = false)

/-! ## Sample values -/

/-- A stand-in for `Number(text)` in the sample values: on a non-empty text of
decimal digits it is the number `Number` returns, on any other text it is none
(which is what `Number` returns on a text that is no numeral, as "many"). The
theorems hold for every `Number`; the samples use this one on such texts only. -/
def decimalNumber (text : String) : Option ℚ :=
  if text.data.all (fun c => '0' ≤ c && c ≤ '9') && !text.data.isEmpty then
    some (text.data.foldl (fun n c => 10 * n + (c.toNat - 48)) 0 : ℕ)
  else none

/-- An environment with one configured admin, `7`, in which every write and
every delivery succeeds. -/
def sampleEnv : Env :=
  { SUPER_ADMIN_IDS := []
    ADMIN_IDS := [7]
    Number := decimalNumber
    formatDate := "2024-05-01"
    writeJson := fun _ => true
    copyMessage := fun _ => true
    getChat := fun _ => none
    getChatMember := fun _ _ => some "member" }

/-- A world with empty collections and an empty session. -/
def emptyWorld : World :=
  { session := { admin := none, test := none }
    store := { users := [], channels := [], tests := [], results := [], admins := [] }
    dynamicAdmins := [] }

/-- The test "Math" of the end-to-end example: one question, "2+2?", options
"3" and "4", the second one correct. -/
def mathTest : Test :=
  { id := 1
    title := "Math"
    status := "open"
    questions := [{ question := "2+2?", options := ["3", "4"], correct_answer := 1 }]
    created_at := "2024-05-01" }

/-- A callback of user `42`. -/
def userCtx : Ctx :=
  { sender := { id := 42, username := "feruza", first_name := "Feruza", last_name := "" }
    text := none }

/-- A text message of the configured admin `7`. -/
def adminCtx (text : String) : Ctx :=
  { sender := { id := 7, username := "admin", first_name := "Admin", last_name := "" }
    text := some text }

/-- The world of user `42` in the middle of the test "Math": the test is in the
collection, the session is at its first and only question. -/
def quizWorld : World :=
  { session := { admin := none, test := some { testId := 1, index := 0, correct := 0 } }
    store := { users := [], channels := [], tests := [mathTest], results := [], admins := [] }
    dynamicAdmins := [] }

/-- A test "Pairs" of two questions. -/
def pairsTest : Test :=
  { id := 2
    title := "Pairs"
    status := "open"
    questions :=
      [{ question := "1+1?", options := ["1", "2"], correct_answer := 1 },
       { question := "2+1?", options := ["3", "4"], correct_answer := 0 }]
    created_at := "2024-05-01" }

/-- The world of user `42` at the first question of the test "Pairs". -/
def pairsWorld : World :=
  { session := { admin := none, test := some { testId := 2, index := 0, correct := 0 } }
    store :=
      { users := [], channels := [], tests := [mathTest, pairsTest], results := [], admins := [] }
    dynamicAdmins := [] }

/-- The bot at its first start: no session, empty collections. -/
def emptyBot : Bot :=
  { sessions := fun _ => { admin := none, test := none }
    store := { users := [], channels := [], tests := [], results := [], admins := [] }
    dynamicAdmins := [] }

/-- A text message of the admin `7`. -/
def adminSays (text : String) : Update :=
  { env := sampleEnv, ctx := adminCtx text, event := Event.message }

/-- A menu choice or a button press of the admin `7`. -/
def adminDoes (event : Event) : Update :=
  { env := sampleEnv, ctx := adminCtx "", event := event }

/-- The creation wizard run for the test "Math", up to the status keyboard. -/
def enterMath : List Update :=
  [adminDoes Event.createTest, adminSays "Math", adminSays "1", adminSays "2+2?",
   adminSays "3|4", adminSays "2"]

/-- The creation of the test "Math", status open. -/
def createMath : List Update :=
  enterMath ++ [adminDoes (Event.testStatus "open")]

/-- The test "Math" created, deleted, and created again. -/
def reuseScript : List Update :=
  createMath ++ [adminDoes (Event.testDeleteConfirm 1)] ++ createMath

/-- The world the admin `7` finds after the test "Math" was created and the
wizard was run a second time up to the status keyboard. -/
def statusWorld : World := (run emptyBot (createMath ++ enterMath)).view 7

/-- The wizard state at the Count step, the title "Math" entered. -/
def countAdmin : AdminState :=
  { mode := "create_test_count"
    newTest := some { title := "Math", totalQuestions := 0, questions := [] }
    currentQuestion := none
    testId := none }

/-- The wizard state at the Correct step of the only question of "Math". -/
def correctAdmin : AdminState :=
  { mode := "create_test_correct"
    newTest := some { title := "Math", totalQuestions := 1, questions := [] }
    currentQuestion := some { question := "2+2?", options := some ["3", "4"], correct_answer := none }
    testId := none }

/-- The world of the admin `7` with the wizard state `admin`, over empty
collections. -/
def wizardWorld (admin : AdminState) : World :=
  { emptyWorld with session := { admin := some admin, test := none } }

/-- A text message of the admin `7` as an input of a wizard. -/
def adminInput (text : String) : Input :=
  { env := sampleEnv, ctx := adminCtx text }

/-- The messages that enter the test "Math": title, count, question, options,
correct answer, with a count and an answer that are turned down on the way. -/
def mathInputs : List Input :=
  [adminInput "Math", adminInput "many", adminInput "1", adminInput "2+2?", adminInput "3|4",
   adminInput "5", adminInput "2"]

/-- The wizard state at the status keyboard, the test "Math" entered. -/
def statusAdmin : AdminState :=
  { mode := "create_test_status"
    newTest := some
      { title := "Math", totalQuestions := 1
        questions := [{ question := "2+2?", options := ["3", "4"], correct_answer := 1 }] }
    currentQuestion := none
    testId := none }

/-- The wizard state at the Options step of the only question of "Math". -/
def optionsAdmin : AdminState :=
  { mode := "create_test_options"
    newTest := some { title := "Math", totalQuestions := 1, questions := [] }
    currentQuestion := some { question := "2+2?", options := none, correct_answer := none }
    testId := none }

/-- An environment with the super-admin `1`, the configured admin `7`, in which
every write and every delivery succeeds. -/
def superEnv : Env := { sampleEnv with SUPER_ADMIN_IDS := [1] }

/-- A text message of the super-admin `1`. -/
def superCtx (text : String) : Ctx :=
  { sender := { id := 1, username := "owner", first_name := "Owner", last_name := "" }
    text := some text }

/-- The world of the super-admin `1` at the remove_admin step, with the dynamic
admins `5` and `7`; `7` is also a configured admin. -/
def removeAdminWorld : World :=
  { session :=
      { admin := some { mode := "remove_admin", newTest := none, currentQuestion := none,
                        testId := none }
        test := none }
    store := { users := [], channels := [], tests := [], results := [], admins := [5, 7] }
    dynamicAdmins := [5, 7] }

/-- An environment in which the second delivery of a broadcast fails and every
other one succeeds. -/
def secondFailsEnv : Env := { sampleEnv with copyMessage := fun i => i != 1 }

/-- A user record with the given id. -/
def userOf (id : ℤ) : User :=
  { id := id, username := "", full_name := "", joined_date := "2024-05-01", tests_worked := 0 }

/-- The world of the admin `7` at the broadcast step, with three known users. -/
def broadcastWorld : World :=
  { session :=
      { admin := some { mode := "broadcast", newTest := none, currentQuestion := none,
                        testId := none }
        test := none }
    store :=
      { users := [userOf 11, userOf 12, userOf 13], channels := [], tests := [], results := [],
        admins := [] }
    dynamicAdmins := [] }

/-- The world of the admin `7` at the add_channel step, with two channels, the
second of them inactive. -/
def channelsWorld : World :=
  { session :=
      { admin := some { mode := "add_channel", newTest := none, currentQuestion := none,
                        testId := none }
        test := none }
    store :=
      { users := []
        channels :=
          [{ id := -1001, name := "News", username := "@news", status := "active" },
           { id := -1002, name := "Quiz", username := "@quiz", status := "inactive" }]
        tests := [], results := [], admins := [] }
    dynamicAdmins := [] }

/-- An environment in which `getChat` resolves every handle to a new channel
`-1003`. -/
def channelEnv : Env :=
  { sampleEnv with
    getChat := fun _ => some { id := -1003, title := "Math", username := "math", type := "channel" } }

/-- The tests "Math" and "Pairs", both open. -/
def twoTests : List Test := [mathTest, pairsTest]

/-- A text message of the admin `7`, taken through the menu handlers. -/
def adminText (text : String) : Update :=
  { env := sampleEnv, ctx := adminCtx text, event := Event.text }

/-- A text message of user `42`, taken through the menu handlers. -/
def userText (text : String) : Update :=
  { env := sampleEnv, ctx := { userCtx with text := some text }, event := Event.text }

/-- A button press of user `42`. -/
def userDoes (event : Event) : Update :=
  { env := sampleEnv, ctx := userCtx, event := event }

/-- The admin `7` creates the test "Math"; user `42` takes it from the menu,
answers its only question, and then tries to take it again, from the menu and by
the button of an old keyboard. -/
def retakeScript : List Update :=
  createMath ++
    [userText "📝 Testlar", userDoes (Event.answer 1 0 1), userText "📝 Testlar",
     userDoes (Event.startTest 1), userDoes (Event.answer 1 0 1)]

/-- The world of user `42` in the middle of test `1` after that test was
deleted: the collection holds the open test "Pairs" only. -/
def orphanWorld : World :=
  { session := { admin := none, test := some { testId := 1, index := 0, correct := 0 } }
    store := { users := [], channels := [], tests := [pairsTest], results := [], admins := [] }
    dynamicAdmins := [] }

/-- An environment in which every write fails. -/
def failEnv : Env := { superEnv with writeJson := fun _ => false }

/-- The wizard state of the edit_test_title step for test `1`. -/
def editAdmin : AdminState :=
  { mode := "edit_test_title", newTest := none, currentQuestion := none, testId := some 1 }

/-- The wizard state of the add_admin step. -/
def addAdminState : AdminState :=
  { mode := "add_admin", newTest := none, currentQuestion := none, testId := none }

/-- The world of the admin `7` at the edit_test_title step for the test "Math". -/
def editWorld : World :=
  { session := { admin := some editAdmin, test := none }
    store := { users := [], channels := [], tests := [mathTest], results := [], admins := [] }
    dynamicAdmins := [] }

/-- An environment in which `getChat` resolves every handle to the channel
`-1003` and every write fails. -/
def channelFailEnv : Env := { channelEnv with writeJson := fun _ => false }

/-- The world of the admin `7` at the status keyboard of "Math", over a
collection that holds one test, of id `2 ^ 53`. -/
def hugeWorld : World :=
  { session := { admin := some statusAdmin, test := none }
    store :=
      { users := [], channels := [], results := [], admins := []
        tests := [{ mathTest with id := 9007199254740992 }] }
    dynamicAdmins := [] }

/-- A test of forty questions, each a copy of the question of "Math". -/
def fortyTest : Test :=
  { id := 3
    title := "Forty"
    status := "open"
    questions :=
      List.replicate 40 { question := "2+2?", options := ["3", "4"], correct_answer := 1 }
    created_at := "2024-05-01" }

/-! ## Rounding -/

/-- Rounding to the nearest integer moves a number by at most one half. -/
theorem roundHalfEven_err (q : ℚ) : |(roundHalfEven q : ℚ) - q| ≤ 1 / 2 := by
  have h1 : (⌊q⌋ : ℚ) ≤ q := Int.floor_le q
  have h2 : q < ⌊q⌋ + 1 := Int.lt_floor_add_one q
  unfold roundHalfEven
  simp only []
  split_ifs with a b c
  · rw [abs_le]; constructor <;> linarith
  · push_cast; rw [abs_le]; constructor <;> linarith
  · rw [abs_le]; constructor <;> linarith
  · push_cast; rw [abs_le]; constructor <;> linarith

/-- The relative error of one binary64 rounding is at most `2⁻⁵³`. -/
theorem fl64_err (q : ℚ) : |fl64 q - q| ≤ |q| * (2 : ℚ) ^ (-53 : ℤ) := by
  unfold fl64
  split_ifs with h0
  · simp [h0]
  · simp only []
    have hq : 0 < |q| := abs_pos.mpr h0
    set e := Int.log 2 |q| with he
    have hlow : (2 : ℚ) ^ e ≤ |q| := by
      have := Int.zpow_log_le_self (b := 2) (r := |q|) (by norm_num) hq
      simpa using this
    have hu : (0 : ℚ) < (2 : ℚ) ^ (e - 52) := by positivity
    have hr := roundHalfEven_err (q / (2 : ℚ) ^ (e - 52))
    have key : (roundHalfEven (q / (2 : ℚ) ^ (e - 52)) : ℚ) * (2 : ℚ) ^ (e - 52) - q
        = ((roundHalfEven (q / (2 : ℚ) ^ (e - 52)) : ℚ) - q / (2 : ℚ) ^ (e - 52)) * (2 : ℚ) ^ (e - 52) := by
      field_simp
    rw [key, abs_mul, abs_of_pos hu]
    have h53 : (2 : ℚ) ^ (e - 52) * (1 / 2) = (2 : ℚ) ^ e * (2 : ℚ) ^ (-53 : ℤ) := by
      rw [← zpow_add₀ (by norm_num : (2 : ℚ) ≠ 0)]
      have : e + -53 = (e - 52) + (-1) := by ring
      rw [this, zpow_add₀ (by norm_num : (2 : ℚ) ≠ 0)]
      norm_num
    calc |(roundHalfEven (q / (2 : ℚ) ^ (e - 52)) : ℚ) - q / (2 : ℚ) ^ (e - 52)| * (2 : ℚ) ^ (e - 52)
        ≤ (1 / 2) * (2 : ℚ) ^ (e - 52) := by
          exact mul_le_mul_of_nonneg_right hr hu.le
      _ = (2 : ℚ) ^ e * (2 : ℚ) ^ (-53 : ℤ) := by rw [mul_comm, h53]
      _ ≤ |q| * (2 : ℚ) ^ (-53 : ℤ) := by
          exact mul_le_mul_of_nonneg_right hlow (by positivity)

/-- The binary64 value of `(correct / total) * 100` is within `2⁻⁴⁵` of
`100 * correct / total`. -/
theorem percentage_float_close (total correct : ℕ) (ht : 0 < total) (hc : correct ≤ total) :
    |fl64 (fl64 ((correct : ℚ) / (total : ℚ)) * 100) - 100 * (correct : ℚ) / total|
      ≤ (2 : ℚ) ^ (-45 : ℤ) := by
  have htq : (0 : ℚ) < total := by exact_mod_cast ht
  set x : ℚ := (correct : ℚ) / total with hx
  have hx0 : 0 ≤ x := by positivity
  have hx1 : x ≤ 1 := by
    rw [hx, div_le_one htq]; exact_mod_cast hc
  have e1 := fl64_err x
  rw [abs_of_nonneg hx0] at e1
  set a := fl64 x with ha
  have e2 := fl64_err (a * 100)
  set y := fl64 (a * 100) with hy
  have hε : (2 : ℚ) ^ (-53 : ℤ) = 1 / 9007199254740992 := by norm_num
  have hδ : (2 : ℚ) ^ (-45 : ℤ) = 1 / 35184372088832 := by norm_num
  rw [hε] at e1 e2
  rw [hδ]
  rw [abs_le] at e1
  have ha0 : 0 ≤ a := by nlinarith
  have ha1 : a ≤ 1 + 1 / 9007199254740992 := by nlinarith
  rw [abs_of_nonneg (by positivity : 0 ≤ a * 100)] at e2
  rw [abs_le] at e2
  have hX : 100 * (correct : ℚ) / total = 100 * x := by rw [hx]; ring
  rw [hX, abs_le]
  constructor <;> nlinarith

/-- For a fraction `X` of denominator `2 * t`, `t < 2 ^ 44`, `Math.round` of a
number within `2⁻⁴⁵` of `X` is within one half of `X`. -/
theorem mathRound_nearest (y X : ℚ) (t : ℕ) (n : ℤ) (ht : 0 < t) (ht2 : t < 2 ^ 44)
    (hX : X = n / (2 * (t : ℚ))) (hy : |y - X| ≤ (2 : ℚ) ^ (-45 : ℤ)) :
    |(mathRound y : ℚ) - X| ≤ 1 / 2 := by
  have htq : (0 : ℚ) < t := by exact_mod_cast ht
  have ht2q : (t : ℚ) < 17592186044416 := by
    have h44 : (2 : ℕ) ^ 44 = 17592186044416 := by norm_num
    rw [h44] at ht2
    exact_mod_cast ht2
  have hδ : (2 : ℚ) ^ (-45 : ℤ) = 1 / 35184372088832 := by norm_num
  rw [hδ, abs_le] at hy
  unfold mathRound
  set p := ⌊y + 1 / 2⌋ with hp
  have h1 : (p : ℚ) ≤ y + 1 / 2 := Int.floor_le _
  have h2 : y + 1 / 2 < p + 1 := Int.lt_floor_add_one _
  have hXn : X * (2 * (t : ℚ)) = n := by rw [hX]; field_simp
  rw [abs_le]
  constructor
  · by_contra hcon
    push_neg at hcon
    have hlt : ((2 * p + 1) * (t : ℤ) : ℤ) < n := by
      have : (((2 * p + 1) * (t : ℤ) : ℤ) : ℚ) < (n : ℚ) := by
        push_cast
        rw [← hXn]
        nlinarith
      exact_mod_cast this
    have hle : (((2 * p + 1) * (t : ℤ) + 1 : ℤ) : ℚ) ≤ (n : ℚ) := by exact_mod_cast hlt
    push_cast at hle
    rw [← hXn] at hle
    have hup : X < (p : ℚ) + 1 / 2 + 1 / 35184372088832 := by linarith [hy.1]
    have := mul_lt_mul_of_pos_right hup (by positivity : (0 : ℚ) < 2 * t)
    nlinarith
  · by_contra hcon
    push_neg at hcon
    have hlt : n < ((2 * p - 1) * (t : ℤ) : ℤ) := by
      have : (n : ℚ) < (((2 * p - 1) * (t : ℤ) : ℤ) : ℚ) := by
        push_cast
        rw [← hXn]
        nlinarith
      exact_mod_cast this
    have hle : ((n + 1 : ℤ) : ℚ) ≤ (((2 * p - 1) * (t : ℤ) : ℤ) : ℚ) := by exact_mod_cast hlt
    push_cast at hle
    rw [← hXn] at hle
    have hlo : (p : ℚ) - 1 / 2 - 1 / 35184372088832 ≤ X := by linarith [hy.2]
    have := mul_le_mul_of_nonneg_right hlo (by positivity : (0 : ℚ) ≤ 2 * t)
    nlinarith

/-- The percentage of `finishTest` is within one half of `100 * correct / total`. -/
theorem percentage_close (total correct : ℕ) (ht : 0 < total) (hc : correct ≤ total)
    (hlen : total < 2 ^ 32) :
    |((percentage total correct : ℤ) : ℚ) - 100 * (correct : ℚ) / total| ≤ 1 / 2 := by
  have h0 : total ≠ 0 := Nat.pos_iff_ne_zero.mp ht
  have htq : (0 : ℚ) < total := by exact_mod_cast ht
  unfold percentage
  rw [if_neg h0]
  refine mathRound_nearest _ _ total (200 * (correct : ℤ)) ht ?_ ?_
    (percentage_float_close total correct ht hc)
  · exact lt_trans hlen (by norm_num)
  · push_cast
    field_simp
    ring

/-- The binary exponent of a positive rational. -/
theorem log2_eq (r : ℚ) (e : ℤ) (hlo : (2 : ℚ) ^ e ≤ r) (hhi : r < (2 : ℚ) ^ (e + 1)) :
    Int.log 2 r = e := by
  have hr : 0 < r := lt_of_lt_of_le (by positivity) hlo
  have h1 : e ≤ Int.log 2 r := by
    rw [← Int.zpow_le_iff_le_log (by norm_num) hr]
    simpa using hlo
  have h2 : Int.log 2 r < e + 1 := by
    rw [← Int.lt_zpow_iff_log_lt (by norm_num) hr]
    simpa using hhi
  omega

/-- Rounding a number whose fractional part is below one half. -/
theorem roundHalfEven_of_lt (q : ℚ) (f : ℤ) (h1 : (f : ℚ) ≤ q) (h2 : q < f + 1 / 2) :
    roundHalfEven q = f := by
  have hf : ⌊q⌋ = f := by
    rw [Int.floor_eq_iff]
    constructor
    · exact h1
    · linarith
  unfold roundHalfEven
  simp only [hf]
  rw [if_pos (by linarith)]

/-- The binary64 value of a positive number whose scaled significand rounds
down to `m`. -/
theorem fl64_of_lt (q : ℚ) (e m : ℤ) (hlo : (2 : ℚ) ^ e ≤ q) (hhi : q < (2 : ℚ) ^ (e + 1))
    (h1 : (m : ℚ) ≤ q / (2 : ℚ) ^ (e - 52)) (h2 : q / (2 : ℚ) ^ (e - 52) < m + 1 / 2) :
    fl64 q = m * (2 : ℚ) ^ (e - 52) := by
  have hq : 0 < q := lt_of_lt_of_le (by positivity) hlo
  unfold fl64
  rw [if_neg hq.ne']
  simp only [abs_of_pos hq, log2_eq q e hlo hhi, roundHalfEven_of_lt _ m h1 h2]

/-- One correct answer out of one is 100 percent. -/
theorem percentage_one_one : percentage 1 1 = 100 := by
  have ha : fl64 (((1 : ℕ) : ℚ) / ((1 : ℕ) : ℚ)) = 1 := by
    rw [fl64_of_lt _ 0 4503599627370496 (by norm_num) (by norm_num) (by norm_num) (by norm_num)]
    norm_num
  have hb : fl64 (1 * 100) = 100 := by
    rw [fl64_of_lt _ 6 7036874417766400 (by norm_num) (by norm_num) (by norm_num) (by norm_num)]
    norm_num
  unfold percentage
  rw [if_neg (by norm_num), ha, hb]
  unfold mathRound
  rw [Int.floor_eq_iff]
  norm_num

/-- At an exact half the binary64 product can fall below it: 23 correct out of 40
is 57.5 percent, `(23 / 40) * 100` is computed as `57.49999999999999`, and the
percentage is 57. -/
theorem percentage_forty : percentage 40 23 = 57 := by
  have ha : fl64 (((23 : ℕ) : ℚ) / ((40 : ℕ) : ℚ)) = 5179139571476070 * (2 : ℚ) ^ (-53 : ℤ) := by
    rw [fl64_of_lt _ (-1) 5179139571476070 (by norm_num) (by norm_num) (by norm_num) (by norm_num)]
    norm_num
  have hb : fl64 (5179139571476070 * (2 : ℚ) ^ (-53 : ℤ) * 100)
      = 8092405580431359 * (2 : ℚ) ^ (-47 : ℤ) := by
    rw [fl64_of_lt _ 5 8092405580431359 (by norm_num) (by norm_num) (by norm_num) (by norm_num)]
    norm_num
  unfold percentage
  rw [if_neg (by norm_num), ha, hb]
  unfold mathRound
  rw [Int.floor_eq_iff]
  norm_num

/-- At an exact half the binary64 product can also be the half itself, and
`Math.round` takes it up: 1 correct out of 8 is 12.5 percent, and the percentage
is 13. -/
theorem percentage_eighth : percentage 8 1 = 13 := by
  have ha : fl64 (((1 : ℕ) : ℚ) / ((8 : ℕ) : ℚ)) = 1 / 8 := by
    rw [fl64_of_lt _ (-3) 4503599627370496 (by norm_num) (by norm_num) (by norm_num) (by norm_num)]
    norm_num
  have hb : fl64 (1 / 8 * 100) = 25 / 2 := by
    rw [fl64_of_lt _ 3 7036874417766400 (by norm_num) (by norm_num) (by norm_num) (by norm_num)]
    norm_num
  unfold percentage
  rw [if_neg (by norm_num), ha, hb]
  unfold mathRound
  rw [Int.floor_eq_iff]
  norm_num

/-- An integer within one half of `x` is at least as close to `x` as any other
integer. -/
theorem nearest_of_close (p : ℤ) (x : ℚ) (h : |(p : ℚ) - x| ≤ 1 / 2) (z : ℤ) :
    |(p : ℚ) - x| ≤ |(z : ℚ) - x| := by
  by_cases hz : z = p
  · rw [hz]
  · have h1 : (1 : ℚ) ≤ |(z : ℚ) - p| := by
      have : (1 : ℤ) ≤ |z - p| := Int.one_le_abs (sub_ne_zero.mpr hz)
      exact_mod_cast this
    have h2 : |(z : ℚ) - p| ≤ |(z : ℚ) - x| + |(p : ℚ) - x| := by
      have := abs_sub_le (z : ℚ) x p
      rwa [abs_sub_comm x (p : ℚ)] at this
    linarith

/-! ## Integers in binary64 -/

/-- Rounding an integer leaves it. -/
theorem roundHalfEven_int (z : ℤ) : roundHalfEven (z : ℚ) = z := by
  unfold roundHalfEven
  simp

/-- The rounding of a tie above an even integer goes down to it. -/
theorem roundHalfEven_tie (f : ℤ) (hf : f % 2 = 0) : roundHalfEven ((f : ℚ) + 1 / 2) = f := by
  have hfl : ⌊(f : ℚ) + 1 / 2⌋ = f := by
    rw [Int.floor_eq_iff]
    constructor <;> linarith
  unfold roundHalfEven
  simp only [hfl]
  rw [if_neg (by linarith), if_neg (by linarith), if_pos hf]

/-- Binary64 holds every integer from `-2 ^ 53` to `2 ^ 53` exactly. -/
theorem fl64_int (n : ℤ) (hlo : -9007199254740992 ≤ n) (hhi : n ≤ 9007199254740992) :
    fl64 (n : ℚ) = n := by
  unfold fl64
  by_cases h0 : (n : ℚ) = 0
  · rw [if_pos h0, h0]
  · rw [if_neg h0]
    dsimp only
    have hn0 : n ≠ 0 := by
      intro h
      apply h0
      rw [h]
      rfl
    have hpos : (0 : ℚ) < |(n : ℚ)| := abs_pos.mpr h0
    have habs : |(n : ℚ)| = ((n.natAbs : ℕ) : ℚ) := by
      rw [Nat.cast_natAbs]
      push_cast
      rfl
    set e := Int.log 2 |(n : ℚ)| with he
    have hlow : (2 : ℚ) ^ e ≤ |(n : ℚ)| := by
      have := Int.zpow_log_le_self (b := 2) (r := |(n : ℚ)|) (by norm_num) hpos
      simpa using this
    have hup : |(n : ℚ)| < (2 : ℚ) ^ (e + 1) := by
      have := Int.lt_zpow_succ_log_self (b := 2) (by norm_num) |(n : ℚ)|
      simpa using this
    have hle : |(n : ℚ)| ≤ 9007199254740992 := by
      rw [abs_le]
      constructor
      · exact_mod_cast hlo
      · exact_mod_cast hhi
    have hge1 : (1 : ℚ) ≤ |(n : ℚ)| := by
      rw [habs]
      have : 1 ≤ n.natAbs := Int.natAbs_pos.mpr hn0
      exact_mod_cast this
    have he0 : 0 ≤ e := by
      rw [he, ← Int.zpow_le_iff_le_log (by norm_num) hpos]
      simpa using hge1
    have he53 : e ≤ 53 := by
      by_contra hc
      have h54 : (54 : ℤ) ≤ e := by omega
      have : (2 : ℚ) ^ (54 : ℤ) ≤ (2 : ℚ) ^ e := zpow_le_zpow_right₀ (by norm_num) h54
      have h2 : (2 : ℚ) ^ (54 : ℤ) = 18014398509481984 := by norm_num
      linarith
    -- the scaled significand is an integer
    have hint : ∃ z : ℤ, (n : ℚ) / (2 : ℚ) ^ (e - 52) = z := by
      by_cases h52 : e ≤ 52
      · refine ⟨n * 2 ^ (52 - e).toNat, ?_⟩
        have hk : (52 - e) = ((52 - e).toNat : ℤ) := (Int.toNat_of_nonneg (by omega)).symm
        have hz : (2 : ℚ) ^ (e - 52) = ((2 : ℚ) ^ ((52 - e).toNat))⁻¹ := by
          rw [← zpow_natCast, ← hk, ← zpow_neg]
          congr 1
          ring
        rw [hz]
        push_cast
        field_simp
      · have he : e = 53 := by omega
        rw [he] at hlow
        have h53 : (2 : ℚ) ^ (53 : ℤ) = 9007199254740992 := by norm_num
        have habs2 : |(n : ℚ)| = 9007199254740992 := le_antisymm hle (by linarith)
        have hcases : n = 9007199254740992 ∨ n = -9007199254740992 := by
          have : |n| = 9007199254740992 := by
            have h3 : ((|n| : ℤ) : ℚ) = 9007199254740992 := by
              rw [Int.cast_abs]
              exact habs2
            exact_mod_cast h3
          rcases abs_cases n with ⟨h1, _⟩ | ⟨h1, _⟩ <;> omega
        rcases hcases with h | h
        · refine ⟨4503599627370496, ?_⟩
          rw [h, he]
          norm_num
        · refine ⟨-4503599627370496, ?_⟩
          rw [h, he]
          norm_num
    obtain ⟨z, hz⟩ := hint
    rw [hz, roundHalfEven_int, ← hz]
    have : (2 : ℚ) ^ (e - 52) ≠ 0 := by positivity
    field_simp

/-- Beyond `2 ^ 53` every binary64 number is an integer. -/
theorem fl64_large (q : ℚ) (h : 9007199254740992 ≤ |q|) : ∃ z : ℤ, fl64 q = z := by
  have hpos : (0 : ℚ) < |q| := by linarith
  have h0 : q ≠ 0 := abs_pos.mp hpos
  unfold fl64
  rw [if_neg h0]
  dsimp only
  have he : 53 ≤ Int.log 2 |q| := by
    rw [← Int.zpow_le_iff_le_log (by norm_num) hpos]
    have h53 : (2 : ℚ) ^ (53 : ℤ) = 9007199254740992 := by norm_num
    simpa [h53] using h
  refine ⟨roundHalfEven (q / (2 : ℚ) ^ (Int.log 2 |q| - 52)) * 2 ^ (Int.log 2 |q| - 52).toNat, ?_⟩
  have hk : (Int.log 2 |q| - 52) = ((Int.log 2 |q| - 52).toNat : ℤ) :=
    (Int.toNat_of_nonneg (by omega)).symm
  push_cast
  rw [← zpow_natCast, ← hk]

/-- The integer `addOne` returns is the binary64 sum. -/
theorem addOne_eq_fl64 (m : ℤ) : ((addOne m : ℤ) : ℚ) = fl64 ((m : ℚ) + 1) := by
  unfold addOne
  split
  · rename_i h
    have := fl64_int (m + 1) h.1 h.2
    push_cast at this
    rw [this]
    push_cast
    rfl
  · rename_i h
    have hbig : (9007199254740992 : ℚ) ≤ |(m : ℚ) + 1| := by
      have hz : (9007199254740992 : ℤ) ≤ |m + 1| := by
        rcases abs_cases (m + 1) with ⟨h1, _⟩ | ⟨h1, _⟩ <;> omega
      have : ((9007199254740992 : ℤ) : ℚ) ≤ ((|m + 1| : ℤ) : ℚ) := by exact_mod_cast hz
      simpa using this
    obtain ⟨z, hz⟩ := fl64_large _ hbig
    rw [hz, Int.floor_intCast]

/-- Below `2 ^ 53` the sum is exact. -/
theorem addOne_of_lt (m : ℤ) (h0 : 0 ≤ m) (h : m < 9007199254740992) : addOne m = m + 1 := by
  unfold addOne
  rw [if_pos ⟨by omega, by omega⟩]

/-- The binary64 sum `2 ^ 53 + 1` is `2 ^ 53`: the exact sum lies halfway between
`2 ^ 53` and `2 ^ 53 + 2`, and the tie goes to the even significand. -/
theorem addOne_two_pow : addOne 9007199254740992 = 9007199254740992 := by
  have hfl : fl64 (((9007199254740992 : ℤ) : ℚ) + 1) = 9007199254740992 := by
    unfold fl64
    rw [if_neg (by norm_num)]
    dsimp only
    have hlog : Int.log 2 |((9007199254740992 : ℤ) : ℚ) + 1| = 53 := by
      rw [abs_of_pos (by norm_num)]
      exact log2_eq _ 53 (by norm_num) (by norm_num)
    rw [hlog]
    have hq : (((9007199254740992 : ℤ) : ℚ) + 1) / (2 : ℚ) ^ ((53 : ℤ) - 52)
        = ((4503599627370496 : ℤ) : ℚ) + 1 / 2 := by norm_num
    rw [hq, roundHalfEven_tie _ (by decide)]
    norm_num
  unfold addOne
  rw [if_neg (by decide), hfl]
  have : ((9007199254740992 : ℚ)) = ((9007199254740992 : ℤ) : ℚ) := by norm_num
  rw [this, Int.floor_intCast]

/-! ## Quiz engine: results -/

/-- Away from the exact halves, an integer within one half of `x` is `x` rounded
half up. -/
theorem round_of_close (p : ℤ) (x : ℚ) (h : |(p : ℚ) - x| ≤ 1 / 2)
    (hne : ∀ k : ℤ, x ≠ (k : ℚ) + 1 / 2) : p = ⌊x + 1 / 2⌋ := by
  rw [abs_le] at h
  have h1 := hne p
  have h2 := hne (p - 1)
  push_cast at h2
  have hlo : (p : ℚ) - 1 / 2 < x := lt_of_le_of_ne (by linarith) (fun e => h2 (by linarith))
  have hhi : x < (p : ℚ) + 1 / 2 := lt_of_le_of_ne (by linarith) h1
  symm
  rw [Int.floor_eq_iff]
  constructor <;> linarith

/-- C1 (amended). When the writes of `users` and `results` succeed, `finishTest`
appends one Result to the results; for a test of `total` questions (fewer than
`2 ^ 32`, the bound of an array length) and `correct ≤ total`, its percentage is
`0` when `total = 0`, and when `total > 0` it is `Math.round` of the binary64
product of 100 and the binary64 quotient `correct / total`. That number is an
integer nearest to `100 * correct / total`: no integer is closer, and unless the
quotient lies exactly halfway between two integers the percentage is the
quotient rounded half up. At an exact half either neighbour can come out: 23 of
40 gives 57 (`percentage_forty`), 1 of 8 gives 13 (`percentage_eighth`). -/
theorem finishTest_percentage (env : Env) (ctx : Ctx) (test : Test) (correct : ℕ) (w : World)
    (husers : env.writeJson "users" = true) (hresults : env.writeJson "results" = true)
    (hc : correct ≤ test.questions.length) (hlen : test.questions.length < 2 ^ 32) :
    ∃ r : Result,
      (finishTest env ctx test correct w).world.store.results = w.store.results ++ [r] ∧
      (test.questions.length = 0 → r.percentage = 0) ∧
      (0 < test.questions.length →
        r.percentage
          = mathRound (fl64 (fl64 ((correct : ℚ) / (test.questions.length : ℚ)) * 100)) ∧
        (∀ z : ℤ, |(r.percentage : ℚ) - 100 * (correct : ℚ) / test.questions.length|
          ≤ |(z : ℚ) - 100 * (correct : ℚ) / test.questions.length|) ∧
        ((∀ k : ℤ, 100 * (correct : ℚ) / test.questions.length ≠ (k : ℚ) + 1 / 2) →
          r.percentage = ⌊100 * (correct : ℚ) / test.questions.length + 1 / 2⌋)) := by
  refine ⟨resultRecord env ctx.sender (ensureUser env ctx.sender w.store.users).1 test correct,
    ?_, ?_, ?_⟩
  · simp only [finishTest, husers, hresults, Bool.not_true, Bool.false_eq_true, if_false]
    cases incrementTestsWorked ctx.sender.id (ensureUser env ctx.sender w.store.users).2 <;> rfl
  · intro h0
    simp [resultRecord, percentage, h0]
  · intro hpos
    have hclose := percentage_close _ _ hpos hc hlen
    refine ⟨?_, fun z => nearest_of_close _ _ hclose z, fun hne => round_of_close _ _ hclose hne⟩
    show percentage test.questions.length correct = _
    unfold percentage
    rw [if_neg (by omega)]

/-- C1 (amended) at the one-question test "Math" with one correct answer. -/
theorem finishTest_percentage_witness :
    sampleEnv.writeJson "users" = true ∧ sampleEnv.writeJson "results" = true ∧
    1 ≤ mathTest.questions.length ∧ mathTest.questions.length < 2 ^ 32 ∧
    ∃ r : Result,
      (finishTest sampleEnv userCtx mathTest 1 emptyWorld).world.store.results
        = emptyWorld.store.results ++ [r] ∧
      (mathTest.questions.length = 0 → r.percentage = 0) ∧
      (0 < mathTest.questions.length →
        r.percentage
          = mathRound (fl64 (fl64 (((1 : ℕ) : ℚ) / (mathTest.questions.length : ℚ)) * 100)) ∧
        (∀ z : ℤ, |(r.percentage : ℚ) - 100 * ((1 : ℕ) : ℚ) / mathTest.questions.length|
          ≤ |(z : ℚ) - 100 * ((1 : ℕ) : ℚ) / mathTest.questions.length|) ∧
        ((∀ k : ℤ, 100 * ((1 : ℕ) : ℚ) / mathTest.questions.length ≠ (k : ℚ) + 1 / 2) →
          r.percentage = ⌊100 * ((1 : ℕ) : ℚ) / mathTest.questions.length + 1 / 2⌋)) :=
  ⟨rfl, rfl, by decide, by decide,
    finishTest_percentage sampleEnv userCtx mathTest 1 emptyWorld rfl rfl (by decide) (by decide)⟩

/-- C1 (counterexample). A test of 40 questions finished with 23 correct
answers: `23 / 40 * 100` is 57.5, whose nearest integer by `Math.round` is 58,
and the Result `finishTest` appends has the percentage 57, because the binary64
product `(23 / 40) * 100` falls just below 57.5. -/
theorem finishTest_percentage_tie :
    fortyTest.questions.length = 40 ∧
    mathRound ((23 : ℚ) / 40 * 100) = 58 ∧
    (finishTest sampleEnv userCtx fortyTest 23 emptyWorld).world.store.results.map
        (fun r => r.percentage) = [57] := by
  have hlen : fortyTest.questions.length = 40 := by decide
  refine ⟨hlen, ?_, ?_⟩
  · unfold mathRound
    rw [Int.floor_eq_iff]
    norm_num
  · have hres : (finishTest sampleEnv userCtx fortyTest 23 emptyWorld).world.store.results
        = [resultRecord sampleEnv userCtx.sender
            (ensureUser sampleEnv userCtx.sender emptyWorld.store.users).1 fortyTest 23] := rfl
    rw [hres]
    simp only [List.map, resultRecord]
    rw [hlen, percentage_forty]

/-- The first element satisfying `p` after `updateFirst p f`, when `f` keeps
`p`. -/
theorem find?_updateFirst {α : Type} (p : α → Bool) (f : α → α) (hf : ∀ x, p (f x) = p x)
    (xs : List α) : (updateFirst p f xs).find? p = (xs.find? p).map f := by
  induction xs with
  | nil => rfl
  | cons x xs ih =>
    unfold updateFirst
    by_cases hx : p x = true
    · simp [hx, hf]
    · simp [hx, ih]

/-- The users `ensureUser` saves hold a user with the sender's id, with the
count of worked tests the collection had for that id. -/
theorem ensureUser_find? (env : Env) (s : Sender) (users : List User) :
    ∃ u, (ensureUser env s users).2.find? (fun v => v.id = s.id) = some u ∧
      u.tests_worked = testsWorked users s.id := by
  unfold ensureUser testsWorked
  cases h : users.find? (fun u => u.id = s.id) with
  | none =>
    refine ⟨{ id := s.id, username := s.username, full_name := fullName s,
              joined_date := env.formatDate, tests_worked := 0 }, ?_, rfl⟩
    simp [List.find?_append, h]
  | some u =>
    refine ⟨{ u with
              username := if s.username ≠ "" then s.username else u.username
              full_name := if fullName s ≠ "" then fullName s else u.full_name }, ?_, rfl⟩
    simp only []
    rw [find?_updateFirst, h]
    · rfl
    · intro x
      rfl

/-- C2. A matching answer to the last question of the session's test, when the
writes of `users` and `results` succeed: exactly one Result is appended to the
results, with the sender's id, the test's id, `correct` the session's final
count and `wrong = total - correct` (so `correct + wrong = total`); the quiz
state of the session is cleared; the sender's `tests_worked` grows by exactly
one; the handler returns after the completion message. -/
theorem ansAction_final (env : Env) (ctx : Ctx) (testId qIndex optIndex : ℕ) (w : World)
    (sessionTest : QuizState) (test : Test) (question : Question)
    (hsession : w.session.test = some sessionTest)
    (hid : sessionTest.testId = (testId : ℤ)) (hindex : sessionTest.index = qIndex)
    (htest : w.store.tests.find? (fun t => t.id = (testId : ℤ)) = some test)
    (hquestion : test.questions[qIndex]? = some question)
    (hlast : sessionTest.index + 1 = test.questions.length)
    (husers : env.writeJson "users" = true) (hresults : env.writeJson "results" = true) :
    ∃ r : Result,
      (ansAction env ctx testId qIndex optIndex w).world.store.results = w.store.results ++ [r] ∧
      r.user_id = ctx.sender.id ∧ r.test_id = test.id ∧
      r.correct = (if (optIndex : ℤ) = question.correct_answer then sessionTest.correct + 1
        else sessionTest.correct) ∧
      r.wrong = (test.questions.length : ℤ) - (r.correct : ℤ) ∧
      (r.correct : ℤ) + r.wrong = (test.questions.length : ℤ) ∧
      r.percentage = percentage test.questions.length r.correct ∧
      (ansAction env ctx testId qIndex optIndex w).world.session.test = none ∧
      testsWorked (ansAction env ctx testId qIndex optIndex w).world.store.users ctx.sender.id
        = testsWorked w.store.users ctx.sender.id + 1 ∧
      (ansAction env ctx testId qIndex optIndex w).replies = [Reply.text "✅ Test yakunlandi. Rahmat!"] ∧
      (ansAction env ctx testId qIndex optIndex w).value = some () := by
  obtain ⟨u, hu, hworked⟩ := ensureUser_find? env ctx.sender w.store.users
  have hinc : incrementTestsWorked ctx.sender.id (ensureUser env ctx.sender w.store.users).2
      = some (updateFirst (fun v => v.id = ctx.sender.id)
          (fun v => { v with tests_worked := v.tests_worked + 1 })
          (ensureUser env ctx.sender w.store.users).2) := by
    unfold incrementTestsWorked
    rw [hu]
  have hfin : (finishTest env ctx test
      (if (optIndex : ℤ) = question.correct_answer then sessionTest.correct + 1
        else sessionTest.correct)
      { w with session := { w.session with test := none } })
      = { world :=
            { session := { w.session with test := none }
              store :=
                { w.store with
                  users := updateFirst (fun v => v.id = ctx.sender.id)
                    (fun v => { v with tests_worked := v.tests_worked + 1 })
                    (ensureUser env ctx.sender w.store.users).2
                  results := w.store.results ++
                    [resultRecord env ctx.sender (ensureUser env ctx.sender w.store.users).1 test
                      (if (optIndex : ℤ) = question.correct_answer then sessionTest.correct + 1
                        else sessionTest.correct)] }
              dynamicAdmins := w.dynamicAdmins }
          replies := []
          value := some () } := by
    simp only [finishTest, husers, hresults, Bool.not_true, Bool.false_eq_true, if_false, hinc]
  have hout : ansAction env ctx testId qIndex optIndex w
      = { world :=
            { session := { w.session with test := none }
              store :=
                { w.store with
                  users := updateFirst (fun v => v.id = ctx.sender.id)
                    (fun v => { v with tests_worked := v.tests_worked + 1 })
                    (ensureUser env ctx.sender w.store.users).2
                  results := w.store.results ++
                    [resultRecord env ctx.sender (ensureUser env ctx.sender w.store.users).1 test
                      (if (optIndex : ℤ) = question.correct_answer then sessionTest.correct + 1
                        else sessionTest.correct)] }
              dynamicAdmins := w.dynamicAdmins }
          replies := [Reply.text "✅ Test yakunlandi. Rahmat!"]
          value := some () } := by
    unfold ansAction
    simp only [hsession, hid, hindex, htest, hquestion, ne_eq, not_true_eq_false, or_self,
      if_false]
    rw [if_pos (by omega)]
    simp only [← hindex, hfin, List.nil_append]
  rw [hout]
  refine ⟨_, rfl, rfl, rfl, rfl, rfl, ?_, rfl, rfl, ?_, rfl, rfl⟩
  · simp [resultRecord]
  · simp only [testsWorked]
    rw [find?_updateFirst, hu]
    · simp only [Option.map_some']
      rw [hworked]
      rfl
    · intro x
      rfl

/-- C2 at the end-to-end example: the one-question test "Math", whose correct
answer is option 1, answered with option 1, yields one Result with `correct = 1`,
`wrong = 0`, `percentage = 100`. -/
theorem ansAction_final_witness :
    quizWorld.session.test = some { testId := 1, index := 0, correct := 0 } ∧
    quizWorld.store.tests.find? (fun t => t.id = ((1 : ℕ) : ℤ)) = some mathTest ∧
    mathTest.questions[0]? = some { question := "2+2?", options := ["3", "4"], correct_answer := 1 } ∧
    sampleEnv.writeJson "users" = true ∧ sampleEnv.writeJson "results" = true ∧
    ∃ r : Result,
      (ansAction sampleEnv userCtx 1 0 1 quizWorld).world.store.results = quizWorld.store.results ++ [r] ∧
      r.user_id = 42 ∧ r.test_id = 1 ∧ r.correct = 1 ∧ r.wrong = 0 ∧ r.percentage = 100 ∧
      (ansAction sampleEnv userCtx 1 0 1 quizWorld).world.session.test = none ∧
      testsWorked (ansAction sampleEnv userCtx 1 0 1 quizWorld).world.store.users 42 = 1 := by
  refine ⟨rfl, rfl, rfl, rfl, rfl, ?_⟩
  obtain ⟨r, hres, huser, htest, hcorrect, hwrong, _, hpct, hsession, hworked, _, _⟩ :=
    ansAction_final sampleEnv userCtx 1 0 1 quizWorld { testId := 1, index := 0, correct := 0 }
      mathTest { question := "2+2?", options := ["3", "4"], correct_answer := 1 }
      rfl rfl rfl rfl rfl rfl rfl rfl
  have hc : r.correct = 1 := by
    rw [hcorrect]
    norm_num
  refine ⟨r, hres, huser, htest, hc, ?_, ?_, hsession, hworked⟩
  · rw [hwrong, hc]
    rfl
  · rw [hpct, hc]
    exact percentage_one_one

/-- C3. With a quiz in progress, `startTest` changes nothing in the world (the
quiz state, its test id, index and correct count, stays as it was) and sends
no question. -/
theorem startTest_in_progress (test : Test) (w : World) (sessionTest : QuizState)
    (h : w.session.test = some sessionTest) :
    (startTest test w).world = w ∧
    (startTest test w).world.session.test = some sessionTest ∧
    ∀ t i, Reply.question t i ∉ (startTest test w).replies := by
  unfold startTest
  simp [h]

/-- C3 at the world of a user in the middle of the test "Math", asked to start
the test "Pairs". -/
theorem startTest_in_progress_witness :
    quizWorld.session.test = some { testId := 1, index := 0, correct := 0 } ∧
    (startTest pairsTest quizWorld).world = quizWorld ∧
    (startTest pairsTest quizWorld).world.session.test
      = some { testId := 1, index := 0, correct := 0 } ∧
    ∀ t i, Reply.question t i ∉ (startTest pairsTest quizWorld).replies :=
  ⟨rfl, startTest_in_progress pairsTest quizWorld { testId := 1, index := 0, correct := 0 } rfl⟩

/-- An answer that does not match the session is dropped: nothing changes and
nothing is sent. -/
theorem ansAction_stale (env : Env) (ctx : Ctx) (testId qIndex optIndex : ℕ) (w : World)
    (h : ∀ st, w.session.test = some st → st.testId ≠ (testId : ℤ) ∨ st.index ≠ qIndex) :
    ansAction env ctx testId qIndex optIndex w = { world := w, replies := [], value := some () } := by
  unfold ansAction
  cases hs : w.session.test with
  | none => rfl
  | some st =>
    simp only []
    rw [if_pos (h st hs)]

/-- The session `finishTest` leaves is the one it found. -/
theorem finishTest_session (env : Env) (ctx : Ctx) (test : Test) (correct : ℕ) (w : World) :
    (finishTest env ctx test correct w).world.session = w.session := by
  unfold finishTest
  by_cases hu : env.writeJson "users" = true
  · by_cases hr : env.writeJson "results" = true
    · simp only [hu, hr, Bool.not_true, Bool.false_eq_true, if_false]
      cases incrementTestsWorked ctx.sender.id (ensureUser env ctx.sender w.store.users).2 <;> rfl
    · simp only [hu, hr, Bool.not_true, Bool.false_eq_true, if_false, Bool.not_false, if_true]
      cases incrementTestsWorked ctx.sender.id (ensureUser env ctx.sender w.store.users).2 <;> rfl
  · simp [hu]

/-- The quiz state a matching answer leaves: none after the last question, the
next index otherwise. -/
theorem ansAction_session_test (env : Env) (ctx : Ctx) (testId qIndex optIndex : ℕ) (w : World)
    (sessionTest : QuizState) (test : Test) (question : Question)
    (hsession : w.session.test = some sessionTest)
    (hmatch : ¬(sessionTest.testId ≠ (testId : ℤ) ∨ sessionTest.index ≠ qIndex))
    (htest : w.store.tests.find? (fun t => t.id = (testId : ℤ)) = some test)
    (hquestion : test.questions[qIndex]? = some question) :
    (ansAction env ctx testId qIndex optIndex w).world.session.test = none ∨
    ∃ c, (ansAction env ctx testId qIndex optIndex w).world.session.test
      = some { testId := sessionTest.testId, index := sessionTest.index + 1, correct := c } := by
  unfold ansAction
  simp only [hsession, hmatch, if_false, htest, hquestion]
  generalize (if (optIndex : ℤ) = question.correct_answer then sessionTest.correct + 1
    else sessionTest.correct) = c
  by_cases hlast : sessionTest.index + 1 ≥ test.questions.length
  · left
    rw [if_pos hlast]
    have hsess := finishTest_session env ctx test c
      { w with session := { w.session with test := none } }
    cases hv : (finishTest env ctx test c
      { w with session := { w.session with test := none } }).value with
    | none =>
      simp only []
      rw [hsess]
    | some v =>
      simp only []
      rw [hsess]
  · right
    rw [if_neg hlast]
    refine ⟨c, ?_⟩
    cases sendQuestion test (sessionTest.index + 1) <;> rfl

/-- After the answer handler ran for `(testId, qIndex)`, either it changed
nothing, or the session no longer waits for the answer to question `qIndex`. -/
theorem ansAction_after (env : Env) (ctx : Ctx) (testId qIndex optIndex : ℕ) (w : World) :
    (∀ env1 ctx1 opt1, ansAction env1 ctx1 testId qIndex opt1 w
        = { world := w, replies := [], value := some () }) ∨
    (∀ st, (ansAction env ctx testId qIndex optIndex w).world.session.test = some st →
        st.testId ≠ (testId : ℤ) ∨ st.index ≠ qIndex) := by
  cases hs : w.session.test with
  | none =>
    left
    intro env1 ctx1 opt1
    exact ansAction_stale env1 ctx1 testId qIndex opt1 w (by simp [hs])
  | some sessionTest =>
    by_cases hm : sessionTest.testId ≠ (testId : ℤ) ∨ sessionTest.index ≠ qIndex
    · left
      intro env1 ctx1 opt1
      refine ansAction_stale env1 ctx1 testId qIndex opt1 w ?_
      intro st hst
      rw [hs] at hst
      cases hst
      exact hm
    · cases ht : w.store.tests.find? (fun t => t.id = (testId : ℤ)) with
      | none =>
        left
        intro env1 ctx1 opt1
        unfold ansAction
        simp only [hs, hm, if_false, ht]
      | some test =>
        cases hq : test.questions[qIndex]? with
        | none =>
          left
          intro env1 ctx1 opt1
          unfold ansAction
          simp only [hs, hm, if_false, ht, hq]
        | some question =>
          right
          intro st hst
          rcases ansAction_session_test env ctx testId qIndex optIndex w sessionTest test question
            hs hm ht hq with h | ⟨c, h⟩
          · rw [h] at hst
            cases hst
          · rw [h] at hst
            cases hst
            right
            simp only []
            push_neg at hm
            omega

/-- C4. An answer event that finds no quiz state, or a quiz state with another
test id or another question index, leaves the whole world (session, results,
users and the other collections) as it was and sends nothing; hence the same
answer event delivered a second time changes nothing, whatever the first
delivery did. -/
theorem ansAction_idempotent_rejection :
    (∀ (env : Env) (ctx : Ctx) (testId qIndex optIndex : ℕ) (w : World),
      (∀ st, w.session.test = some st → st.testId ≠ (testId : ℤ) ∨ st.index ≠ qIndex) →
        (ansAction env ctx testId qIndex optIndex w).world = w ∧
        (ansAction env ctx testId qIndex optIndex w).replies = []) ∧
    (∀ (env env1 : Env) (ctx ctx1 : Ctx) (testId qIndex optIndex opt1 : ℕ) (w : World),
      (ansAction env1 ctx1 testId qIndex opt1
          (ansAction env ctx testId qIndex optIndex w).world).world
        = (ansAction env ctx testId qIndex optIndex w).world) := by
  constructor
  · intro env ctx testId qIndex optIndex w h
    rw [ansAction_stale env ctx testId qIndex optIndex w h]
    exact ⟨rfl, rfl⟩
  · intro env env1 ctx ctx1 testId qIndex optIndex opt1 w
    rcases ansAction_after env ctx testId qIndex optIndex w with h | h
    · rw [h env ctx optIndex]
      simp only []
      rw [h env1 ctx1 opt1]
    · rw [ansAction_stale env1 ctx1 testId qIndex opt1 _ h]

/-- C4 at the world of a user in the middle of the test "Math", for an answer
to a question of the test "Pairs". -/
theorem ansAction_idempotent_rejection_witness :
    (∀ st, quizWorld.session.test = some st → st.testId ≠ ((2 : ℕ) : ℤ) ∨ st.index ≠ 0) ∧
    (ansAction sampleEnv userCtx 2 0 1 quizWorld).world = quizWorld ∧
    (ansAction sampleEnv userCtx 2 0 1 quizWorld).replies = [] :=
  have h : ∀ st, quizWorld.session.test = some st → st.testId ≠ ((2 : ℕ) : ℤ) ∨ st.index ≠ 0 := by
    intro st hst
    cases hst
    left
    decide
  ⟨h, ansAction_idempotent_rejection.1 sampleEnv userCtx 2 0 1 quizWorld h⟩

/-- C5. A matching answer to a question that is not the last one: the session
moves to the next index, its correct count grows by one exactly when the chosen
option is the question's `correct_answer`, the one message sent is the question
at the next index, and the store (so the results) is as it was. -/
theorem ansAction_next (env : Env) (ctx : Ctx) (testId qIndex optIndex : ℕ) (w : World)
    (sessionTest : QuizState) (test : Test) (question : Question)
    (hsession : w.session.test = some sessionTest)
    (hid : sessionTest.testId = (testId : ℤ)) (hindex : sessionTest.index = qIndex)
    (htest : w.store.tests.find? (fun t => t.id = (testId : ℤ)) = some test)
    (hquestion : test.questions[qIndex]? = some question)
    (hmore : sessionTest.index + 1 < test.questions.length) :
    (ansAction env ctx testId qIndex optIndex w).world.session.test
      = some { testId := (testId : ℤ), index := sessionTest.index + 1,
               correct := if (optIndex : ℤ) = question.correct_answer then sessionTest.correct + 1
                 else sessionTest.correct } ∧
    (ansAction env ctx testId qIndex optIndex w).replies
      = [Reply.question test (sessionTest.index + 1)] ∧
    (ansAction env ctx testId qIndex optIndex w).world.store.results = w.store.results ∧
    (ansAction env ctx testId qIndex optIndex w).world.store = w.store ∧
    (ansAction env ctx testId qIndex optIndex w).value = some () := by
  subst hindex
  have hsq : sendQuestion test (sessionTest.index + 1)
      = some (Reply.question test (sessionTest.index + 1)) := by
    unfold sendQuestion
    rw [if_pos hmore]
  unfold ansAction
  simp only [hsession, hid, htest, hquestion, ne_eq, not_true_eq_false, or_self, if_false]
  rw [if_neg (by omega)]
  simp only [hsq]
  simp

/-- C5 at the first question of the two-question test "Pairs", answered with
its correct option. -/
theorem ansAction_next_witness :
    pairsWorld.session.test = some { testId := 2, index := 0, correct := 0 } ∧
    pairsWorld.store.tests.find? (fun t => t.id = ((2 : ℕ) : ℤ)) = some pairsTest ∧
    pairsTest.questions[0]? = some { question := "1+1?", options := ["1", "2"], correct_answer := 1 } ∧
    (0 : ℕ) + 1 < pairsTest.questions.length ∧
    (ansAction sampleEnv userCtx 2 0 1 pairsWorld).world.session.test
      = some { testId := 2, index := 1, correct := 1 } ∧
    (ansAction sampleEnv userCtx 2 0 1 pairsWorld).replies = [Reply.question pairsTest 1] ∧
    (ansAction sampleEnv userCtx 2 0 1 pairsWorld).world.store.results = [] := by
  obtain ⟨h1, h2, h3, _, _⟩ :=
    ansAction_next sampleEnv userCtx 2 0 1 pairsWorld { testId := 2, index := 0, correct := 0 }
      pairsTest { question := "1+1?", options := ["1", "2"], correct_answer := 1 }
      rfl rfl rfl rfl rfl (by decide)
  refine ⟨rfl, rfl, rfl, by decide, ?_, h2, h3⟩
  rw [h1]
  norm_num

/-! ## Menu and quiz entry: what the handlers leave alone -/

/-- The function `startTest` changes nothing but the quiz state of the session. -/
theorem startTest_frame (test : Test) (w : World) :
    (startTest test w).world.store = w.store ∧
    (startTest test w).world.session.admin = w.session.admin ∧
    (startTest test w).world.dynamicAdmins = w.dynamicAdmins := by
  unfold startTest
  repeat' split
  all_goals exact ⟨rfl, rfl, rfl⟩

/-- The handler of "📝 Testlar" changes nothing but the quiz state of the session. -/
theorem testsHears_frame (env : Env) (ctx : Ctx) (w : World) :
    (testsHears env ctx w).world.store = w.store ∧
    (testsHears env ctx w).world.session.admin = w.session.admin ∧
    (testsHears env ctx w).world.dynamicAdmins = w.dynamicAdmins := by
  unfold testsHears
  dsimp only
  repeat' split
  all_goals first
    | exact ⟨rfl, rfl, rfl⟩
    | exact startTest_frame _ _

/-- The `start_test` handler changes nothing but the quiz state of the session. -/
theorem startTestAction_frame (env : Env) (ctx : Ctx) (testId : ℕ) (w : World) :
    (startTestAction env ctx testId w).world.store = w.store ∧
    (startTestAction env ctx testId w).world.session.admin = w.session.admin ∧
    (startTestAction env ctx testId w).world.dynamicAdmins = w.dynamicAdmins := by
  unfold startTestAction
  repeat' split
  all_goals first
    | exact ⟨rfl, rfl, rfl⟩
    | exact startTest_frame _ _

/-- The function `finishTest` changes nothing but the users and the results. -/
theorem finishTest_frame (env : Env) (ctx : Ctx) (test : Test) (correct : ℕ) (w : World) :
    (finishTest env ctx test correct w).world.store.tests = w.store.tests ∧
    (finishTest env ctx test correct w).world.store.channels = w.store.channels ∧
    (finishTest env ctx test correct w).world.dynamicAdmins = w.dynamicAdmins := by
  unfold finishTest
  by_cases hu : env.writeJson "users" = true
  · by_cases hr : env.writeJson "results" = true
    · simp only [hu, hr, Bool.not_true, Bool.false_eq_true, if_false]
      cases incrementTestsWorked ctx.sender.id (ensureUser env ctx.sender w.store.users).2 <;>
        exact ⟨rfl, rfl, rfl⟩
    · simp only [hu, hr, Bool.not_true, Bool.false_eq_true, if_false, Bool.not_false, if_true]
      cases incrementTestsWorked ctx.sender.id (ensureUser env ctx.sender w.store.users).2 <;>
        exact ⟨rfl, rfl, rfl⟩
  · simp [hu]

/-- The answer handler changes nothing but the quiz state, the users and the
results. -/
theorem ansAction_frame (env : Env) (ctx : Ctx) (testId qIndex optIndex : ℕ) (w : World) :
    (ansAction env ctx testId qIndex optIndex w).world.store.tests = w.store.tests ∧
    (ansAction env ctx testId qIndex optIndex w).world.store.channels = w.store.channels ∧
    (ansAction env ctx testId qIndex optIndex w).world.session.admin = w.session.admin ∧
    (ansAction env ctx testId qIndex optIndex w).world.dynamicAdmins = w.dynamicAdmins := by
  unfold ansAction
  cases hs : w.session.test with
  | none => exact ⟨rfl, rfl, rfl, rfl⟩
  | some sessionTest =>
    dsimp only
    split
    · exact ⟨rfl, rfl, rfl, rfl⟩
    · cases ht : w.store.tests.find? (fun t => t.id = (testId : ℤ)) with
      | none => exact ⟨rfl, rfl, rfl, rfl⟩
      | some test =>
        dsimp only
        cases hq : test.questions[qIndex]? with
        | none => exact ⟨rfl, rfl, rfl, rfl⟩
        | some question =>
          dsimp only
          generalize (if (optIndex : ℤ) = question.correct_answer then sessionTest.correct + 1
            else sessionTest.correct) = c
          split
          · obtain ⟨f1, f2, f3⟩ := finishTest_frame env ctx test c
              { w with session := { w.session with test := none } }
            have f4 := finishTest_session env ctx test c
              { w with session := { w.session with test := none } }
            cases hv : (finishTest env ctx test c
              { w with session := { w.session with test := none } }).value with
            | none =>
              dsimp only
              exact ⟨f1, f2, by rw [f4], f3⟩
            | some v =>
              dsimp only
              exact ⟨f1, f2, by rw [f4], f3⟩
          · cases sendQuestion test (sessionTest.index + 1) <;> exact ⟨rfl, rfl, rfl, rfl⟩

/-- The entry of a one-state wizard changes nothing but the wizard state. -/
theorem enterWizard_frame (allowed : Bool) (mode prompt : String) (w : World) :
    (enterWizard allowed mode prompt w).world.store = w.store ∧
    (enterWizard allowed mode prompt w).world.session.test = w.session.test ∧
    (enterWizard allowed mode prompt w).world.dynamicAdmins = w.dynamicAdmins := by
  unfold enterWizard
  split <;> exact ⟨rfl, rfl, rfl⟩

/-- An informational handler changes nothing. -/
theorem infoHears_world (allowed : Bool) (handler : String) (w : World) :
    (infoHears allowed handler w).world = w := by
  unfold infoHears
  split <;> rfl

/-- The handler of "📊 Urinishlarim" changes nothing. -/
theorem attemptsHears_world (env : Env) (ctx : Ctx) (w : World) :
    (attemptsHears env ctx w).world = w := by
  unfold attemptsHears
  repeat' split
  all_goals rfl

/-- The remove_channel handler changes nothing but the channels. -/
theorem removeChannelAction_frame (env : Env) (ctx : Ctx) (channelId : ℤ) (w : World) :
    (removeChannelAction env ctx channelId w).world.store.tests = w.store.tests ∧
    (removeChannelAction env ctx channelId w).world.store.results = w.store.results ∧
    (removeChannelAction env ctx channelId w).world.session = w.session ∧
    (removeChannelAction env ctx channelId w).world.dynamicAdmins = w.dynamicAdmins := by
  unfold removeChannelAction
  repeat' split
  all_goals exact ⟨rfl, rfl, rfl, rfl⟩

/-- The command `/start` changes nothing but the users. -/
theorem startCommand_frame (env : Env) (ctx : Ctx) (w : World) :
    (startCommand env ctx w).world.store.tests = w.store.tests ∧
    (startCommand env ctx w).world.store.results = w.store.results ∧
    (startCommand env ctx w).world.store.channels = w.store.channels ∧
    (startCommand env ctx w).world.session = w.session ∧
    (startCommand env ctx w).world.dynamicAdmins = w.dynamicAdmins := by
  unfold startCommand
  dsimp only
  repeat' split
  all_goals exact ⟨rfl, rfl, rfl, rfl, rfl⟩

/-- The cases of `onText`: a property of its outcome's world follows from the
property for the world of each handler it can run. -/
theorem onText_cases (P : World → Prop) (env : Env) (ctx : Ctx) (w : World)
    (hsame : P w) (htests : P (testsHears env ctx w).world)
    (hbroadcast : P (broadcastHears env ctx w).world)
    (hcreate : P (createTestHears env ctx w).world)
    (hmessage : P (onMessage env ctx w).world) :
    P (onText env ctx w).world := by
  unfold onText
  by_cases h0 : ctx.text = some "⬅️ Orqaga"
  · rw [if_pos h0, infoHears_world]; exact hsame
  rw [if_neg h0]
  by_cases h1 : ctx.text = some "📝 Testlar"
  · rw [if_pos h1]; exact htests
  rw [if_neg h1]
  by_cases h2 : ctx.text = some "📊 Urinishlarim"
  · rw [if_pos h2, attemptsHears_world]; exact hsame
  rw [if_neg h2]
  by_cases h3 : ctx.text = some "ℹ️ Bot haqida"
  · rw [if_pos h3, infoHears_world]; exact hsame
  rw [if_neg h3]
  by_cases h4 : ctx.text = some "📣 Xabar yuborish"
  · rw [if_pos h4]; exact hbroadcast
  rw [if_neg h4]
  by_cases h5 : ctx.text = some "🧩 Test yaratish"
  · rw [if_pos h5]; exact hcreate
  rw [if_neg h5]
  by_cases h6 : ctx.text = some "📚 Testlar"
  · rw [if_pos h6, infoHears_world]; exact hsame
  rw [if_neg h6]
  by_cases h7 : ctx.text = some "📊 Natijalar"
  · rw [if_pos h7, infoHears_world]; exact hsame
  rw [if_neg h7]
  by_cases h8 : ctx.text = some "👥 Foydalanuvchilar"
  · rw [if_pos h8, infoHears_world]; exact hsame
  rw [if_neg h8]
  by_cases h9 : ctx.text = some "👑 Adminlar"
  · rw [if_pos h9, infoHears_world]; exact hsame
  rw [if_neg h9]
  by_cases h10 : ctx.text = some "📡 Kanallar"
  · rw [if_pos h10, infoHears_world]; exact hsame
  rw [if_neg h10]
  exact hmessage

/-- The invariant of the collected questions reads the wizard state only. -/
theorem draftsInRange_of_admin_eq (s t : Session) (hadmin : t.admin = s.admin)
    (h : draftsInRange s) : draftsInRange t := by
  intro a nt ha hnt
  rw [hadmin] at ha
  exact h a nt ha hnt

/-- The entry of a one-state wizard keeps the collected questions in range. -/
theorem enterWizard_inRange (allowed : Bool) (mode prompt : String) (w : World)
    (h : draftsInRange w.session) :
    draftsInRange (enterWizard allowed mode prompt w).world.session := by
  unfold enterWizard
  split
  · exact h
  · intro a nt ha hnt
    simp only [setAdmin, Option.some.injEq] at ha
    subst ha
    cases hnt

/-! ## Test ids -/

/-- The fold of `nextId`: it is at least its start and every id, and it is its
start or one of the ids. -/
theorem foldl_max_bounds (tests : List Test) (m0 : ℤ) :
    m0 ≤ tests.foldl (fun m t => max m t.id) m0 ∧
    (∀ t ∈ tests, t.id ≤ tests.foldl (fun m t => max m t.id) m0) ∧
    (tests.foldl (fun m t => max m t.id) m0 = m0 ∨
      ∃ t ∈ tests, tests.foldl (fun m t => max m t.id) m0 = t.id) := by
  induction tests generalizing m0 with
  | nil => simp
  | cons x xs ih =>
    obtain ⟨h1, h2, h3⟩ := ih (max m0 x.id)
    simp only [List.foldl_cons]
    refine ⟨le_trans (le_max_left _ _) h1, ?_, ?_⟩
    · intro t ht
      rcases List.mem_cons.mp ht with rfl | ht
      · exact le_trans (le_max_right _ _) h1
      · exact h2 t ht
    · rcases h3 with h | ⟨t, ht, h⟩
      · rcases max_cases m0 x.id with ⟨hm, _⟩ | ⟨hm, _⟩
        · left
          rw [h, hm]
        · right
          exact ⟨x, List.mem_cons_self _ _, by rw [h, hm]⟩
      · right
        exact ⟨t, List.mem_cons_of_mem _ ht, h⟩

/-- The greatest id is at least `0` and every id, and it is `0` or one of the
ids. -/
theorem maxId_bounds (tests : List Test) :
    0 ≤ maxId tests ∧ (∀ t ∈ tests, t.id ≤ maxId tests) ∧
    (maxId tests = 0 ∨ ∃ t ∈ tests, maxId tests = t.id) :=
  foldl_max_bounds tests 0

/-- A bound of the ids that is not negative bounds the greatest id. -/
theorem maxId_le (tests : List Test) (B : ℤ) (hB : 0 ≤ B) (h : ∀ i ∈ testIds tests, i ≤ B) :
    maxId tests ≤ B := by
  rcases (maxId_bounds tests).2.2 with h0 | ⟨t, ht, hid⟩
  · rw [h0]
    exact hB
  · rw [hid]
    exact h t.id (List.mem_map.mpr ⟨t, ht, rfl⟩)

/-- With the greatest id below `2 ^ 53`, the next id is the greatest id plus
one. -/
theorem nextId_of_lt (tests : List Test) (hb : maxId tests < 9007199254740992) :
    nextId tests = maxId tests + 1 := by
  unfold nextId
  exact addOne_of_lt _ (maxId_bounds tests).1 hb

/-- With the greatest id below `2 ^ 53`, the next id is above every id of the
collection. -/
theorem lt_nextId (tests : List Test) (t : Test) (ht : t ∈ tests)
    (hb : maxId tests < 9007199254740992) : t.id < nextId tests := by
  have := (maxId_bounds tests).2.1 t ht
  rw [nextId_of_lt tests hb]
  omega

/-- With the greatest id below `2 ^ 53`, the next id is not an id of the
collection. -/
theorem nextId_not_mem (tests : List Test) (hb : maxId tests < 9007199254740992) :
    nextId tests ∉ testIds tests := by
  intro h
  obtain ⟨t, ht, hid⟩ := List.mem_map.mp h
  have := lt_nextId tests t ht hb
  omega

/-- With positive ids below `2 ^ 53`, the next id is one more than the greatest
id. -/
theorem nextId_of_max (tests : List Test) (hpos : ∀ t ∈ tests, 0 < t.id) (m : ℤ)
    (hm : m ∈ testIds tests) (hmax : ∀ i ∈ testIds tests, i ≤ m)
    (hb : m < 9007199254740992) : nextId tests = 1 + m := by
  obtain ⟨t, ht, hid⟩ := List.mem_map.mp hm
  obtain ⟨_, h2, h3⟩ := maxId_bounds tests
  have hle := h2 t ht
  have hpos_t := hpos t ht
  have heq : maxId tests = m := by
    rcases h3 with h | ⟨t1, ht1, h⟩
    · omega
    · have := hmax t1.id (List.mem_map.mpr ⟨t1, ht1, rfl⟩)
      omega
  rw [nextId_of_lt tests (by omega), heq]
  ring

/-- At a greatest id of `2 ^ 53` the next id is `2 ^ 53` again. -/
theorem nextId_two_pow (tests : List Test) (h : maxId tests = 9007199254740992) :
    nextId tests = 9007199254740992 := by
  unfold nextId
  rw [h]
  exact addOne_two_pow

/-- What the `test_status` handler does to the tests: nothing, or it appends
one record whose id is the next id. -/
theorem testStatusAction_tests (env : Env) (ctx : Ctx) (status : String) (w : World) :
    (testStatusAction env ctx status w).world.store.tests = w.store.tests ∨
    ∃ record : Test, record.id = nextId w.store.tests ∧
      (testStatusAction env ctx status w).world.store.tests = w.store.tests ++ [record] := by
  unfold testStatusAction
  repeat' split
  all_goals first
    | (left; rfl)
    | (right; exact ⟨_, rfl, rfl⟩)

/-- C6, as the code has it. Along every sequence of updates, the id given to a
newly created test is greater than the id of every test the collection then
holds, so it differs from every test created earlier and not deleted since;
this as long as the greatest id of the collection is below `2 ^ 53`, where the
sum `max + 1` is exact. -/
theorem createdId_fresh (b : Bot) (us : List Update) (u : Update) (i : ℤ)
    (h : createdId (run b us) u = some i)
    (hb : maxId (run b us).store.tests < 9007199254740992) :
    ∀ t ∈ (run b us).store.tests, t.id < i := by
  generalize run b us = b1 at h hb
  intro t ht
  unfold createdId at h
  split at h
  · rename_i status hev
    split at h
    · rename_i hlen
      have hstore : (step b1 u).store.tests
          = (testStatusAction u.env u.ctx status (b1.view u.ctx.sender.id)).world.store.tests := by
        simp only [step, Bot.merge, handle, hev]
      rw [hstore] at h hlen
      rcases testStatusAction_tests u.env u.ctx status (b1.view u.ctx.sender.id) with hsame | ⟨r, hr, happ⟩
      · rw [hsame] at hlen
        simp [Bot.view] at hlen
      · rw [happ] at h
        rw [List.getLast?_append, List.getLast?_singleton] at h
        simp only [Option.or_some, Option.map_some', Option.some.injEq] at h
        rw [← h, hr]
        exact lt_nextId _ t ht hb
    · cases h
  · cases h

/-- C6, as the code has it, at the second creation of a test after the test "Math":
the new id is 2, above the id 1 in the collection. -/
theorem createdId_fresh_witness :
    createdId (run emptyBot (createMath ++ enterMath)) (adminDoes (Event.testStatus "closed")) = some 2 ∧
    maxId (run emptyBot (createMath ++ enterMath)).store.tests < 9007199254740992 ∧
    ∀ t ∈ (run emptyBot (createMath ++ enterMath)).store.tests, t.id < 2 :=
  ⟨by decide, by decide, createdId_fresh emptyBot (createMath ++ enterMath)
    (adminDoes (Event.testStatus "closed")) 2 (by decide) (by decide)⟩

/-- C6 fails as stated: the test "Math" created, deleted and created again gets
the id 1 both times. -/
theorem createdIds_reused :
    createdIds emptyBot reuseScript = [1, 1] ∧ ¬ (createdIds emptyBot reuseScript).Nodup := by
  decide

/-- A change of the first matching element that keeps `g` keeps the list of
the `g` values. -/
theorem map_updateFirst {α β : Type} (p : α → Bool) (f : α → α) (g : α → β)
    (hg : ∀ x, g (f x) = g x) (xs : List α) : (updateFirst p f xs).map g = xs.map g := by
  induction xs with
  | nil => rfl
  | cons x xs ih =>
    unfold updateFirst
    by_cases hx : p x = true
    · simp [hx, hg]
    · simp [hx, ih]

/-- The title step of the edit wizard keeps the ids of the tests. -/
theorem editTestTitleStep_testIds (env : Env) (ctx : Ctx) (admin : AdminState) (text : String)
    (w : World) :
    testIds (editTestTitleStep env ctx admin text w).world.store.tests = testIds w.store.tests := by
  unfold editTestTitleStep
  repeat' split
  all_goals first
    | rfl
    | (simp only [setAdmin, testIds]; rw [map_updateFirst]; intro x; rfl)

/-- The cases of `handleAdminMessage`: a property of its outcome follows from
the property of the outcome of each of its blocks, taken with the session, the
mode and the text that lead to the block. -/
theorem handleAdminMessage_cases (P : Outcome Bool → Prop) (env : Env) (ctx : Ctx) (w : World)
    (hpass : P { world := w, replies := [], value := some false })
    (hnotext :
      P { world := w, replies := [Reply.text "⚠️ Iltimos, matn yuboring."], value := some true })
    (hbroadcast : ∀ admin, w.session.admin = some admin → admin.mode = "broadcast" →
      P (broadcastStep env ctx w))
    (hstep : ∀ admin, w.session.admin = some admin →
      (truthy ctx.text && startsWithChar '/' (trim (ctx.text.getD ""))) = false →
      truthy ctx.text = true →
      (admin.mode = "create_test_title" → P (createTestTitleStep admin (trim (ctx.text.getD "")) w)) ∧
      (admin.mode = "create_test_count" →
        P (createTestCountStep env admin (trim (ctx.text.getD "")) w)) ∧
      (admin.mode = "create_test_question" →
        P (createTestQuestionStep admin (trim (ctx.text.getD "")) w)) ∧
      (admin.mode = "create_test_options" →
        P (createTestOptionsStep admin (trim (ctx.text.getD "")) w)) ∧
      (admin.mode = "create_test_correct" →
        P (createTestCorrectStep env admin (trim (ctx.text.getD "")) w)) ∧
      (admin.mode = "edit_test_title" →
        P (editTestTitleStep env ctx admin (trim (ctx.text.getD "")) w)) ∧
      (admin.mode = "add_admin" → P (addAdminStep env ctx (trim (ctx.text.getD "")) w)) ∧
      (admin.mode = "remove_admin" → P (removeAdminStep env ctx (trim (ctx.text.getD "")) w)) ∧
      (admin.mode = "add_channel" → P (addChannelStep env ctx (trim (ctx.text.getD "")) w))) :
    P (handleAdminMessage env ctx w) := by
  unfold handleAdminMessage
  cases hadmin : w.session.admin with
  | none => exact hpass
  | some admin =>
    dsimp only
    by_cases hcmd : (truthy ctx.text && startsWithChar '/' (trim (ctx.text.getD ""))) = true
    · rw [if_pos hcmd]; exact hpass
    rw [if_neg hcmd]
    by_cases hb : admin.mode = "broadcast"
    · rw [if_pos hb]; exact hbroadcast admin hadmin hb
    rw [if_neg hb]
    by_cases htext : (!truthy ctx.text) = true
    · rw [if_pos htext]; exact hnotext
    rw [if_neg htext]
    obtain ⟨h1, h2, h3, h4, h5, h6, h7, h8, h9⟩ :=
      hstep admin hadmin (by simpa using hcmd) (by simpa using htext)
    by_cases c1 : admin.mode = "create_test_title"
    · rw [if_pos c1]; exact h1 c1
    rw [if_neg c1]
    by_cases c2 : admin.mode = "create_test_count"
    · rw [if_pos c2]; exact h2 c2
    rw [if_neg c2]
    by_cases c3 : admin.mode = "create_test_question"
    · rw [if_pos c3]; exact h3 c3
    rw [if_neg c3]
    by_cases c4 : admin.mode = "create_test_options"
    · rw [if_pos c4]; exact h4 c4
    rw [if_neg c4]
    by_cases c5 : admin.mode = "create_test_correct"
    · rw [if_pos c5]; exact h5 c5
    rw [if_neg c5]
    by_cases c6 : admin.mode = "edit_test_title"
    · rw [if_pos c6]; exact h6 c6
    rw [if_neg c6]
    by_cases c7 : admin.mode = "add_admin"
    · rw [if_pos c7]; exact h7 c7
    rw [if_neg c7]
    by_cases c8 : admin.mode = "remove_admin"
    · rw [if_pos c8]; exact h8 c8
    rw [if_neg c8]
    by_cases c9 : admin.mode = "add_channel"
    · rw [if_pos c9]; exact h9 c9
    rw [if_neg c9]
    exact hpass

/-- The blocks of the creation wizard leave the store as it is. -/
theorem createTest_steps_store (env : Env) (admin : AdminState) (text : String) (w : World) :
    (createTestTitleStep admin text w).world.store = w.store ∧
    (createTestCountStep env admin text w).world.store = w.store ∧
    (createTestQuestionStep admin text w).world.store = w.store ∧
    (createTestOptionsStep admin text w).world.store = w.store ∧
    (createTestCorrectStep env admin text w).world.store = w.store := by
  refine ⟨?_, ?_, ?_, ?_, ?_⟩
  · unfold createTestTitleStep
    repeat' split
    all_goals rfl
  · unfold createTestCountStep
    dsimp only
    repeat' split
    all_goals rfl
  · unfold createTestQuestionStep
    dsimp only
    repeat' split
    all_goals rfl
  · unfold createTestOptionsStep
    dsimp only
    repeat' split
    all_goals rfl
  · unfold createTestCorrectStep
    dsimp only
    repeat' split
    all_goals rfl

/-- The blocks of the admin and channel wizards leave the tests as they are. -/
theorem other_steps_tests (env : Env) (ctx : Ctx) (text : String) (w : World) :
    (broadcastStep env ctx w).world.store.tests = w.store.tests ∧
    (addAdminStep env ctx text w).world.store.tests = w.store.tests ∧
    (removeAdminStep env ctx text w).world.store.tests = w.store.tests ∧
    (addChannelStep env ctx text w).world.store.tests = w.store.tests := by
  refine ⟨rfl, ?_, ?_, ?_⟩
  · unfold addAdminStep
    dsimp only
    repeat' split
    all_goals rfl
  · unfold removeAdminStep
    dsimp only
    repeat' split
    all_goals rfl
  · unfold addChannelStep
    dsimp only
    repeat' split
    all_goals rfl

/-- The function `handleAdminMessage` keeps the ids of the tests. -/
theorem handleAdminMessage_testIds (env : Env) (ctx : Ctx) (w : World) :
    testIds (handleAdminMessage env ctx w).world.store.tests = testIds w.store.tests := by
  refine handleAdminMessage_cases
    (fun o => testIds o.world.store.tests = testIds w.store.tests) env ctx w rfl rfl
    (fun _ _ _ => rfl) ?_
  intro admin _ _ _
  obtain ⟨s1, s2, s3, s4, s5⟩ := createTest_steps_store env admin (trim (ctx.text.getD "")) w
  obtain ⟨_, o2, o3, o4⟩ := other_steps_tests env ctx (trim (ctx.text.getD "")) w
  refine ⟨?_, ?_, ?_, ?_, ?_, ?_, ?_, ?_, ?_⟩
  · intro _; simp only [s1]
  · intro _; simp only [s2]
  · intro _; simp only [s3]
  · intro _; simp only [s4]
  · intro _; simp only [s5]
  · intro _; exact editTestTitleStep_testIds env ctx admin _ w
  · intro _; simp only [o2]
  · intro _; simp only [o3]
  · intro _; simp only [o4]

/-- What a handler does to the ids of the tests: it leaves a sublist of them, or
it appends the next id. A property of lists of ids that holds in both cases
holds after the handler. -/
theorem handle_testIds (P : List ℤ → Prop) (u : Update) (w : World)
    (hsub : ∀ l : List ℤ, l.Sublist (testIds w.store.tests) → P l)
    (happ : P (testIds w.store.tests ++ [nextId w.store.tests])) :
    P (testIds (handle u w).store.tests) := by
  have h : P (testIds w.store.tests) := hsub _ (List.Sublist.refl _)
  unfold handle
  split
  · unfold createTestHears
    split <;> exact h
  · unfold onMessage
    split
    · rw [handleAdminMessage_testIds]; exact h
    · exact h
  · rename_i status _
    rcases testStatusAction_tests u.env u.ctx status w with hs | ⟨r, hr, hs⟩
    · rw [hs]; exact h
    · rw [hs]
      unfold testIds
      rw [List.map_append, List.map_singleton, hr]
      exact happ
  · rename_i testId _
    unfold testDeleteConfirmAction
    dsimp only
    repeat' split
    all_goals first
      | exact h
      | exact hsub _ (List.Sublist.map _ (List.filter_sublist _))
  · rename_i testId _
    unfold testToggleAction
    dsimp only
    repeat' split
    all_goals first
      | exact h
      | (simp only [testIds]; rw [map_updateFirst]; exact h; intro x; rfl)
  · unfold testEditAction
    split <;> exact h
  · exact h
  · refine onText_cases (fun v => P (testIds v.store.tests)) u.env u.ctx w h ?_ ?_ ?_ ?_
    · beta_reduce
      rw [(testsHears_frame _ _ _).1]
      exact h
    · beta_reduce
      unfold broadcastHears
      rw [(enterWizard_frame _ _ _ _).1]
      exact h
    · beta_reduce
      unfold createTestHears
      split <;> exact h
    · beta_reduce
      unfold onMessage
      split
      · rw [handleAdminMessage_testIds]; exact h
      · exact h
  · rw [(startTestAction_frame _ _ _ _).1]
    exact h
  · rw [(ansAction_frame _ _ _ _ _ _).1]
    exact h
  · unfold adminsAddAction
    rw [(enterWizard_frame _ _ _ _).1]
    exact h
  · unfold adminsRemoveAction
    rw [(enterWizard_frame _ _ _ _).1]
    exact h
  · unfold channelsAddAction
    rw [(enterWizard_frame _ _ _ _).1]
    exact h
  · rw [(removeChannelAction_frame _ _ _ _).1]
    exact h
  · rw [(startCommand_frame _ _ _).1]
    exact h
  · exact h

/-- With the greatest id below `2 ^ 53`, every handler keeps the ids of the tests
pairwise distinct, and it raises the greatest id by one at most. -/
theorem handle_testIds_nodup (u : Update) (w : World) (h : (testIds w.store.tests).Nodup)
    (hb : maxId w.store.tests < 9007199254740992) :
    (testIds (handle u w).store.tests).Nodup ∧
    maxId (handle u w).store.tests ≤ maxId w.store.tests + 1 := by
  have hmem : ∀ i ∈ testIds w.store.tests, i ≤ maxId w.store.tests := by
    intro i hi
    obtain ⟨t, ht, hid⟩ := List.mem_map.mp hi
    rw [← hid]
    exact (maxId_bounds w.store.tests).2.1 t ht
  have h0 := (maxId_bounds w.store.tests).1
  have key := handle_testIds
    (fun l => l.Nodup ∧ ∀ i ∈ l, i ≤ maxId w.store.tests + 1) u w ?_ ?_
  · exact ⟨key.1, maxId_le _ _ (by omega) key.2⟩
  · intro l hl
    refine ⟨List.Nodup.sublist hl h, ?_⟩
    intro i hi
    have := hmem i (hl.subset hi)
    omega
  · refine ⟨?_, ?_⟩
    · refine List.Nodup.append h (List.nodup_singleton _) ?_
      intro x hx hx1
      rw [List.mem_singleton] at hx1
      subst hx1
      exact nextId_not_mem _ hb hx
    · intro i hi
      rw [List.mem_append, List.mem_singleton] at hi
      rcases hi with hi | hi
      · have := hmem i hi
        omega
      · rw [hi, nextId_of_lt _ hb]

/-- Every sequence of updates keeps the ids of the tests pairwise distinct, as
long as the greatest id plus the number of updates is below `2 ^ 53`. -/
theorem run_testIds_nodup (us : List Update) (b : Bot) (h : (testIds b.store.tests).Nodup)
    (hb : maxId b.store.tests + us.length < 9007199254740992) :
    (testIds (run b us).store.tests).Nodup := by
  induction us generalizing b with
  | nil => exact h
  | cons u us ih =>
    unfold run
    rw [List.foldl_cons]
    rw [List.length_cons] at hb
    push_cast at hb
    obtain ⟨h1, h2⟩ := handle_testIds_nodup u (b.view u.ctx.sender.id) h
      (by simp only [Bot.view]; omega)
    refine ih (step b u) h1 ?_
    have h3 : maxId (step b u).store.tests ≤ maxId b.store.tests + 1 := h2
    omega

/-- The record the `test_status` handler appends for an admin at the status
step whose write succeeds. -/
theorem testStatusAction_created (env : Env) (ctx : Ctx) (status : String) (w : World)
    (admin : AdminState) (newTest : NewTest)
    (hadmin : isAdmin env w ctx.sender.id = true) (hsession : w.session.admin = some admin)
    (hmode : admin.mode = "create_test_status") (hnew : admin.newTest = some newTest)
    (hwrite : env.writeJson "tests" = true) :
    (testStatusAction env ctx status w).world.store.tests
      = w.store.tests ++
        [{ id := nextId w.store.tests, title := newTest.title, status := status,
           questions := newTest.questions, created_at := env.formatDate }] := by
  unfold testStatusAction
  simp only [hadmin, hsession, hmode, hnew, hwrite, Bool.not_true, Bool.false_eq_true,
    if_false, ne_eq, not_true_eq_false, setAdmin]

/-- C7 (counterexample). The collection holds one test, of id `2 ^ 53`: its ids
are positive integers and pairwise distinct. The test the `test_status` step
creates gets the id `2 ^ 53` again, not `1 + 2 ^ 53`, because the sum is the one
of binary64; the ids of the collection are no longer pairwise distinct. -/
theorem testIds_collide :
    (∀ t ∈ hugeWorld.store.tests, 0 < t.id) ∧ (testIds hugeWorld.store.tests).Nodup ∧
    testIds (testStatusAction sampleEnv (adminCtx "") "open" hugeWorld).world.store.tests
      = [9007199254740992, 9007199254740992] ∧
    ¬ (testIds (testStatusAction sampleEnv (adminCtx "") "open" hugeWorld).world.store.tests).Nodup := by
  have hout := testStatusAction_created sampleEnv (adminCtx "") "open" hugeWorld statusAdmin
    { title := "Math", totalQuestions := 1
      questions := [{ question := "2+2?", options := ["3", "4"], correct_answer := 1 }] }
    (by decide) rfl rfl rfl rfl
  have hids : testIds (testStatusAction sampleEnv (adminCtx "") "open" hugeWorld).world.store.tests
      = [9007199254740992, 9007199254740992] := by
    rw [hout]
    unfold testIds
    rw [List.map_append, List.map_singleton]
    dsimp only
    rw [nextId_two_pow hugeWorld.store.tests (by decide)]
    rfl
  refine ⟨by decide, by decide, hids, ?_⟩
  rw [hids]
  decide

/-- C7 (amended). For a tests collection whose ids are positive, pairwise
distinct and below `2 ^ 53`, the test the `test_status` step creates gets the id
`1 +` the greatest id of the collection (`1` when it is empty), and the ids stay
pairwise distinct; and every sequence of updates (creations, deletions, status
toggles, title edits among them) keeps the ids of the collection pairwise
distinct, as long as the greatest id plus the number of updates is below
`2 ^ 53`. -/
theorem testIds_distinct :
    (∀ (env : Env) (ctx : Ctx) (status : String) (w : World) (admin : AdminState)
        (newTest : NewTest),
      (∀ t ∈ w.store.tests, 0 < t.id) → (∀ t ∈ w.store.tests, t.id < 9007199254740992) →
      (testIds w.store.tests).Nodup →
      isAdmin env w ctx.sender.id = true → w.session.admin = some admin →
      admin.mode = "create_test_status" → admin.newTest = some newTest →
      env.writeJson "tests" = true →
      ∃ record : Test,
        (testStatusAction env ctx status w).world.store.tests = w.store.tests ++ [record] ∧
        (w.store.tests = [] → record.id = 1) ∧
        (∀ m ∈ testIds w.store.tests, (∀ i ∈ testIds w.store.tests, i ≤ m) → record.id = 1 + m) ∧
        (testIds (testStatusAction env ctx status w).world.store.tests).Nodup) ∧
    (∀ (b : Bot) (us : List Update),
      (testIds b.store.tests).Nodup →
      maxId b.store.tests + us.length < 9007199254740992 →
      (testIds (run b us).store.tests).Nodup) := by
  constructor
  · intro env ctx status w admin newTest hpos hlt hnodup hadmin hsession hmode hnew hwrite
    have hout := testStatusAction_created env ctx status w admin newTest hadmin hsession hmode
      hnew hwrite
    have hb : maxId w.store.tests < 9007199254740992 := by
      rcases (maxId_bounds w.store.tests).2.2 with h0 | ⟨t, ht, hid⟩
      · rw [h0]
        decide
      · rw [hid]
        exact hlt t ht
    refine ⟨_, hout, ?_, ?_, ?_⟩
    · intro hnil
      rw [hnil]
      rfl
    · intro m hm hmax
      obtain ⟨t, ht, hid⟩ := List.mem_map.mp hm
      exact nextId_of_max w.store.tests hpos m hm hmax (by rw [← hid]; exact hlt t ht)
    · rw [hout]
      unfold testIds
      rw [List.map_append, List.map_singleton]
      refine List.Nodup.append hnodup (List.nodup_singleton _) ?_
      intro x hx hx1
      rw [List.mem_singleton] at hx1
      subst hx1
      exact nextId_not_mem _ hb hx
  · intro b us h hb
    exact run_testIds_nodup us b h hb

/-- C7 (amended) at the second creation after the test "Math" (the new id is 2),
and along the sequence that creates, deletes and creates again. -/
theorem testIds_distinct_witness :
    (∀ t ∈ statusWorld.store.tests, 0 < t.id) ∧
    (∀ t ∈ statusWorld.store.tests, t.id < 9007199254740992) ∧
    (testIds statusWorld.store.tests).Nodup ∧
    isAdmin sampleEnv statusWorld (adminCtx "").sender.id = true ∧
    (∃ record : Test,
      (testStatusAction sampleEnv (adminCtx "") "closed" statusWorld).world.store.tests
        = statusWorld.store.tests ++ [record] ∧
      (statusWorld.store.tests = [] → record.id = 1) ∧
      (∀ m ∈ testIds statusWorld.store.tests,
        (∀ i ∈ testIds statusWorld.store.tests, i ≤ m) → record.id = 1 + m) ∧
      (testIds (testStatusAction sampleEnv (adminCtx "") "closed" statusWorld).world.store.tests).Nodup) ∧
    (testIds emptyBot.store.tests).Nodup ∧
    maxId emptyBot.store.tests + reuseScript.length < 9007199254740992 ∧
    (testIds (run emptyBot reuseScript).store.tests).Nodup :=
  ⟨by decide, by decide, by decide, by decide,
    testIds_distinct.1 sampleEnv (adminCtx "") "closed" statusWorld
      { mode := "create_test_status"
        newTest := some
          { title := "Math", totalQuestions := 1
            questions := [{ question := "2+2?", options := ["3", "4"], correct_answer := 1 }] }
        currentQuestion := none
        testId := none }
      { title := "Math", totalQuestions := 1
        questions := [{ question := "2+2?", options := ["3", "4"], correct_answer := 1 }] }
      (by decide) (by decide) (by decide) (by decide) (by decide) rfl rfl rfl,
    by decide, by decide, testIds_distinct.2 emptyBot reuseScript (by decide) (by decide)⟩

/-! ## Creation wizard -/

/-- A command is not consumed by `handleAdminMessage`. -/
theorem handleAdminMessage_command (env : Env) (ctx : Ctx) (w : World) (h : isCommand ctx = true) :
    handleAdminMessage env ctx w = { world := w, replies := [], value := some false } := by
  unfold isCommand at h
  unfold handleAdminMessage
  cases w.session.admin with
  | none => rfl
  | some admin =>
    dsimp only
    rw [if_pos h]

/-- A message without text changes nothing outside the broadcast step. -/
theorem handleAdminMessage_no_text (env : Env) (ctx : Ctx) (w : World) (admin : AdminState)
    (hadmin : w.session.admin = some admin) (hmode : admin.mode ≠ "broadcast")
    (h : truthy ctx.text = false) :
    (handleAdminMessage env ctx w).world = w := by
  unfold handleAdminMessage
  simp only [hadmin, h, hmode, Bool.false_and, Bool.false_eq_true, if_false, Bool.not_false,
    if_true]

/-- The blocks `handleAdminMessage` runs for the modes of the creation wizard, on
a text that is no command. -/
theorem handleAdminMessage_createTest (env : Env) (ctx : Ctx) (w : World) (admin : AdminState)
    (hadmin : w.session.admin = some admin) (hcmd : isCommand ctx = false)
    (htext : truthy ctx.text = true) :
    (admin.mode = "create_test_title" →
      handleAdminMessage env ctx w = createTestTitleStep admin (messageText ctx) w) ∧
    (admin.mode = "create_test_count" →
      handleAdminMessage env ctx w = createTestCountStep env admin (messageText ctx) w) ∧
    (admin.mode = "create_test_question" →
      handleAdminMessage env ctx w = createTestQuestionStep admin (messageText ctx) w) ∧
    (admin.mode = "create_test_options" →
      handleAdminMessage env ctx w = createTestOptionsStep admin (messageText ctx) w) ∧
    (admin.mode = "create_test_correct" →
      handleAdminMessage env ctx w = createTestCorrectStep env admin (messageText ctx) w) := by
  unfold isCommand at hcmd
  have hslash : startsWithChar '/' (trim (ctx.text.getD "")) = false := by
    rw [htext] at hcmd
    simpa using hcmd
  unfold messageText
  refine ⟨?_, ?_, ?_, ?_, ?_⟩ <;>
  · intro hmode
    unfold handleAdminMessage
    simp only [hadmin, hslash, htext, hmode, Bool.and_false, Bool.false_eq_true, if_false,
      Bool.not_true]
    simp

/-- A number that passes `Number.isInteger` is its numerator. -/
theorem num_of_isInteger (q : ℚ) (h : isInteger q = true) : ((q.num : ℤ) : ℚ) = q := by
  unfold isInteger at h
  exact (Rat.den_eq_one_iff q).mp (by simpa using h)

/-- A count the Count step lets through is an integer from 1 to 100. -/
theorem count_accepted (count : ℚ)
    (h : (!isInteger count || decide (count ≤ 0) || decide (count > 100)) = false) :
    ((count.num : ℤ) : ℚ) = count ∧ 1 ≤ count.num ∧ count.num ≤ 100 := by
  simp only [Bool.or_eq_false_iff, Bool.not_eq_false', decide_eq_false_iff_not, not_le,
    gt_iff_lt, not_lt] at h
  obtain ⟨⟨hint, hpos⟩, hle⟩ := h
  have hnum := num_of_isInteger count hint
  refine ⟨hnum, ?_, ?_⟩
  · rw [← hnum] at hpos
    have : (0 : ℤ) < count.num := by exact_mod_cast hpos
    omega
  · rw [← hnum] at hle
    exact_mod_cast hle

/-- An answer the Correct step lets through is an integer from 1 to the number
of options. -/
theorem index_accepted (index : ℚ) (total : ℕ)
    (h : (!isInteger index || decide (index < 1) || decide (index > (total : ℚ))) = false) :
    ((index.num : ℤ) : ℚ) = index ∧ 1 ≤ index.num ∧ index.num ≤ (total : ℤ) := by
  simp only [Bool.or_eq_false_iff, Bool.not_eq_false', decide_eq_false_iff_not, not_le,
    gt_iff_lt, not_lt] at h
  obtain ⟨⟨hint, hpos⟩, hle⟩ := h
  have hnum := num_of_isInteger index hint
  refine ⟨hnum, ?_, ?_⟩
  · rw [← hnum] at hpos
    exact_mod_cast hpos
  · rw [← hnum] at hle
    exact_mod_cast hle

/-- C9. At each validating step of the creation wizard (Title, Count, Options,
Correct), a message whose text fails the validation of that step leaves the
whole world as it was: the wizard state (mode, newTest, currentQuestion) is
unchanged and nothing is written to the tests. -/
theorem handleAdminMessage_invalid (env : Env) (ctx : Ctx) (w : World) (admin : AdminState)
    (hadmin : w.session.admin = some admin)
    (h : failsValidation env admin (messageText ctx)) :
    (handleAdminMessage env ctx w).world = w := by
  by_cases hcmd : isCommand ctx = true
  · rw [handleAdminMessage_command env ctx w hcmd]
  have hcmd1 : isCommand ctx = false := by simpa using hcmd
  have hmode : admin.mode ≠ "broadcast" := by
    rcases h with ⟨hm, _⟩ | ⟨hm, _⟩ | ⟨hm, _⟩ | ⟨hm, _⟩ <;>
    · rw [hm]
      decide
  by_cases htext : truthy ctx.text = true
  · obtain ⟨s1, s2, _, s4, s5⟩ := handleAdminMessage_createTest env ctx w admin hadmin hcmd1 htext
    rcases h with ⟨hm, hbad⟩ | ⟨hm, hbad⟩ | ⟨hm, hbad⟩ | ⟨hm, hbad⟩
    · rw [s1 hm]
      unfold createTestTitleStep
      rw [if_pos hbad]
    · rw [s2 hm]
      unfold createTestCountStep
      dsimp only
      cases hnum : env.Number (messageText ctx) with
      | none => rfl
      | some count =>
        dsimp only
        by_cases hguard : (!isInteger count || decide (count ≤ 0) || decide (count > 100)) = true
        · rw [if_pos hguard]
        · exfalso
          obtain ⟨hn, h1, h100⟩ := count_accepted count (by simpa using hguard)
          exact hbad ⟨count.num, by rw [hnum, hn], h1, h100⟩
    · rw [s4 hm]
      unfold createTestOptionsStep
      dsimp only
      rw [if_pos hbad]
    · rw [s5 hm]
      unfold createTestCorrectStep
      cases hcq : admin.currentQuestion with
      | none => rfl
      | some cq =>
        dsimp only
        cases hopts : cq.options with
        | none => rfl
        | some opts =>
          dsimp only
          cases hnum : env.Number (messageText ctx) with
          | none => rfl
          | some index =>
            dsimp only
            by_cases hguard : (!isInteger index || decide (index < 1) ||
                decide (index > (opts.length : ℚ))) = true
            · rw [if_pos hguard]
            · exfalso
              obtain ⟨hk, h1, hle⟩ := index_accepted index opts.length (by simpa using hguard)
              exact hbad cq opts hcq hopts ⟨index.num, by rw [hnum, hk], h1, hle⟩
  · exact handleAdminMessage_no_text env ctx w admin hadmin hmode (by simpa using htext)

/-- Installing a wizard state whose questions are in range keeps the invariant. -/
theorem draftsInRange_setAdmin (w : World) (a1 : AdminState)
    (h : ∀ nt, a1.newTest = some nt → ∀ q ∈ nt.questions, inRange q) :
    draftsInRange (setAdmin w (some a1)).session := by
  intro a nt ha hnt
  simp only [setAdmin, Option.some.injEq] at ha
  subst ha
  exact h nt hnt

/-- Removing the wizard state keeps the invariant. -/
theorem draftsInRange_setAdmin_none (w : World) : draftsInRange (setAdmin w none).session := by
  intro a nt ha
  simp [setAdmin] at ha

/-- The blocks of the creation wizard keep the collected questions in range. -/
theorem createTest_steps_inRange (env : Env) (admin : AdminState) (text : String) (w : World)
    (hadmin : w.session.admin = some admin) (h : draftsInRange w.session) :
    draftsInRange (createTestTitleStep admin text w).world.session ∧
    draftsInRange (createTestCountStep env admin text w).world.session ∧
    draftsInRange (createTestQuestionStep admin text w).world.session ∧
    draftsInRange (createTestOptionsStep admin text w).world.session ∧
    draftsInRange (createTestCorrectStep env admin text w).world.session := by
  have hkeep : ∀ nt, admin.newTest = some nt → ∀ q ∈ nt.questions, inRange q :=
    fun nt hnt => h admin nt hadmin hnt
  refine ⟨?_, ?_, ?_, ?_, ?_⟩
  · unfold createTestTitleStep
    repeat' split
    · exact h
    · exact h
    · rename_i newTest hnew
      refine draftsInRange_setAdmin w _ ?_
      intro nt hnt
      simp only [Option.some.injEq] at hnt
      subst hnt
      exact hkeep newTest hnew
  · unfold createTestCountStep
    dsimp only
    repeat' split
    · exact h
    · exact h
    · exact h
    · rename_i newTest hnew
      refine draftsInRange_setAdmin w _ ?_
      intro nt hnt
      simp only [Option.some.injEq] at hnt
      subst hnt
      exact hkeep newTest hnew
  · unfold createTestQuestionStep
    dsimp only
    repeat' split
    all_goals exact draftsInRange_setAdmin w _ hkeep
  · unfold createTestOptionsStep
    dsimp only
    repeat' split
    · exact h
    · exact h
    · exact draftsInRange_setAdmin w _ hkeep
    · exact draftsInRange_setAdmin w _ hkeep
  · unfold createTestCorrectStep
    cases hcq : admin.currentQuestion with
    | none => exact h
    | some cq =>
      dsimp only
      cases hopts : cq.options with
      | none => exact h
      | some opts =>
        dsimp only
        cases hnum : env.Number text with
        | none => exact h
        | some index =>
          dsimp only
          by_cases hguard : (!isInteger index || decide (index < 1) ||
              decide (index > (opts.length : ℚ))) = true
          · rw [if_pos hguard]
            exact h
          · rw [if_neg hguard]
            obtain ⟨_, h1, hle⟩ := index_accepted index opts.length (by simpa using hguard)
            cases hnew : admin.newTest with
            | none =>
              dsimp only
              refine draftsInRange_setAdmin w _ ?_
              intro nt hnt
              cases hnt
            | some newTest =>
              dsimp only
              have hall : ∀ q ∈ newTest.questions ++
                  [{ question := cq.question, options := opts, correct_answer := index.num - 1 }],
                  inRange q := by
                intro q hq
                rcases List.mem_append.mp hq with hq | hq
                · exact hkeep newTest hnew q hq
                · rw [List.mem_singleton] at hq
                  subst hq
                  unfold inRange
                  dsimp only
                  omega
              split
              · refine draftsInRange_setAdmin w _ ?_
                intro nt hnt
                simp only [Option.some.injEq] at hnt
                subst hnt
                exact hall
              · refine draftsInRange_setAdmin w _ ?_
                intro nt hnt
                simp only [Option.some.injEq] at hnt
                subst hnt
                exact hall

/-- The function `handleAdminMessage` keeps the collected questions in range. -/
theorem handleAdminMessage_inRange (env : Env) (ctx : Ctx) (w : World)
    (h : draftsInRange w.session) : draftsInRange (handleAdminMessage env ctx w).world.session := by
  refine handleAdminMessage_cases (fun o => draftsInRange o.world.session) env ctx w h h
    (fun _ _ _ => draftsInRange_setAdmin_none w) ?_
  intro admin hadmin _ _
  obtain ⟨s1, s2, s3, s4, s5⟩ :=
    createTest_steps_inRange env admin (trim (ctx.text.getD "")) w hadmin h
  refine ⟨fun _ => s1, fun _ => s2, fun _ => s3, fun _ => s4, fun _ => s5, ?_, ?_, ?_, ?_⟩
  · intro _
    unfold editTestTitleStep
    repeat' split
    · exact draftsInRange_setAdmin_none w
    · exact h
    · exact draftsInRange_setAdmin_none _
  · intro _
    unfold addAdminStep
    dsimp only
    repeat' split
    all_goals first
      | exact h
      | exact draftsInRange_setAdmin_none _
  · intro _
    unfold removeAdminStep
    dsimp only
    repeat' split
    all_goals first
      | exact h
      | exact draftsInRange_setAdmin_none _
  · intro _
    unfold addChannelStep
    dsimp only
    repeat' split
    all_goals first
      | exact h
      | exact draftsInRange_setAdmin_none _

/-- Every handler keeps the collected questions of its sender's session in
range. -/
theorem handle_inRange (u : Update) (w : World) (h : draftsInRange w.session) :
    draftsInRange (handle u w).session := by
  unfold handle
  split
  · unfold createTestHears
    split
    · exact h
    · refine draftsInRange_setAdmin w _ ?_
      intro nt hnt q hq
      simp only [createTestEntry, Option.some.injEq] at hnt
      subst hnt
      cases hq
  · unfold onMessage
    split
    · exact handleAdminMessage_inRange u.env u.ctx w h
    · exact h
  · unfold testStatusAction
    repeat' split
    all_goals first
      | exact h
      | exact draftsInRange_setAdmin_none _
  · unfold testDeleteConfirmAction
    dsimp only
    repeat' split
    all_goals exact h
  · unfold testToggleAction
    dsimp only
    repeat' split
    all_goals exact h
  · unfold testEditAction
    split
    · exact h
    · refine draftsInRange_setAdmin w _ ?_
      intro nt hnt
      cases hnt
  · intro a nt ha
    simp [cancelCommand] at ha
  · refine onText_cases (fun v => draftsInRange v.session) u.env u.ctx w h ?_ ?_ ?_ ?_
    · exact draftsInRange_of_admin_eq _ _ (testsHears_frame _ _ _).2.1 h
    · exact enterWizard_inRange _ _ _ w h
    · beta_reduce
      unfold createTestHears
      split
      · exact h
      · refine draftsInRange_setAdmin w _ ?_
        intro nt hnt q hq
        simp only [createTestEntry, Option.some.injEq] at hnt
        subst hnt
        cases hq
    · beta_reduce
      unfold onMessage
      split
      · exact handleAdminMessage_inRange u.env u.ctx w h
      · exact h
  · exact draftsInRange_of_admin_eq _ _ (startTestAction_frame _ _ _ _).2.1 h
  · exact draftsInRange_of_admin_eq _ _ (ansAction_frame _ _ _ _ _ _).2.2.1 h
  · exact enterWizard_inRange _ _ _ w h
  · exact enterWizard_inRange _ _ _ w h
  · exact enterWizard_inRange _ _ _ w h
  · rw [(removeChannelAction_frame _ _ _ _).2.2.1]
    exact h
  · rw [(startCommand_frame _ _ _).2.2.2.1]
    exact h
  · exact h

/-- Every sequence of updates keeps the collected questions of every session in
range. -/
theorem run_inRange (us : List Update) (b : Bot) (h : ∀ id, draftsInRange (b.sessions id)) :
    ∀ id, draftsInRange ((run b us).sessions id) := by
  induction us generalizing b with
  | nil => exact h
  | cons u us ih =>
    unfold run
    rw [List.foldl_cons]
    refine ih (step b u) ?_
    intro id
    unfold step Bot.merge
    dsimp only
    by_cases hid : id = u.ctx.sender.id
    · subst hid
      rw [Function.update_same]
      exact handle_inRange u _ (h _)
    · rw [Function.update_noteq hid]
      exact h id

/-- A record the `test_status` handler appends carries the title and the
questions of the session's wizard, the chosen status and the next id. -/
theorem testStatusAction_appended (env : Env) (ctx : Ctx) (status : String) (w : World) (t : Test)
    (h : (testStatusAction env ctx status w).world.store.tests = w.store.tests ++ [t]) :
    ∃ admin newTest, w.session.admin = some admin ∧ admin.mode = "create_test_status" ∧
      admin.newTest = some newTest ∧
      t = { id := nextId w.store.tests, title := newTest.title, status := status,
            questions := newTest.questions, created_at := env.formatDate } := by
  have hne : w.store.tests ≠ w.store.tests ++ [t] := by
    intro hcon
    have := congrArg List.length hcon
    simp at this
  unfold testStatusAction at h
  split at h
  · exact absurd h hne
  · split at h
    · exact absurd h hne
    · rename_i admin hadmin
      split at h
      · exact absurd h hne
      · rename_i hmode
        split at h
        · exact absurd h hne
        · rename_i newTest hnew
          dsimp only at h
          split at h
          · exact absurd h hne
          · simp only [setAdmin] at h
            have := List.append_cancel_left h
            simp only [List.cons.injEq, and_true] at this
            exact ⟨admin, newTest, hadmin, by simpa using hmode, hnew, this.symm⟩

/-- C9 at the Count step, for the count "101". -/
theorem handleAdminMessage_invalid_witness :
    (wizardWorld countAdmin).session.admin = some countAdmin ∧
    failsValidation sampleEnv countAdmin (messageText (adminCtx "101")) ∧
    (handleAdminMessage sampleEnv (adminCtx "101") (wizardWorld countAdmin)).world
      = wizardWorld countAdmin :=
  have hbad : failsValidation sampleEnv countAdmin (messageText (adminCtx "101")) := by
    right
    left
    refine ⟨rfl, ?_⟩
    rintro ⟨n, hn, _, h100⟩
    have hval : sampleEnv.Number (messageText (adminCtx "101")) = some ((101 : ℕ) : ℚ) := by
      decide
    rw [hval] at hn
    have h101 : ((101 : ℕ) : ℚ) = (n : ℚ) := Option.some.inj hn
    have : (101 : ℤ) = n := by exact_mod_cast h101
    omega
  ⟨rfl, hbad, handleAdminMessage_invalid sampleEnv (adminCtx "101") (wizardWorld countAdmin)
    countAdmin rfl hbad⟩

/-- C8. Along every sequence of updates from sessions whose wizards hold
questions in range (so from empty sessions and from the entry state of the
wizard), every question of a test the Status step persists satisfies
`0 ≤ correct_answer < options.length`; and the Correct step changes the world
only for a text whose number is an integer `k` with `1 ≤ k ≤ options.length`,
and then the question it adds to the wizard has `correct_answer = k - 1`. -/
theorem wizard_correct_answer_inRange :
    (∀ (b : Bot) (us : List Update) (u : Update) (status : String) (t : Test),
      (∀ id, draftsInRange (b.sessions id)) → u.event = Event.testStatus status →
      (step (run b us) u).store.tests = (run b us).store.tests ++ [t] →
      ∀ q ∈ t.questions, 0 ≤ q.correct_answer ∧ q.correct_answer < (q.options.length : ℤ)) ∧
    (∀ (env : Env) (ctx : Ctx) (w : World) (admin : AdminState) (cq : Draft)
        (opts : List String) (newTest : NewTest),
      w.session.admin = some admin → admin.mode = "create_test_correct" →
      admin.currentQuestion = some cq → cq.options = some opts → admin.newTest = some newTest →
      (handleAdminMessage env ctx w).world ≠ w →
      ∃ k : ℤ, env.Number (messageText ctx) = some (k : ℚ) ∧ 1 ≤ k ∧ k ≤ (opts.length : ℤ) ∧
        ∃ a1 nt1, (handleAdminMessage env ctx w).world.session.admin = some a1 ∧
          a1.newTest = some nt1 ∧
          nt1.questions = newTest.questions ++
            [{ question := cq.question, options := opts, correct_answer := k - 1 }]) := by
  constructor
  · intro b us u status t hinv hev happ q hq
    have hrun := run_inRange us b hinv u.ctx.sender.id
    have hstore : (step (run b us) u).store.tests
        = (testStatusAction u.env u.ctx status ((run b us).view u.ctx.sender.id)).world.store.tests := by
      simp only [step, Bot.merge, handle, hev]
    rw [hstore] at happ
    obtain ⟨admin, newTest, hadmin, _, hnew, ht⟩ :=
      testStatusAction_appended u.env u.ctx status _ t happ
    rw [ht] at hq
    exact hrun admin newTest hadmin hnew q hq
  · intro env ctx w admin cq opts newTest hadmin hmode hcq hopts hnew hchanged
    have hmode1 : admin.mode ≠ "broadcast" := by
      rw [hmode]
      decide
    by_cases hcmd : isCommand ctx = true
    · rw [handleAdminMessage_command env ctx w hcmd] at hchanged
      exact absurd rfl hchanged
    by_cases htext : truthy ctx.text = true
    · have hstep := (handleAdminMessage_createTest env ctx w admin hadmin (by simpa using hcmd)
        htext).2.2.2.2 hmode
      rw [hstep] at hchanged ⊢
      unfold createTestCorrectStep at hchanged ⊢
      simp only [hcq, hopts, hnew] at hchanged ⊢
      cases hnum : env.Number (messageText ctx) with
      | none =>
        simp only [hnum] at hchanged
        exact absurd rfl hchanged
      | some index =>
        simp only [hnum] at hchanged ⊢
        by_cases hguard : (!isInteger index || decide (index < 1) ||
            decide (index > (opts.length : ℚ))) = true
        · rw [if_pos hguard] at hchanged
          exact absurd rfl hchanged
        · rw [if_neg hguard]
          obtain ⟨hk, h1, hle⟩ := index_accepted index opts.length (by simpa using hguard)
          refine ⟨index.num, by rw [hk], h1, hle, ?_⟩
          split
          · exact ⟨_, _, rfl, rfl, rfl⟩
          · exact ⟨_, _, rfl, rfl, rfl⟩
    · exact absurd (handleAdminMessage_no_text env ctx w admin hadmin hmode1 (by simpa using htext))
        hchanged

/-- C8 at the creation of the test "Math", and at its Correct step answered
with "2". -/
theorem wizard_correct_answer_inRange_witness :
    (∀ id, draftsInRange (emptyBot.sessions id)) ∧
    (step (run emptyBot enterMath) (adminDoes (Event.testStatus "open"))).store.tests
      = (run emptyBot enterMath).store.tests ++ [mathTest] ∧
    (∀ q ∈ mathTest.questions, 0 ≤ q.correct_answer ∧ q.correct_answer < (q.options.length : ℤ)) ∧
    (handleAdminMessage sampleEnv (adminCtx "2") (wizardWorld correctAdmin)).world
      ≠ wizardWorld correctAdmin ∧
    ∃ k : ℤ, sampleEnv.Number (messageText (adminCtx "2")) = some (k : ℚ) ∧ 1 ≤ k ∧
      k ≤ ((["3", "4"] : List String).length : ℤ) ∧
      ∃ a1 nt1, (handleAdminMessage sampleEnv (adminCtx "2") (wizardWorld correctAdmin)).world.session.admin
          = some a1 ∧ a1.newTest = some nt1 ∧
        nt1.questions = [] ++ [{ question := "2+2?", options := ["3", "4"], correct_answer := k - 1 }] :=
  have hinv : ∀ id, draftsInRange (emptyBot.sessions id) := by
    intro id a nt ha
    cases ha
  ⟨hinv, by decide,
    wizard_correct_answer_inRange.1 emptyBot enterMath (adminDoes (Event.testStatus "open")) "open"
      mathTest hinv rfl (by decide),
    by decide,
    wizard_correct_answer_inRange.2 sampleEnv (adminCtx "2") (wizardWorld correctAdmin) correctAdmin
      { question := "2+2?", options := some ["3", "4"], correct_answer := none } ["3", "4"]
      { title := "Math", totalQuestions := 1, questions := [] } rfl rfl rfl rfl rfl (by decide)⟩

/-! ## Runs of the creation wizard -/

/-- The messages of the entered questions with one more question at the end. -/
theorem enteredMessages_append (es : List Entered) (e : Entered) :
    enteredMessages (es ++ [e]) = enteredMessages es ++ [e.question, e.options, e.correct] := by
  induction es with
  | nil => rfl
  | cons x xs ih =>
    rw [List.cons_append]
    simp only [enteredMessages, ih, List.cons_append]

/-- At the status keyboard a text message is not consumed by `handleAdminMessage`. -/
theorem handleAdminMessage_status (env : Env) (ctx : Ctx) (w : World) (admin : AdminState)
    (hadmin : w.session.admin = some admin) (hmode : admin.mode = "create_test_status") :
    (handleAdminMessage env ctx w).world = w := by
  refine handleAdminMessage_cases (fun o => o.world = w) env ctx w rfl rfl ?_ ?_
  · intro a ha hb
    rw [hadmin] at ha
    cases ha
    rw [hmode] at hb
    exact absurd hb (by decide)
  · intro a ha _ _
    rw [hadmin] at ha
    cases ha
    refine ⟨?_, ?_, ?_, ?_, ?_, ?_, ?_, ?_, ?_⟩ <;>
    · intro hm
      rw [hmode] at hm
      exact absurd hm (by decide)

/-- A shape of the creation wizard is never the broadcast mode. -/
theorem Shape.not_broadcast {S : List Input} {a : AdminState} (h : Shape S a) :
    a.mode ≠ "broadcast" := by
  cases h with
  | title _ hm _ => rw [hm]; decide
  | count _ _ hm _ _ => rw [hm]; decide
  | question _ _ _ hm _ _ _ => rw [hm]; decide
  | options _ _ _ _ hm _ _ _ _ => rw [hm]; decide
  | correct _ _ _ _ _ hm _ _ _ _ _ => rw [hm]; decide
  | status _ _ _ hm _ _ _ => rw [hm]; decide

/-- One message moves the creation wizard from a state of shape `S` to a state of
shape `S` (the message was turned down) or of shape `S ++ [m]` (it was
accepted), and leaves the store as it was. -/
theorem wizard_step (m : Input) (w : World) (a : AdminState) (S : List Input)
    (hadmin : w.session.admin = some a) (hshape : Shape S a) :
    ∃ a1, (handleAdminMessage m.env m.ctx w).world.session.admin = some a1 ∧
      (Shape S a1 ∨ Shape (S ++ [m]) a1) ∧
      (handleAdminMessage m.env m.ctx w).world.store = w.store := by
  have hsame : ∀ o : Outcome Bool, o.world = w →
      ∃ a1, o.world.session.admin = some a1 ∧ (Shape S a1 ∨ Shape (S ++ [m]) a1) ∧
        o.world.store = w.store := by
    intro o ho
    rw [ho]
    exact ⟨a, hadmin, Or.inl hshape, rfl⟩
  by_cases hcmd : isCommand m.ctx = true
  · exact hsame _ (by rw [handleAdminMessage_command m.env m.ctx w hcmd])
  by_cases htext : truthy m.ctx.text = true
  swap
  · exact hsame _ (handleAdminMessage_no_text m.env m.ctx w a hadmin hshape.not_broadcast
      (by simpa using htext))
  obtain ⟨s1, s2, s3, s4, s5⟩ :=
    handleAdminMessage_createTest m.env m.ctx w a hadmin (by simpa using hcmd) htext
  cases hshape with
  | title _ hm hnt =>
    rw [s1 hm]
    unfold createTestTitleStep
    by_cases hempty : messageText m.ctx = ""
    · rw [if_pos hempty]
      exact hsame _ rfl
    · rw [if_neg hempty]
      simp only [hnt]
      refine ⟨_, rfl, Or.inr ?_, rfl⟩
      exact Shape.count m _ rfl hempty rfl
  | count t _ hm ht hnt =>
    rw [s2 hm]
    unfold createTestCountStep
    dsimp only
    cases hnum : m.env.Number (messageText m.ctx) with
    | none => exact hsame _ rfl
    | some count =>
      dsimp only
      by_cases hguard : (!isInteger count || decide (count ≤ 0) || decide (count > 100)) = true
      · rw [if_pos hguard]
        exact hsame _ rfl
      · rw [if_neg hguard]
        obtain ⟨hk, h1, h100⟩ := count_accepted count (by simpa using hguard)
        simp only [hnt]
        refine ⟨_, rfl, Or.inr ?_, rfl⟩
        refine Shape.question { title := t, count := m, entered := [] } count.num _ rfl
          ⟨ht, ?_, h1, h100, ?_⟩ ?_ ?_
        · show m.env.Number (messageText m.ctx) = some ((count.num : ℤ) : ℚ)
          rw [hnum, hk]
        · intro e he
          cases he
        · simp only [List.length_nil]
          omega
        · simp only [Script.newTest, Input.number, hnum, Option.getD_some, List.map_nil]
  | question s n _ hm hdecl hlen hnt =>
    rw [s3 hm]
    unfold createTestQuestionStep
    simp only [hnt]
    refine ⟨_, rfl, Or.inr ?_, rfl⟩
    exact Shape.options s n m _ rfl hdecl hlen rfl rfl
  | options s n q _ hm hdecl hlen hnt hcq =>
    rw [s4 hm]
    unfold createTestOptionsStep
    dsimp only
    by_cases hfew : (parseOptions (messageText m.ctx)).length < 2
    · rw [if_pos hfew]
      exact hsame _ rfl
    · rw [if_neg hfew]
      simp only [hcq, hnt]
      refine ⟨_, rfl, Or.inr ?_, rfl⟩
      rw [List.append_assoc]
      exact Shape.correct s n q m _ rfl hdecl hlen rfl (by unfold Input.text; omega) rfl
  | correct s n q o _ hm hdecl hlen hnt hopts hcq =>
    rw [s5 hm]
    unfold createTestCorrectStep
    simp only [hcq, hnt]
    cases hnum : m.env.Number (messageText m.ctx) with
    | none => exact hsame _ rfl
    | some index =>
      dsimp only
      by_cases hguard : (!isInteger index || decide (index < 1) ||
          decide (index > ((parseOptions o.text).length : ℚ))) = true
      · rw [if_pos hguard]
        exact hsame _ rfl
      · rw [if_neg hguard]
        obtain ⟨hk, h1, hle⟩ := index_accepted index _ (by simpa using hguard)
        obtain ⟨htitle, hcount, hn1, hn100, hvalid⟩ := hdecl
        have htotal : s.newTest.totalQuestions = (n : ℚ) := by
          simp only [Script.newTest, Input.number]
          unfold Input.text at hcount
          rw [hcount]
          rfl
        have hdecl1 : Script.declares
            { s with entered := s.entered ++ [{ question := q, options := o, correct := m }] } n := by
          refine ⟨htitle, hcount, hn1, hn100, ?_⟩
          intro e he
          rcases List.mem_append.mp he with he | he
          · exact hvalid e he
          · rw [List.mem_singleton] at he
            subst he
            refine ⟨hopts, index.num, ?_, h1, hle⟩
            show m.env.Number (messageText m.ctx) = some ((index.num : ℤ) : ℚ)
            rw [hnum, hk]
        have hmsgs : Script.messages
            { s with entered := s.entered ++ [{ question := q, options := o, correct := m }] }
            = s.messages ++ [q, o] ++ [m] := by
          simp only [Script.messages, enteredMessages_append, List.cons_append, List.append_assoc,
            List.nil_append]
        have hnew : Script.newTest
            { s with entered := s.entered ++ [{ question := q, options := o, correct := m }] }
            = { s.newTest with
                questions := s.newTest.questions ++
                  [{ question := q.text, options := parseOptions o.text,
                     correct_answer := index.num - 1 }] } := by
          simp only [Script.newTest, List.map_append, List.map_singleton, Entered.toQuestion,
            Input.number, hnum, Option.getD_some]
        by_cases hfull : (((s.newTest.questions ++
            [({ question := q.text, options := parseOptions o.text,
                correct_answer := index.num - 1 } : Question)]).length : ℕ) : ℚ)
            ≥ s.newTest.totalQuestions
        · rw [if_pos hfull]
          refine ⟨_, rfl, Or.inr ?_, rfl⟩
          rw [← hmsgs]
          refine Shape.status _ n _ rfl hdecl1 ?_ ?_
          · rw [htotal] at hfull
            simp only [Script.newTest, List.length_append, List.length_map, List.length_singleton,
              ge_iff_le] at hfull
            have hge : n ≤ ((s.entered.length + 1 : ℕ) : ℤ) := by exact_mod_cast hfull
            simp only [List.length_append, List.length_singleton]
            push_cast at hge ⊢
            omega
          · simp only [hnew]
        · rw [if_neg hfull]
          refine ⟨_, rfl, Or.inr ?_, rfl⟩
          rw [← hmsgs]
          refine Shape.question _ n _ rfl hdecl1 ?_ ?_
          · rw [htotal] at hfull
            simp only [Script.newTest, List.length_append, List.length_map, List.length_singleton,
              ge_iff_le, not_le] at hfull
            have hlt : ((s.entered.length + 1 : ℕ) : ℤ) < n := by exact_mod_cast hfull
            simp only [List.length_append, List.length_singleton]
            push_cast at hlt ⊢
            omega
          · simp only [hnew]
  | status s n _ hm hdecl hlen hnt =>
    exact hsame _ (handleAdminMessage_status m.env m.ctx w _ hadmin hm)

/-- A run of messages moves the creation wizard from a state of shape `S0` to a
state whose shape is `S0` followed by messages of the run, in their order, and
leaves the store as it was. -/
theorem wizardRun_shape (ms : List Input) (w : World) (a : AdminState) (S0 : List Input)
    (hadmin : w.session.admin = some a) (hshape : Shape S0 a) :
    ∃ a1 T, (wizardRun w ms).session.admin = some a1 ∧ Shape (S0 ++ T) a1 ∧ List.Sublist T ms ∧
      (wizardRun w ms).store = w.store := by
  induction ms generalizing w a S0 with
  | nil => exact ⟨a, [], hadmin, by rw [List.append_nil]; exact hshape, List.Sublist.refl _, rfl⟩
  | cons m ms ih =>
    obtain ⟨a1, ha1, hs1, hstore1⟩ := wizard_step m w a S0 hadmin hshape
    unfold wizardRun
    rw [List.foldl_cons]
    rcases hs1 with hs1 | hs1
    · obtain ⟨a2, T, ha2, hs2, hsub, hstore2⟩ := ih _ a1 S0 ha1 hs1
      exact ⟨a2, T, ha2, hs2, List.Sublist.cons m hsub, hstore2.trans hstore1⟩
    · obtain ⟨a2, T, ha2, hs2, hsub, hstore2⟩ := ih _ a1 (S0 ++ [m]) ha1 hs1
      refine ⟨a2, m :: T, ha2, ?_, List.Sublist.cons₂ m hsub, hstore2.trans hstore1⟩
      rw [List.append_assoc] at hs2
      exact hs2

/-- C10. Every run of messages of the creation wizard from its entry state that
reaches the status keyboard was entered as a script: a title message, a count
message whose number is an integer `n` with `1 ≤ n ≤ 100`, and `n` times the
three messages of a question (text, options, correct answer), all of them
messages of the run in this order; the wizard then holds the entered title and
exactly the `n` entered questions in the order of entry, and the status choice
appends to the tests one record with that title, these questions, the chosen
status and the next id. -/
theorem wizard_reaches_status (w : World) (ms : List Input) (admin : AdminState)
    (hentry : w.session.admin = some createTestEntry)
    (hadmin : (wizardRun w ms).session.admin = some admin)
    (hstatus : admin.mode = "create_test_status") :
    ∃ (s : Script) (n : ℤ),
      List.Sublist s.messages ms ∧
      s.count.env.Number s.count.text = some (n : ℚ) ∧ 1 ≤ n ∧ n ≤ 100 ∧
      (s.entered.length : ℤ) = n ∧ (∀ e ∈ s.entered, e.valid) ∧
      admin.newTest = some s.newTest ∧
      ∀ (env : Env) (ctx : Ctx) (status : String),
        isAdmin env (wizardRun w ms) ctx.sender.id = true → env.writeJson "tests" = true →
        (testStatusAction env ctx status (wizardRun w ms)).world.store.tests
          = w.store.tests ++
            [{ id := nextId w.store.tests, title := s.title.text, status := status,
               questions := s.entered.map Entered.toQuestion, created_at := env.formatDate }] := by
  obtain ⟨a1, T, ha1, hshape, hsub, hstore⟩ :=
    wizardRun_shape ms w createTestEntry [] hentry (Shape.title _ rfl rfl)
  rw [hadmin] at ha1
  cases ha1
  rw [List.nil_append] at hshape
  cases hshape with
  | title _ hm _ => rw [hm] at hstatus; exact absurd hstatus (by decide)
  | count _ _ hm _ _ => rw [hm] at hstatus; exact absurd hstatus (by decide)
  | question _ _ _ hm _ _ _ => rw [hm] at hstatus; exact absurd hstatus (by decide)
  | options _ _ _ _ hm _ _ _ _ => rw [hm] at hstatus; exact absurd hstatus (by decide)
  | correct _ _ _ _ _ hm _ _ _ _ _ => rw [hm] at hstatus; exact absurd hstatus (by decide)
  | status s n _ hm hdecl hlen hnt =>
    obtain ⟨_, hcount, h1, h100, hvalid⟩ := hdecl
    refine ⟨s, n, hsub, hcount, h1, h100, hlen, hvalid, hnt, ?_⟩
    intro env ctx status hisAdmin hwrite
    unfold testStatusAction
    simp only [hisAdmin, hadmin, hm, hnt, hwrite, hstore, Bool.not_true, Bool.false_eq_true,
      if_false, ne_eq, not_true_eq_false, setAdmin]
    rfl

/-- C10 at the run that enters the test "Math" with one question. -/
theorem wizard_reaches_status_witness :
    (wizardWorld createTestEntry).session.admin = some createTestEntry ∧
    (wizardRun (wizardWorld createTestEntry) mathInputs).session.admin = some statusAdmin ∧
    statusAdmin.mode = "create_test_status" ∧
    ∃ (s : Script) (n : ℤ),
      List.Sublist s.messages mathInputs ∧
      s.count.env.Number s.count.text = some (n : ℚ) ∧ 1 ≤ n ∧ n ≤ 100 ∧
      (s.entered.length : ℤ) = n ∧ (∀ e ∈ s.entered, e.valid) ∧
      statusAdmin.newTest = some s.newTest ∧
      ∀ (env : Env) (ctx : Ctx) (status : String),
        isAdmin env (wizardRun (wizardWorld createTestEntry) mathInputs) ctx.sender.id = true →
        env.writeJson "tests" = true →
        (testStatusAction env ctx status
            (wizardRun (wizardWorld createTestEntry) mathInputs)).world.store.tests
          = (wizardWorld createTestEntry).store.tests ++
            [{ id := nextId (wizardWorld createTestEntry).store.tests, title := s.title.text,
               status := status, questions := s.entered.map Entered.toQuestion,
               created_at := env.formatDate }] :=
  ⟨rfl, by decide, rfl,
    wizard_reaches_status (wizardWorld createTestEntry) mathInputs statusAdmin rfl (by decide) rfl⟩

/-! ## Options step -/

/-- What `trim` returns has no whitespace at its ends. -/
theorem trim_noEdgeWhiteSpace (s : String) : noEdgeWhiteSpace (trim s) := by
  have hr : trimChars s.data = (s.data.dropWhile isWhiteSpace).rdropWhile isWhiteSpace := rfl
  unfold noEdgeWhiteSpace trim
  simp only [hr]
  constructor
  · intro c hc
    have hne : (s.data.dropWhile isWhiteSpace).rdropWhile isWhiteSpace ≠ [] := by
      intro h
      rw [h] at hc
      cases hc
    rw [List.head?_eq_head hne] at hc
    have hpre := List.rdropWhile_prefix isWhiteSpace (s.data.dropWhile isWhiteSpace)
    rw [List.IsPrefix.head hpre hne] at hc
    cases hc
    exact List.head_dropWhile_not isWhiteSpace s.data _
  · intro c hc
    have hne : (s.data.dropWhile isWhiteSpace).rdropWhile isWhiteSpace ≠ [] := by
      intro h
      rw [h] at hc
      cases hc
    rw [List.getLast?_eq_getLast _ hne] at hc
    cases hc
    have := List.rdropWhile_last_not isWhiteSpace (s.data.dropWhile isWhiteSpace) hne
    simpa using this

/-- Every entry of `parseOptions` is non-empty and has no whitespace at its
ends. -/
theorem parseOptions_entries (text : String) :
    ∀ o ∈ parseOptions text, o ≠ "" ∧ noEdgeWhiteSpace o := by
  intro o ho
  unfold parseOptions at ho
  rw [List.mem_filter, List.mem_map] at ho
  obtain ⟨⟨p, _, hp⟩, hne⟩ := ho
  refine ⟨by simpa using hne, ?_⟩
  rw [← hp]
  exact trim_noEdgeWhiteSpace _

/-- The Options step in terms of `parseOptions`: a text message that reaches it
changes the wizard state if and only if `parseOptions` returns at least two
entries for its trimmed text; the stored options are then these entries and the
wizard is at the Correct step. -/
theorem options_step_parse (env : Env) (ctx : Ctx) (w : World) (admin : AdminState) (cq : Draft)
    (hadmin : w.session.admin = some admin) (hmode : admin.mode = "create_test_options")
    (hcq : admin.currentQuestion = some cq)
    (hcmd : isCommand ctx = false) (htext : truthy ctx.text = true) :
    ((handleAdminMessage env ctx w).world ≠ w ↔ 2 ≤ (parseOptions (messageText ctx)).length) ∧
    (2 ≤ (parseOptions (messageText ctx)).length →
      (handleAdminMessage env ctx w).world.session.admin
        = some { admin with
                 mode := "create_test_correct"
                 currentQuestion := some { cq with options := some (parseOptions (messageText ctx)) } } ∧
      ∀ o ∈ parseOptions (messageText ctx), o ≠ "" ∧ noEdgeWhiteSpace o) := by
  have hstep := (handleAdminMessage_createTest env ctx w admin hadmin hcmd htext).2.2.2.1 hmode
  rw [hstep]
  unfold createTestOptionsStep
  dsimp only
  by_cases hfew : (parseOptions (messageText ctx)).length < 2
  · rw [if_pos hfew]
    refine ⟨⟨fun h => absurd rfl h, fun h => by omega⟩, fun h => by omega⟩
  · rw [if_neg hfew]
    simp only [hcq]
    have hchanged : ∀ v : World,
        v.session.admin.map AdminState.mode = some "create_test_correct" → v ≠ w := by
      intro v hv hw
      rw [hw, hadmin] at hv
      simp only [Option.map_some', Option.some.injEq] at hv
      rw [hmode] at hv
      exact absurd hv (by decide)
    cases hnew : admin.newTest with
    | none =>
      dsimp only
      exact ⟨⟨fun _ => by omega, fun _ => hchanged _ rfl⟩,
        fun _ => ⟨rfl, parseOptions_entries _⟩⟩
    | some newTest =>
      dsimp only
      exact ⟨⟨fun _ => by omega, fun _ => hchanged _ rfl⟩,
        fun _ => ⟨rfl, parseOptions_entries _⟩⟩

/-! ## Admin and channel wizards -/

/-- The blocks `handleAdminMessage` runs for the modes of the other wizards, on a
text that is no command. -/
theorem handleAdminMessage_other (env : Env) (ctx : Ctx) (w : World) (admin : AdminState)
    (hadmin : w.session.admin = some admin) (hcmd : isCommand ctx = false)
    (htext : truthy ctx.text = true) :
    (admin.mode = "edit_test_title" →
      handleAdminMessage env ctx w = editTestTitleStep env ctx admin (messageText ctx) w) ∧
    (admin.mode = "add_admin" →
      handleAdminMessage env ctx w = addAdminStep env ctx (messageText ctx) w) ∧
    (admin.mode = "remove_admin" →
      handleAdminMessage env ctx w = removeAdminStep env ctx (messageText ctx) w) ∧
    (admin.mode = "add_channel" →
      handleAdminMessage env ctx w = addChannelStep env ctx (messageText ctx) w) := by
  unfold isCommand at hcmd
  have hslash : startsWithChar '/' (trim (ctx.text.getD "")) = false := by
    rw [htext] at hcmd
    simpa using hcmd
  unfold messageText
  refine ⟨?_, ?_, ?_, ?_⟩ <;>
  · intro hmode
    unfold handleAdminMessage
    simp only [hadmin, hslash, htext, hmode, Bool.and_false, Bool.false_eq_true, if_false,
      Bool.not_true]
    simp

/-- A super-admin and a configured admin are admins in every world. -/
theorem isAdmin_of_configured (env : Env) (w : World) (i : ℚ)
    (h : isSuperAdmin env i = true ∨ i ∈ env.ADMIN_IDS) : isAdmin env w i = true := by
  unfold isAdmin
  rcases h with h | h
  · simp [h]
  · simp [h]

/-- C12. For an identifier `id` a super-admin submits to the remove_admin step
(a text message that is no command and whose number `parseAdminId` accepts): the
dynamic-admin set afterwards is the set before less `id` when `id` is no
super-admin, is not statically configured and is in the dynamic set, and it is
the set before in every other case; in particular an `id` in the dynamic set
that is also a super-admin or statically configured stays in it; and after the
step every super-admin and every statically configured admin is still an
admin. -/
theorem removeAdmin_dynamic_set (env : Env) (ctx : Ctx) (w : World) (admin : AdminState) (id : ℚ)
    (hadmin : w.session.admin = some admin) (hmode : admin.mode = "remove_admin")
    (hsuper : isSuperAdmin env ctx.sender.id = true)
    (hcmd : isCommand ctx = false) (htext : truthy ctx.text = true)
    (hid : parseAdminId env (messageText ctx) = some id) :
    ((isSuperAdmin env id = false ∧ id ∉ env.ADMIN_IDS ∧ id ∈ w.dynamicAdmins) →
      ∀ x, x ∈ (handleAdminMessage env ctx w).world.dynamicAdmins ↔ x ∈ w.dynamicAdmins ∧ x ≠ id) ∧
    (¬(isSuperAdmin env id = false ∧ id ∉ env.ADMIN_IDS ∧ id ∈ w.dynamicAdmins) →
      (handleAdminMessage env ctx w).world.dynamicAdmins = w.dynamicAdmins) ∧
    ((isSuperAdmin env id = true ∨ id ∈ env.ADMIN_IDS) → id ∈ w.dynamicAdmins →
      id ∈ (handleAdminMessage env ctx w).world.dynamicAdmins) ∧
    (∀ i, isSuperAdmin env i = true ∨ i ∈ env.ADMIN_IDS →
      isAdmin env (handleAdminMessage env ctx w).world i = true) := by
  have hstep := (handleAdminMessage_other env ctx w admin hadmin hcmd htext).2.2.1 hmode
  have hkeep : (¬(isSuperAdmin env id = false ∧ id ∉ env.ADMIN_IDS ∧ id ∈ w.dynamicAdmins) →
      (handleAdminMessage env ctx w).world.dynamicAdmins = w.dynamicAdmins) := by
    intro hnot
    rw [hstep]
    unfold removeAdminStep
    simp only [hsuper, hid, Bool.not_true, Bool.false_eq_true, if_false]
    by_cases h1 : isSuperAdmin env id = true
    · simp only [h1, if_true]
    · by_cases h2 : id ∈ env.ADMIN_IDS
      · simp only [h1, h2, decide_True, if_true, if_false, Bool.false_eq_true]
      · have h3 : id ∉ w.dynamicAdmins := by
          intro h3
          exact hnot ⟨by simpa using h1, h2, h3⟩
        simp only [h1, h2, h3, decide_False, Bool.false_eq_true, if_false, Bool.not_false, if_true]
  refine ⟨?_, hkeep, ?_, fun i hi => isAdmin_of_configured env _ i hi⟩
  · rintro ⟨h1, h2, h3⟩ x
    rw [hstep]
    unfold removeAdminStep
    simp only [hsuper, hid, h1, h2, h3, Bool.not_true, Bool.false_eq_true, if_false, decide_False,
      decide_True]
    by_cases hw : env.writeJson "admins" = true
    · simp [hw, setAdmin]
    · simp [hw]
  · intro hconf hmem
    rw [hkeep ?_]
    · exact hmem
    · rintro ⟨h1, h2, _⟩
      rcases hconf with h | h
      · rw [h1] at h
        cases h
      · exact h2 h

/-- C12 at the dynamic admins `5` and `7`, of which `7` is also configured: the
super-admin `1` removes `5`, and `7` is not removed. -/
theorem removeAdmin_dynamic_set_witness :
    removeAdminWorld.session.admin
      = some { mode := "remove_admin", newTest := none, currentQuestion := none, testId := none } ∧
    isSuperAdmin superEnv (superCtx "5").sender.id = true ∧
    parseAdminId superEnv (messageText (superCtx "5")) = some 5 ∧
    parseAdminId superEnv (messageText (superCtx "7")) = some 7 ∧
    (isSuperAdmin superEnv 5 = false ∧ (5 : ℚ) ∉ superEnv.ADMIN_IDS ∧
      (5 : ℚ) ∈ removeAdminWorld.dynamicAdmins) ∧
    (∀ x, x ∈ (handleAdminMessage superEnv (superCtx "5") removeAdminWorld).world.dynamicAdmins ↔
      x ∈ removeAdminWorld.dynamicAdmins ∧ x ≠ 5) ∧
    (7 : ℚ) ∈ (handleAdminMessage superEnv (superCtx "7") removeAdminWorld).world.dynamicAdmins :=
  ⟨rfl, by decide, by decide, by decide, by decide,
    (removeAdmin_dynamic_set superEnv (superCtx "5") removeAdminWorld
      { mode := "remove_admin", newTest := none, currentQuestion := none, testId := none } 5
      rfl rfl (by decide) (by decide) (by decide) (by decide)).1 (by decide),
    (removeAdmin_dynamic_set superEnv (superCtx "7") removeAdminWorld
      { mode := "remove_admin", newTest := none, currentQuestion := none, testId := none } 7
      rfl rfl (by decide) (by decide) (by decide) (by decide)).2.2.1 (Or.inr (by decide))
      (by decide)⟩

/-! ## Broadcast -/

/-- The calls of the delivery loop from call number `i` on: one per user, in the
order of the list, with the outcomes of the calls `i`, `i + 1`, and so on. -/
theorem broadcastSends_eq (env : Env) (users : List User) (i : ℕ) :
    broadcastSends env users i
      = List.zipWith Reply.copyMessage (users.map (fun u => u.id))
          ((List.range' i users.length).map env.copyMessage) := by
  induction users generalizing i with
  | nil => rfl
  | cons u us ih =>
    simp only [broadcastSends, ih, List.length_cons, List.range'_succ, List.map_cons,
      List.zipWith_cons_cons]

/-- The tally of the delivery loop from call number `i` on: the successes and
the failures among the calls are added to the counts. -/
theorem broadcastLoop_eq (env : Env) (users : List User) (i ok fail : ℕ) :
    broadcastLoop env users i (ok, fail)
      = (ok + ((List.range' i users.length).map env.copyMessage).count true,
         fail + ((List.range' i users.length).map env.copyMessage).count false) := by
  induction users generalizing i ok fail with
  | nil => simp [broadcastLoop]
  | cons u us ih =>
    unfold broadcastLoop
    by_cases h : env.copyMessage i = true
    · rw [if_pos h, ih]
      simp only [List.length_cons, List.range'_succ, List.map_cons, h, List.count_cons_self,
        List.count_cons_of_ne (by decide : (false : Bool) ≠ true)]
      congr 1
      omega
    · have h1 : env.copyMessage i = false := by simpa using h
      rw [if_neg h, ih]
      simp only [List.length_cons, List.range'_succ, List.map_cons, h1, List.count_cons_self,
        List.count_cons_of_ne (by decide : (true : Bool) ≠ false)]
      congr 1
      omega

/-- Successes and failures together are all the outcomes. -/
theorem count_true_add_count_false (l : List Bool) : l.count true + l.count false = l.length := by
  induction l with
  | nil => rfl
  | cons b bs ih =>
    cases b <;> simp [List.count_cons] <;> omega

/-- C13. At the broadcast step, for every list of known users and every
assignment of success or failure to the deliveries, a message that is no
command is copied to every user exactly once, in the order of the list (the
i-th call goes to the i-th user); the report gives as delivered the number of
successful calls and as errors the number of failed ones, which together are
the number of users; and the admin wizard state is cleared whatever the
outcomes. -/
theorem broadcast_tally (env : Env) (ctx : Ctx) (w : World) (admin : AdminState)
    (hadmin : w.session.admin = some admin) (hmode : admin.mode = "broadcast")
    (hcmd : isCommand ctx = false) :
    (handleAdminMessage env ctx w).replies
      = List.zipWith Reply.copyMessage (w.store.users.map (fun u => u.id))
          (deliveryOutcomes env w.store.users.length) ++
        [broadcastReport ((deliveryOutcomes env w.store.users.length).count true)
           ((deliveryOutcomes env w.store.users.length).count false),
         showAdminMenu env ctx] ∧
    (deliveryOutcomes env w.store.users.length).length = w.store.users.length ∧
    (deliveryOutcomes env w.store.users.length).count true
      + (deliveryOutcomes env w.store.users.length).count false = w.store.users.length ∧
    (handleAdminMessage env ctx w).world.session.admin = none ∧
    (handleAdminMessage env ctx w).value = some true := by
  have hout : handleAdminMessage env ctx w = broadcastStep env ctx w := by
    unfold isCommand at hcmd
    unfold handleAdminMessage
    simp only [hadmin, hcmd, hmode, Bool.false_eq_true, if_false, if_true]
  rw [hout]
  unfold broadcastStep
  simp only [broadcastSends_eq, broadcastLoop_eq, Nat.zero_add, deliveryOutcomes,
    List.range_eq_range', broadcastReport, setAdmin]
  refine ⟨trivial, ?_, ?_, trivial, trivial⟩
  · simp
  · rw [count_true_add_count_false]
    simp

/-- C13 at three users of whom the second cannot be reached: delivered is 2,
errors is 1, and the wizard state is cleared. -/
theorem broadcast_tally_witness :
    broadcastWorld.session.admin
      = some { mode := "broadcast", newTest := none, currentQuestion := none, testId := none } ∧
    isCommand (adminCtx "hello") = false ∧
    deliveryOutcomes secondFailsEnv broadcastWorld.store.users.length = [true, false, true] ∧
    (handleAdminMessage secondFailsEnv (adminCtx "hello") broadcastWorld).replies
      = [Reply.copyMessage 11 true, Reply.copyMessage 12 false, Reply.copyMessage 13 true,
         broadcastReport 2 1, showAdminMenu secondFailsEnv (adminCtx "hello")] ∧
    (handleAdminMessage secondFailsEnv (adminCtx "hello") broadcastWorld).world.session.admin
      = none := by
  obtain ⟨hreplies, _, _, hsession, _⟩ :=
    broadcast_tally secondFailsEnv (adminCtx "hello") broadcastWorld
      { mode := "broadcast", newTest := none, currentQuestion := none, testId := none }
      rfl rfl (by decide)
  have hout : deliveryOutcomes secondFailsEnv broadcastWorld.store.users.length
      = [true, false, true] := by decide
  refine ⟨rfl, by decide, hout, ?_, hsession⟩
  rw [hreplies, hout]
  rfl

/-! ## Channels -/

/-- A change of the first matching element keeps the length of the list. -/
theorem length_updateFirst {α : Type} (p : α → Bool) (f : α → α) (xs : List α) :
    (updateFirst p f xs).length = xs.length := by
  induction xs with
  | nil => rfl
  | cons x xs ih =>
    unfold updateFirst
    by_cases hx : p x = true
    · simp [hx]
    · simp [hx, ih]

/-- The channels the add_channel step saves: the records before, with the same
ids in the same order, followed by at most one new record. -/
theorem upsertChannel_ids (chat : Chat) (channels : List Channel) :
    (channelIds (upsertChannel chat channels) = channelIds channels ∧
      (upsertChannel chat channels).length = channels.length) ∨
    ∃ c, upsertChannel chat channels = channels ++ [c] := by
  unfold upsertChannel
  dsimp only
  split
  · left
    refine ⟨?_, length_updateFirst _ _ _⟩
    unfold channelIds
    rw [map_updateFirst]
    intro x
    rfl
  · right
    exact ⟨_, rfl⟩

/-- What the remove_channel handler does to the channels: nothing, or it sets
the status of the first record with the given id to inactive. -/
theorem removeChannelAction_channels (env : Env) (ctx : Ctx) (channelId : ℤ) (w : World) :
    (removeChannelAction env ctx channelId w).world.store.channels = w.store.channels ∨
    (removeChannelAction env ctx channelId w).world.store.channels
      = updateFirst (fun c => c.id = channelId) (fun c => { c with status := "inactive" })
          w.store.channels := by
  unfold removeChannelAction
  repeat' split
  all_goals first
    | (left; rfl)
    | (right; rfl)

/-- What `handleAdminMessage` does to the channels: nothing, or what the
add_channel step saves for a resolved chat. -/
theorem handleAdminMessage_channels (env : Env) (ctx : Ctx) (w : World) :
    (handleAdminMessage env ctx w).world.store.channels = w.store.channels ∨
    ∃ chat, (handleAdminMessage env ctx w).world.store.channels
      = upsertChannel chat w.store.channels := by
  refine handleAdminMessage_cases
    (fun o => o.world.store.channels = w.store.channels ∨
      ∃ chat, o.world.store.channels = upsertChannel chat w.store.channels)
    env ctx w (Or.inl rfl) (Or.inl rfl) (fun _ _ _ => Or.inl rfl) ?_
  intro admin _ _ _
  obtain ⟨s1, s2, s3, s4, s5⟩ := createTest_steps_store env admin (trim (ctx.text.getD "")) w
  refine ⟨?_, ?_, ?_, ?_, ?_, ?_, ?_, ?_, ?_⟩
  · intro _; left; simp only [s1]
  · intro _; left; simp only [s2]
  · intro _; left; simp only [s3]
  · intro _; left; simp only [s4]
  · intro _; left; simp only [s5]
  · intro _
    left
    unfold editTestTitleStep
    repeat' split
    all_goals rfl
  · intro _
    left
    unfold addAdminStep
    dsimp only
    repeat' split
    all_goals rfl
  · intro _
    left
    unfold removeAdminStep
    dsimp only
    repeat' split
    all_goals rfl
  · intro _
    unfold addChannelStep
    dsimp only
    repeat' split
    all_goals first
      | (left; rfl)
      | (right; exact ⟨_, rfl⟩)

/-- C14. The admin channel operations remove no channel record. The
remove_channel handler leaves the channels as they are or sets the status of the
first record with the given id to inactive: the ids, the number of records and
every other field of every record stay. A step of `handleAdminMessage` (the
add_channel step among them) keeps the ids before, in their order, as the first
ids after, and the number of records does not decrease. -/
theorem channels_never_removed :
    (∀ (env : Env) (ctx : Ctx) (channelId : ℤ) (w : World),
      ((removeChannelAction env ctx channelId w).world.store.channels = w.store.channels ∨
        (removeChannelAction env ctx channelId w).world.store.channels
          = updateFirst (fun c => c.id = channelId) (fun c => { c with status := "inactive" })
              w.store.channels) ∧
      channelIds (removeChannelAction env ctx channelId w).world.store.channels
        = channelIds w.store.channels ∧
      (removeChannelAction env ctx channelId w).world.store.channels.length
        = w.store.channels.length ∧
      (removeChannelAction env ctx channelId w).world.store.channels.map
          (fun c => (c.id, c.name, c.username))
        = w.store.channels.map (fun c => (c.id, c.name, c.username))) ∧
    (∀ (env : Env) (ctx : Ctx) (w : World),
      List.IsPrefix (channelIds w.store.channels)
        (channelIds (handleAdminMessage env ctx w).world.store.channels) ∧
      w.store.channels.length ≤ (handleAdminMessage env ctx w).world.store.channels.length) := by
  constructor
  · intro env ctx channelId w
    refine ⟨removeChannelAction_channels env ctx channelId w, ?_, ?_, ?_⟩
    · rcases removeChannelAction_channels env ctx channelId w with h | h
      · rw [h]
      · rw [h]
        unfold channelIds
        rw [map_updateFirst]
        intro x
        rfl
    · rcases removeChannelAction_channels env ctx channelId w with h | h
      · rw [h]
      · rw [h, length_updateFirst]
    · rcases removeChannelAction_channels env ctx channelId w with h | h
      · rw [h]
      · rw [h, map_updateFirst]
        intro x
        rfl
  · intro env ctx w
    rcases handleAdminMessage_channels env ctx w with h | ⟨chat, h⟩
    · rw [h]
      exact ⟨List.prefix_refl _, le_refl _⟩
    · rw [h]
      rcases upsertChannel_ids chat w.store.channels with ⟨hids, hlen⟩ | ⟨c, hc⟩
      · rw [hids, hlen]
        exact ⟨List.prefix_refl _, le_refl _⟩
      · rw [hc]
        unfold channelIds
        rw [List.map_append, List.length_append]
        exact ⟨List.prefix_append _ _, Nat.le_add_right _ _⟩

/-- C14 at two channels: removing the channel `-1001` keeps both records and
makes the first inactive; adding the channel `-1003` keeps both and appends
one. -/
theorem channels_never_removed_witness :
    (removeChannelAction sampleEnv (adminCtx "") (-1001) channelsWorld).world.store.channels
      = [{ id := -1001, name := "News", username := "@news", status := "inactive" },
         { id := -1002, name := "Quiz", username := "@quiz", status := "inactive" }] ∧
    channelIds (removeChannelAction sampleEnv (adminCtx "") (-1001) channelsWorld).world.store.channels
      = channelIds channelsWorld.store.channels ∧
    channelIds (handleAdminMessage channelEnv (adminCtx "@math") channelsWorld).world.store.channels
      = [-1001, -1002, -1003] ∧
    List.IsPrefix (channelIds channelsWorld.store.channels)
      (channelIds (handleAdminMessage channelEnv (adminCtx "@math") channelsWorld).world.store.channels) ∧
    channelsWorld.store.channels.length
      ≤ (handleAdminMessage channelEnv (adminCtx "@math") channelsWorld).world.store.channels.length :=
  ⟨by decide,
    (channels_never_removed.1 sampleEnv (adminCtx "") (-1001) channelsWorld).2.1,
    by decide,
    (channels_never_removed.2 channelEnv (adminCtx "@math") channelsWorld).1,
    (channels_never_removed.2 channelEnv (adminCtx "@math") channelsWorld).2⟩

/-! ## Handlers that run at the same time: lost updates -/

/-- The `test_toggle` handler of an admin whose write succeeds is its read
followed by its write. -/
theorem testToggleAction_eq_alone (env : Env) (ctx : Ctx) (testId : ℕ) (w : World)
    (hadmin : isAdmin env w ctx.sender.id = true) (hwrite : env.writeJson "tests" = true) :
    (testToggleAction env ctx testId w).world.store.tests
      = alone (toggleRead testId) w.store.tests := by
  unfold testToggleAction alone toggleRead
  simp only [hadmin, hwrite, Bool.not_true, Bool.false_eq_true, if_false]
  cases w.store.tests.find? (fun t => t.id = (testId : ℤ)) <;> rfl

/-- C15 fails as stated: two `test_toggle` handlers on the open tests 1 and 2 that
both read before either writes leave test 1 open; the toggle of the first
handler is lost, and the collection is the outcome of neither serial order. -/
theorem toggles_lost_update :
    interleave (toggleRead 1) (toggleRead 2) twoTests
        [Atom.read Task.first, Atom.read Task.second, Atom.write Task.first, Atom.write Task.second]
      = [mathTest, { pairsTest with status := "closed" }] ∧
    alone (toggleRead 2) (alone (toggleRead 1) twoTests)
      = [{ mathTest with status := "closed" }, { pairsTest with status := "closed" }] ∧
    alone (toggleRead 1) (alone (toggleRead 2) twoTests)
      = [{ mathTest with status := "closed" }, { pairsTest with status := "closed" }] ∧
    [Atom.read Task.first, Atom.read Task.second, Atom.write Task.first, Atom.write Task.second]
      ∈ schedules ∧
    ¬ (interleave (toggleRead 1) (toggleRead 2) twoTests
          [Atom.read Task.first, Atom.read Task.second, Atom.write Task.first,
           Atom.write Task.second]
        = alone (toggleRead 2) (alone (toggleRead 1) twoTests) ∨
      interleave (toggleRead 1) (toggleRead 2) twoTests
          [Atom.read Task.first, Atom.read Task.second, Atom.write Task.first,
           Atom.write Task.second]
        = alone (toggleRead 1) (alone (toggleRead 2) twoTests)) := by
  decide

/-- C15, as the code has it. Of two handlers that each read the tests, change
their copy and write it back: when one runs after the other (the second reads
after the first wrote), the collection reflects both changes in that order;
when both read before either writes, the collection after both writes is the
copy written last, and the change of the other handler is not in it. -/
theorem last_write_wins (fa fb : List Test → Option (List Test)) (tests da db : List Test)
    (ha : fa tests = some da) (hb : fb tests = some db) :
    interleave fa fb tests
        [Atom.read Task.first, Atom.write Task.first, Atom.read Task.second, Atom.write Task.second]
      = alone fb (alone fa tests) ∧
    interleave fa fb tests
        [Atom.read Task.second, Atom.write Task.second, Atom.read Task.first, Atom.write Task.first]
      = alone fa (alone fb tests) ∧
    interleave fa fb tests
        [Atom.read Task.first, Atom.read Task.second, Atom.write Task.first, Atom.write Task.second]
      = db ∧
    interleave fa fb tests
        [Atom.read Task.second, Atom.read Task.first, Atom.write Task.first, Atom.write Task.second]
      = db ∧
    interleave fa fb tests
        [Atom.read Task.first, Atom.read Task.second, Atom.write Task.second, Atom.write Task.first]
      = da ∧
    interleave fa fb tests
        [Atom.read Task.second, Atom.read Task.first, Atom.write Task.second, Atom.write Task.first]
      = da := by
  refine ⟨?_, ?_, ?_, ?_, ?_, ?_⟩
  · simp only [interleave, List.foldl_cons, List.foldl_nil, Shared.step, ha, alone, Option.getD_some]
    cases fb da <;> rfl
  · simp only [interleave, List.foldl_cons, List.foldl_nil, Shared.step, hb, alone, Option.getD_some]
    cases fa db <;> rfl
  · simp only [interleave, List.foldl_cons, List.foldl_nil, Shared.step, ha, hb]
  · simp only [interleave, List.foldl_cons, List.foldl_nil, Shared.step, ha, hb]
  · simp only [interleave, List.foldl_cons, List.foldl_nil, Shared.step, ha, hb]
  · simp only [interleave, List.foldl_cons, List.foldl_nil, Shared.step, ha, hb]

/-- C15, as the code has it, at two `test_toggle` handlers on the open tests 1 and
2. -/
theorem last_write_wins_witness :
    toggleRead 1 twoTests = some [{ mathTest with status := "closed" }, pairsTest] ∧
    toggleRead 2 twoTests = some [mathTest, { pairsTest with status := "closed" }] ∧
    interleave (toggleRead 1) (toggleRead 2) twoTests
        [Atom.read Task.first, Atom.read Task.second, Atom.write Task.first, Atom.write Task.second]
      = [mathTest, { pairsTest with status := "closed" }] ∧
    interleave (toggleRead 1) (toggleRead 2) twoTests
        [Atom.read Task.first, Atom.write Task.first, Atom.read Task.second, Atom.write Task.second]
      = alone (toggleRead 2) (alone (toggleRead 1) twoTests) :=
  ⟨by decide, by decide,
    (last_write_wins (toggleRead 1) (toggleRead 2) twoTests
      [{ mathTest with status := "closed" }, pairsTest]
      [mathTest, { pairsTest with status := "closed" }] (by decide) (by decide)).2.2.1,
    (last_write_wins (toggleRead 1) (toggleRead 2) twoTests
      [{ mathTest with status := "closed" }, pairsTest]
      [mathTest, { pairsTest with status := "closed" }] (by decide) (by decide)).1⟩

/-! ## Wizard state and quiz state -/

/-- A sender who is no administrator and has no wizard state has none after
the handler either. -/
theorem handle_admin_none (u : Update) (w : World) (hnone : w.session.admin = none)
    (hna : isAdmin u.env w u.ctx.sender.id = false) : (handle u w).session.admin = none := by
  have hsuper : isSuperAdmin u.env u.ctx.sender.id = false := by
    unfold isAdmin at hna
    simp only [Bool.or_eq_false_iff] at hna
    exact hna.1.1
  unfold handle
  split
  · simp [createTestHears, hna, hnone]
  · simp [onMessage, hna, hnone]
  · simp [testStatusAction, hna, hnone]
  · simp [testDeleteConfirmAction, hna, hnone]
  · simp [testToggleAction, hna, hnone]
  · simp [testEditAction, hna, hnone]
  · rfl
  · refine onText_cases (fun v => v.session.admin = none) u.env u.ctx w hnone ?_ ?_ ?_ ?_
    · beta_reduce
      rw [(testsHears_frame _ _ _).2.1]
      exact hnone
    · simp [broadcastHears, enterWizard, hna, hnone]
    · simp [createTestHears, hna, hnone]
    · simp [onMessage, hna, hnone]
  · rw [(startTestAction_frame _ _ _ _).2.1]
    exact hnone
  · rw [(ansAction_frame _ _ _ _ _ _).2.2.1]
    exact hnone
  · simp [adminsAddAction, enterWizard, hsuper, hnone]
  · simp [adminsRemoveAction, enterWizard, hsuper, hnone]
  · simp [channelsAddAction, enterWizard, hna, hnone]
  · rw [(removeChannelAction_frame _ _ _ _).2.2.1]
    exact hnone
  · rw [(startCommand_frame _ _ _).2.2.2.1]
    exact hnone
  · exact hnone

/-- C16 (counterexample). The admin `7` creates the open test "Math", chooses
"📝 Testlar", which starts the quiz, and then "🧩 Test yaratish", which enters
the creation wizard: the session holds the wizard state and the quiz state at
the same time. -/
theorem wizard_and_quiz_together :
    ((run emptyBot
        (createMath ++ [adminText "📝 Testlar", adminText "🧩 Test yaratish"])).sessions 7)
      = { admin := some createTestEntry, test := some { testId := 1, index := 0, correct := 0 } } := by
  decide

/-- C16 (amended). For a user who is no administrator when any of their updates
is handled, and whose session starts without a wizard state, the session has no
wizard state after any sequence of updates of any users; so the wizard state and
the quiz state are never both present in it. -/
theorem nonadmin_no_wizard (us : List Update) (b : Bot) (id : ℤ)
    (hempty : (b.sessions id).admin = none) (hnot : neverAdmin id b us = true) :
    ((run b us).sessions id).admin = none ∧
      ¬ (((run b us).sessions id).admin.isSome = true ∧
          ((run b us).sessions id).test.isSome = true) := by
  have key : ((run b us).sessions id).admin = none := by
    induction us generalizing b with
    | nil => exact hempty
    | cons u us ih =>
      unfold neverAdmin at hnot
      simp only [Bool.and_eq_true, Bool.or_eq_true, decide_eq_true_eq, Bool.not_eq_true'] at hnot
      obtain ⟨hu, hrest⟩ := hnot
      refine ih (step b u) ?_ hrest
      unfold step Bot.merge
      dsimp only
      by_cases hid : u.ctx.sender.id = id
      · subst hid
        rw [Function.update_same]
        rcases hu with hu | hu
        · exact absurd rfl hu
        · exact handle_admin_none u _ hempty hu
      · rw [Function.update_noteq (Ne.symm hid)]
        exact hempty
  refine ⟨key, ?_⟩
  rw [key]
  simp

/-- C16 (amended), on a run: user `42` chooses "📝 Testlar" and then "🧩 Test
yaratish" on the bot of the admin `7`. -/
theorem nonadmin_no_wizard_witness :
    ((run emptyBot
        (createMath ++ [userText "📝 Testlar", userText "🧩 Test yaratish"])).sessions 42).admin
        = none ∧
      ¬ (((run emptyBot
        (createMath ++ [userText "📝 Testlar", userText "🧩 Test yaratish"])).sessions 42).admin.isSome
          = true ∧
        ((run emptyBot
        (createMath ++ [userText "📝 Testlar", userText "🧩 Test yaratish"])).sessions 42).test.isSome
          = true) :=
  nonadmin_no_wizard (createMath ++ [userText "📝 Testlar", userText "🧩 Test yaratish"])
    emptyBot 42 (by decide) (by decide)

/-! ## One result per user and test -/

/-- A test id is among the attempted ones of a user exactly when the results
hold the pair. -/
theorem mem_getAttemptedTestIds (userId testId : ℤ) (w : World) :
    testId ∈ getAttemptedTestIds userId w ↔ (userId, testId) ∈ resultPairs w.store.results := by
  unfold getAttemptedTestIds resultPairs
  simp only [List.mem_map, List.mem_filter, decide_eq_true_eq, Prod.mk.injEq]
  constructor
  · rintro ⟨r, ⟨hr, hu⟩, ht⟩
    exact ⟨r, hr, hu, ht⟩
  · rintro ⟨r, hr, hu, ht⟩
    exact ⟨r, ⟨hr, hu⟩, ht⟩

/-- The quiz state `startTest` leaves: the one it found, or question 0 of the
test. -/
theorem startTest_quiz (test : Test) (w : World) :
    (startTest test w).world.session.test = w.session.test ∨
    (startTest test w).world.session.test = some { testId := test.id, index := 0, correct := 0 } := by
  unfold startTest
  repeat' split
  all_goals first
    | (left; rfl)
    | (right; rfl)

/-- The quiz state the handler of "📝 Testlar" leaves: the one it found, or
question 0 of a test the sender has no result of. -/
theorem testsHears_quiz (env : Env) (ctx : Ctx) (w : World) :
    (testsHears env ctx w).world.session.test = w.session.test ∨
    ∃ st, (testsHears env ctx w).world.session.test = some st ∧
      (ctx.sender.id, st.testId) ∉ resultPairs w.store.results := by
  unfold testsHears
  dsimp only
  split
  · left; rfl
  · split
    · left; rfl
    · split
      · left; rfl
      · rename_i test heq
        rcases startTest_quiz test w with h | h
        · left; exact h
        · right
          refine ⟨_, h, ?_⟩
          have hmem : test ∈ (w.store.tests.filter (fun t => t.status = "open")).filter
              (fun t => !decide (t.id ∈ getAttemptedTestIds ctx.sender.id w)) := by
            rw [heq]; exact List.mem_singleton_self _
          rw [List.mem_filter] at hmem
          have h2 := hmem.2
          simp only [Bool.not_eq_true', decide_eq_false_iff_not] at h2
          rw [mem_getAttemptedTestIds] at h2
          exact h2
      · left; rfl

/-- The quiz state the `start_test` handler leaves: the one it found, or
question 0 of a test the sender has no result of. -/
theorem startTestAction_quiz (env : Env) (ctx : Ctx) (testId : ℕ) (w : World) :
    (startTestAction env ctx testId w).world.session.test = w.session.test ∨
    ∃ st, (startTestAction env ctx testId w).world.session.test = some st ∧
      (ctx.sender.id, st.testId) ∉ resultPairs w.store.results := by
  unfold startTestAction
  split
  · left; rfl
  · split
    · left; rfl
    · rename_i hatt
      split
      · left; rfl
      · rename_i test hfind
        rcases startTest_quiz test w with h | h
        · left; exact h
        · right
          refine ⟨_, h, ?_⟩
          have hp := List.find?_some hfind
          simp only [Bool.and_eq_true, decide_eq_true_eq] at hp
          simp only [decide_eq_true_eq] at hatt
          rw [mem_getAttemptedTestIds] at hatt
          dsimp only
          rw [hp.1]
          exact hatt

/-- The results `finishTest` leaves: the ones it found, or these and one record
of the sender and the test. -/
theorem finishTest_results (env : Env) (ctx : Ctx) (test : Test) (correct : ℕ) (w : World) :
    (finishTest env ctx test correct w).world.store.results = w.store.results ∨
    ∃ r, (finishTest env ctx test correct w).world.store.results = w.store.results ++ [r] ∧
      r.user_id = ctx.sender.id ∧ r.test_id = test.id := by
  unfold finishTest
  by_cases hu : env.writeJson "users" = true
  · by_cases hr : env.writeJson "results" = true
    · right
      simp only [hu, hr, Bool.not_true, Bool.false_eq_true, if_false]
      cases incrementTestsWorked ctx.sender.id (ensureUser env ctx.sender w.store.users).2 <;>
        exact ⟨_, rfl, rfl, rfl⟩
    · left
      simp only [hu, hr, Bool.not_true, Bool.false_eq_true, if_false, Bool.not_false, if_true]
      cases incrementTestsWorked ctx.sender.id (ensureUser env ctx.sender w.store.users).2 <;> rfl
  · left
    simp [hu]

/-- What the answer handler leaves: the results it found and no quiz state or
one of the same test, or no quiz state and one more result, of the sender and
the test of the quiz state it found. -/
theorem ansAction_results (env : Env) (ctx : Ctx) (testId qIndex optIndex : ℕ) (w : World) :
    ((ansAction env ctx testId qIndex optIndex w).world.store.results = w.store.results ∧
      ∀ st1, (ansAction env ctx testId qIndex optIndex w).world.session.test = some st1 →
        ∃ st, w.session.test = some st ∧ st1.testId = st.testId) ∨
    ((ansAction env ctx testId qIndex optIndex w).world.session.test = none ∧
      ∃ st r, w.session.test = some st ∧
        (ansAction env ctx testId qIndex optIndex w).world.store.results = w.store.results ++ [r] ∧
        r.user_id = ctx.sender.id ∧ r.test_id = st.testId) := by
  unfold ansAction
  cases hs : w.session.test with
  | none =>
    left
    refine ⟨rfl, ?_⟩
    intro st1 h1
    dsimp only at h1
    rw [hs] at h1
    cases h1
  | some sessionTest =>
    have hsame : ∀ st1, w.session.test = some st1 →
        ∃ st, some sessionTest = some st ∧ st1.testId = st.testId := by
      intro st1 h1
      rw [hs] at h1
      exact ⟨st1, h1, rfl⟩
    dsimp only
    split
    · left; exact ⟨rfl, hsame⟩
    · rename_i hguard
      cases ht : w.store.tests.find? (fun t => t.id = (testId : ℤ)) with
      | none => left; exact ⟨rfl, hsame⟩
      | some test =>
        dsimp only
        cases hq : test.questions[qIndex]? with
        | none => left; exact ⟨rfl, hsame⟩
        | some question =>
          dsimp only
          generalize (if (optIndex : ℤ) = question.correct_answer then sessionTest.correct + 1
            else sessionTest.correct) = c
          split
          · have f4 := finishTest_session env ctx test c
              { w with session := { w.session with test := none } }
            have hid : test.id = sessionTest.testId := by
              have hp := List.find?_some ht
              simp only [decide_eq_true_eq] at hp
              rw [hp]
              by_contra hne
              exact hguard (Or.inl (fun h => hne h.symm))
            have hres := finishTest_results env ctx test c
              { w with session := { w.session with test := none } }
            have key :
                ((finishTest env ctx test c
                    { w with session := { w.session with test := none } }).world.store.results
                      = w.store.results ∧
                  ∀ st1, (finishTest env ctx test c
                    { w with session := { w.session with test := none } }).world.session.test
                      = some st1 →
                    ∃ st, some sessionTest = some st ∧ st1.testId = st.testId) ∨
                ((finishTest env ctx test c
                    { w with session := { w.session with test := none } }).world.session.test
                      = none ∧
                  ∃ st r, some sessionTest = some st ∧
                    (finishTest env ctx test c
                      { w with session := { w.session with test := none } }).world.store.results
                        = w.store.results ++ [r] ∧
                    r.user_id = ctx.sender.id ∧ r.test_id = st.testId) := by
              rcases hres with hres | ⟨r, hres, hr1, hr2⟩
              · left
                refine ⟨hres, ?_⟩
                intro st1 h1
                rw [f4] at h1
                cases h1
              · right
                refine ⟨by rw [f4], sessionTest, r, rfl, hres, hr1, ?_⟩
                rw [hr2, hid]
            cases hv : (finishTest env ctx test c
              { w with session := { w.session with test := none } }).value with
            | none => exact key
            | some v => exact key
          · left
            cases sendQuestion test (sessionTest.index + 1) <;>
              exact ⟨rfl, fun st1 h1 => ⟨sessionTest, rfl, by cases h1; rfl⟩⟩

/-- What `handleAdminMessage` leaves alone: the results and the quiz state. -/
theorem handleAdminMessage_results (env : Env) (ctx : Ctx) (w : World) :
    (handleAdminMessage env ctx w).world.store.results = w.store.results ∧
    (handleAdminMessage env ctx w).world.session.test = w.session.test := by
  refine handleAdminMessage_cases
    (fun o => o.world.store.results = w.store.results ∧ o.world.session.test = w.session.test)
    env ctx w ⟨rfl, rfl⟩ ⟨rfl, rfl⟩ (fun _ _ _ => ⟨rfl, rfl⟩) ?_
  intro admin _ _ _
  refine ⟨?_, ?_, ?_, ?_, ?_, ?_, ?_, ?_, ?_⟩
  · intro _
    unfold createTestTitleStep
    try dsimp only
    repeat' split
    all_goals exact ⟨rfl, rfl⟩
  · intro _
    unfold createTestCountStep
    try dsimp only
    repeat' split
    all_goals exact ⟨rfl, rfl⟩
  · intro _
    unfold createTestQuestionStep
    try dsimp only
    repeat' split
    all_goals exact ⟨rfl, rfl⟩
  · intro _
    unfold createTestOptionsStep
    try dsimp only
    repeat' split
    all_goals exact ⟨rfl, rfl⟩
  · intro _
    unfold createTestCorrectStep
    try dsimp only
    repeat' split
    all_goals exact ⟨rfl, rfl⟩
  · intro _
    unfold editTestTitleStep
    try dsimp only
    repeat' split
    all_goals exact ⟨rfl, rfl⟩
  · intro _
    unfold addAdminStep
    dsimp only
    repeat' split
    all_goals exact ⟨rfl, rfl⟩
  · intro _
    unfold removeAdminStep
    dsimp only
    repeat' split
    all_goals exact ⟨rfl, rfl⟩
  · intro _
    unfold addChannelStep
    dsimp only
    repeat' split
    all_goals exact ⟨rfl, rfl⟩

/-- A handler that keeps the results, and keeps the quiz state, clears it or
sets it to a test its sender has no result of, keeps the results free of
duplicate pairs and of a pair for the quiz in progress. -/
theorem results_kept (id : ℤ) (w v : World)
    (hnodup : (resultPairs w.store.results).Nodup)
    (hfresh : ∀ st, w.session.test = some st → (id, st.testId) ∉ resultPairs w.store.results)
    (hkept : v.store.results = w.store.results ∧
      (v.session.test = w.session.test ∨ v.session.test = none ∨
        ∃ st, v.session.test = some st ∧ (id, st.testId) ∉ resultPairs w.store.results)) :
    (resultPairs v.store.results).Nodup ∧
    (∀ st, v.session.test = some st → (id, st.testId) ∉ resultPairs v.store.results) ∧
    (∀ p ∈ resultPairs v.store.results, p ∈ resultPairs w.store.results ∨ p.1 = id) := by
  obtain ⟨hres, htest⟩ := hkept
  rw [hres]
  refine ⟨hnodup, ?_, fun p hp => Or.inl hp⟩
  intro st hst
  rcases htest with h | h | ⟨st1, h, hnot⟩
  · rw [h] at hst
    exact hfresh st hst
  · rw [h] at hst
    cases hst
  · rw [h] at hst
    cases hst
    exact hnot

/-- Every handler keeps the results free of duplicate pairs and of a pair for
the quiz in progress of its sender, and adds results of its sender only. -/
theorem handle_results (u : Update) (w : World)
    (hnodup : (resultPairs w.store.results).Nodup)
    (hfresh : ∀ st, w.session.test = some st →
      (u.ctx.sender.id, st.testId) ∉ resultPairs w.store.results) :
    (resultPairs (handle u w).store.results).Nodup ∧
    (∀ st, (handle u w).session.test = some st →
      (u.ctx.sender.id, st.testId) ∉ resultPairs (handle u w).store.results) ∧
    (∀ p ∈ resultPairs (handle u w).store.results,
      p ∈ resultPairs w.store.results ∨ p.1 = u.ctx.sender.id) := by
  unfold handle
  split
  · refine results_kept _ w _ hnodup hfresh ⟨?_, Or.inl ?_⟩ <;>
      (unfold createTestHears; split <;> rfl)
  · refine results_kept _ w _ hnodup hfresh ⟨?_, Or.inl ?_⟩
    · unfold onMessage
      split
      · exact (handleAdminMessage_results _ _ _).1
      · rfl
    · unfold onMessage
      split
      · exact (handleAdminMessage_results _ _ _).2
      · rfl
  · refine results_kept _ w _ hnodup hfresh ⟨?_, Or.inl ?_⟩ <;>
      (unfold testStatusAction; repeat' split) <;> rfl
  · refine results_kept _ w _ hnodup hfresh ⟨?_, Or.inl ?_⟩ <;>
      (unfold testDeleteConfirmAction; dsimp only; repeat' split) <;> rfl
  · refine results_kept _ w _ hnodup hfresh ⟨?_, Or.inl ?_⟩ <;>
      (unfold testToggleAction; dsimp only; repeat' split) <;> rfl
  · refine results_kept _ w _ hnodup hfresh ⟨?_, Or.inl ?_⟩ <;>
      (unfold testEditAction; split <;> rfl)
  · exact results_kept _ w _ hnodup hfresh ⟨rfl, Or.inr (Or.inl rfl)⟩
  · refine results_kept _ w _ hnodup hfresh ?_
    refine onText_cases
      (fun v => v.store.results = w.store.results ∧
        (v.session.test = w.session.test ∨ v.session.test = none ∨
          ∃ st, v.session.test = some st ∧
            (u.ctx.sender.id, st.testId) ∉ resultPairs w.store.results))
      u.env u.ctx w ⟨rfl, Or.inl rfl⟩ ?_ ?_ ?_ ?_
    · refine ⟨by rw [(testsHears_frame _ _ _).1], ?_⟩
      rcases testsHears_quiz u.env u.ctx w with h | h
      · exact Or.inl h
      · exact Or.inr (Or.inr h)
    · exact ⟨by rw [broadcastHears, (enterWizard_frame _ _ _ _).1],
        Or.inl (by rw [broadcastHears, (enterWizard_frame _ _ _ _).2.1])⟩
    · refine ⟨?_, Or.inl ?_⟩ <;> (unfold createTestHears; split <;> rfl)
    · refine ⟨?_, Or.inl ?_⟩
      · unfold onMessage
        split
        · exact (handleAdminMessage_results _ _ _).1
        · rfl
      · unfold onMessage
        split
        · exact (handleAdminMessage_results _ _ _).2
        · rfl
  · refine results_kept _ w _ hnodup hfresh ⟨by rw [(startTestAction_frame _ _ _ _).1], ?_⟩
    rcases startTestAction_quiz u.env u.ctx _ w with h | h
    · exact Or.inl h
    · exact Or.inr (Or.inr h)
  · rename_i testId qIndex optIndex _
    rcases ansAction_results u.env u.ctx testId qIndex optIndex w with ⟨hres, htest⟩ | h
    · rw [hres]
      refine ⟨hnodup, ?_, fun p hp => Or.inl hp⟩
      intro st1 h1
      obtain ⟨st, hst, hid⟩ := htest st1 h1
      rw [hid]
      exact hfresh st hst
    · obtain ⟨hnone, st, r, hst, hres, hr1, hr2⟩ := h
      rw [hres, hnone]
      have hpair : resultPairs (w.store.results ++ [r])
          = resultPairs w.store.results ++ [(u.ctx.sender.id, st.testId)] := by
        unfold resultPairs
        rw [List.map_append, List.map_singleton, hr1, hr2]
      rw [hpair]
      refine ⟨?_, ?_, ?_⟩
      · refine List.Nodup.append hnodup (List.nodup_singleton _) ?_
        intro x hx hx1
        rw [List.mem_singleton] at hx1
        subst hx1
        exact hfresh st hst hx
      · intro st1 h1
        cases h1
      · intro p hp
        rw [List.mem_append, List.mem_singleton] at hp
        rcases hp with hp | hp
        · exact Or.inl hp
        · right
          rw [hp]
  · exact results_kept _ w _ hnodup hfresh
      ⟨by rw [adminsAddAction, (enterWizard_frame _ _ _ _).1],
        Or.inl (by rw [adminsAddAction, (enterWizard_frame _ _ _ _).2.1])⟩
  · exact results_kept _ w _ hnodup hfresh
      ⟨by rw [adminsRemoveAction, (enterWizard_frame _ _ _ _).1],
        Or.inl (by rw [adminsRemoveAction, (enterWizard_frame _ _ _ _).2.1])⟩
  · exact results_kept _ w _ hnodup hfresh
      ⟨by rw [channelsAddAction, (enterWizard_frame _ _ _ _).1],
        Or.inl (by rw [channelsAddAction, (enterWizard_frame _ _ _ _).2.1])⟩
  · exact results_kept _ w _ hnodup hfresh
      ⟨(removeChannelAction_frame _ _ _ _).2.1,
        Or.inl (by rw [(removeChannelAction_frame _ _ _ _).2.2.1])⟩
  · exact results_kept _ w _ hnodup hfresh
      ⟨(startCommand_frame _ _ _).2.1, Or.inl (by rw [(startCommand_frame _ _ _).2.2.2.1])⟩
  · exact results_kept _ w _ hnodup hfresh ⟨rfl, Or.inl rfl⟩

/-- Every update keeps the results free of duplicate pairs and of a pair for a
quiz in progress, whoever sends it. -/
theorem step_results (b : Bot) (u : Update)
    (hnodup : (resultPairs b.store.results).Nodup)
    (hfresh : ∀ id st, (b.sessions id).test = some st →
      (id, st.testId) ∉ resultPairs b.store.results) :
    (resultPairs (step b u).store.results).Nodup ∧
    (∀ id st, ((step b u).sessions id).test = some st →
      (id, st.testId) ∉ resultPairs (step b u).store.results) := by
  obtain ⟨h1, h2, h3⟩ := handle_results u (b.view u.ctx.sender.id) hnodup
    (hfresh u.ctx.sender.id)
  refine ⟨h1, ?_⟩
  intro id st hst
  unfold step Bot.merge at hst
  dsimp only at hst
  by_cases hid : id = u.ctx.sender.id
  · subst hid
    rw [Function.update_same] at hst
    exact h2 st hst
  · rw [Function.update_noteq hid] at hst
    intro hmem
    rcases h3 _ hmem with h | h
    · exact hfresh id st hst h
    · exact hid h

/-- Every sequence of updates keeps the results free of duplicate pairs and of
a pair for a quiz in progress. -/
theorem run_results (us : List Update) (b : Bot)
    (hnodup : (resultPairs b.store.results).Nodup)
    (hfresh : ∀ id st, (b.sessions id).test = some st →
      (id, st.testId) ∉ resultPairs b.store.results) :
    (resultPairs (run b us).store.results).Nodup ∧
    (∀ id st, ((run b us).sessions id).test = some st →
      (id, st.testId) ∉ resultPairs (run b us).store.results) := by
  induction us generalizing b with
  | nil => exact ⟨hnodup, hfresh⟩
  | cons u us ih =>
    obtain ⟨h1, h2⟩ := step_results b u hnodup hfresh
    exact ih (step b u) h1 h2

/-- C20. Starting from sessions without a quiz in progress and results with at
most one record per (user_id, test_id) pair, the results have at most one record
per pair after every sequence of updates handled one after the other (test menu,
start_test callbacks, answers, /cancel, /start, the wizards, and creation,
deletion and toggling of tests, by any users). -/
theorem results_one_per_pair (us : List Update) (b : Bot)
    (hempty : ∀ id, (b.sessions id).test = none)
    (hnodup : (resultPairs b.store.results).Nodup) :
    (resultPairs (run b us).store.results).Nodup := by
  refine (run_results us b hnodup ?_).1
  intro id st hst
  rw [hempty id] at hst
  cases hst

/-- The script of user `42` who takes "Math" and tries to take it again leaves
one result, of user `42` and test `1`. -/
theorem retakeScript_results :
    resultPairs (run emptyBot retakeScript).store.results = [(42, 1)] := by
  decide

/-- C20, on a run: user `42` takes "Math" and tries to take it again. -/
theorem results_one_per_pair_witness :
    (resultPairs (run emptyBot retakeScript).store.results).Nodup :=
  results_one_per_pair retakeScript emptyBot (fun _ => rfl) (by decide)

/-! ## A quiz whose test is gone -/

/-- C17 (the code as written). When the test of the quiz in progress is gone
from the tests, or its current question is, a matching answer appends no result
and changes nothing else either: the quiz state stays, and `startTest` of any
test afterwards is turned down with the warning of a quiz in progress. -/
theorem ansAction_vanished (env : Env) (ctx : Ctx) (testId qIndex optIndex : ℕ) (w : World)
    (st : QuizState) (next : Test)
    (hst : w.session.test = some st) (hid : st.testId = (testId : ℤ)) (hidx : st.index = qIndex)
    (hgone : w.store.tests.find? (fun t => t.id = (testId : ℤ)) = none ∨
      ∃ test, w.store.tests.find? (fun t => t.id = (testId : ℤ)) = some test ∧
        test.questions[qIndex]? = none) :
    (ansAction env ctx testId qIndex optIndex w).world = w ∧
    (ansAction env ctx testId qIndex optIndex w).replies = [] ∧
    (ansAction env ctx testId qIndex optIndex w).value = some () ∧
    (startTest next (ansAction env ctx testId qIndex optIndex w).world).world = w ∧
    (startTest next (ansAction env ctx testId qIndex optIndex w).world).replies
      = [Reply.text "⚠️ Sizda faol test bor. Avval uni yakunlang."] := by
  have hans : ansAction env ctx testId qIndex optIndex w
      = { world := w, replies := [], value := some () } := by
    unfold ansAction
    rw [hst]
    dsimp only
    rw [if_neg (by rw [hid, hidx]; simp)]
    rcases hgone with h | ⟨test, h, hq⟩
    · rw [h]
    · rw [h]
      dsimp only
      rw [hq]
  rw [hans]
  refine ⟨rfl, rfl, rfl, ?_, ?_⟩
  · unfold startTest
    dsimp only
    rw [hst]
  · unfold startTest
    dsimp only
    rw [hst]

/-- C17, on the failing input: user `42` is at question 0 of test `1`, which an
admin has deleted; the answer leaves the quiz state, and the open test "Pairs"
cannot be started. -/
theorem ansAction_vanished_witness :
    (ansAction sampleEnv userCtx 1 0 1 orphanWorld).world = orphanWorld ∧
    (ansAction sampleEnv userCtx 1 0 1 orphanWorld).replies = [] ∧
    (ansAction sampleEnv userCtx 1 0 1 orphanWorld).value = some () ∧
    (startTest pairsTest (ansAction sampleEnv userCtx 1 0 1 orphanWorld).world).world
      = orphanWorld ∧
    (startTest pairsTest (ansAction sampleEnv userCtx 1 0 1 orphanWorld).world).replies
      = [Reply.text "⚠️ Sizda faol test bor. Avval uni yakunlang."] :=
  ansAction_vanished sampleEnv userCtx 1 0 1 orphanWorld { testId := 1, index := 0, correct := 0 }
    pairsTest rfl rfl rfl (Or.inl rfl)

/-- The same through the handlers: after the answer, the menu choice "📝 Testlar"
and the button of "Pairs" both end in the warning, and the session still holds
the quiz of the deleted test. -/
theorem orphan_start_rejected :
    (testsHears sampleEnv userCtx (ansAction sampleEnv userCtx 1 0 1 orphanWorld).world).replies
      = [Reply.text "⚠️ Sizda faol test bor. Avval uni yakunlang."] ∧
    (startTestAction sampleEnv userCtx 2
        (ansAction sampleEnv userCtx 1 0 1 orphanWorld).world).replies
      = [Reply.text "⚠️ Sizda faol test bor. Avval uni yakunlang."] ∧
    (startTestAction sampleEnv userCtx 2
        (ansAction sampleEnv userCtx 1 0 1 orphanWorld).world).world.session.test
      = some { testId := 1, index := 0, correct := 0 } := by
  decide

/-! ## Failed writes -/

/-- When a write of `finishTest` fails, an exception escapes and no result is
appended. -/
theorem finishTest_write_failure (env : Env) (ctx : Ctx) (test : Test) (correct : ℕ) (w : World)
    (hfail : env.writeJson "users" = false ∨ env.writeJson "results" = false) :
    (finishTest env ctx test correct w).value = none ∧
    (finishTest env ctx test correct w).world.store.results = w.store.results := by
  unfold finishTest
  by_cases hu : env.writeJson "users" = true
  · have hr : env.writeJson "results" = false := by
      rcases hfail with h | h
      · rw [hu] at h; cases h
      · exact h
    simp only [hu, hr, Bool.not_true, Bool.false_eq_true, if_false, Bool.not_false, if_true,
      true_and]
    cases incrementTestsWorked ctx.sender.id (ensureUser env ctx.sender w.store.users).2 <;> rfl
  · have hu1 : env.writeJson "users" = false := by simpa using hu
    rw [hu1]
    exact ⟨rfl, rfl⟩

/-- The step `handleAdminMessage` runs in one of the modes edit_test_title,
add_admin, remove_admin and add_channel: a property that holds for the outcome
without a step and for the outcome of the block of the mode holds for what
`handleAdminMessage` returns. -/
theorem handleAdminMessage_of_mode (P : Outcome Bool → Prop) (env : Env) (ctx : Ctx) (w : World)
    (admin : AdminState) (hadmin : w.session.admin = some admin)
    (hpass : P { world := w, replies := [], value := some false })
    (hnotext :
      P { world := w, replies := [Reply.text "⚠️ Iltimos, matn yuboring."], value := some true })
    (hmode : admin.mode = "edit_test_title" ∨ admin.mode = "add_admin" ∨
      admin.mode = "remove_admin" ∨ admin.mode = "add_channel")
    (hedit : admin.mode = "edit_test_title" →
      P (editTestTitleStep env ctx admin (messageText ctx) w))
    (hadd : admin.mode = "add_admin" → P (addAdminStep env ctx (messageText ctx) w))
    (hremove : admin.mode = "remove_admin" → P (removeAdminStep env ctx (messageText ctx) w))
    (hchannel : admin.mode = "add_channel" → P (addChannelStep env ctx (messageText ctx) w)) :
    P (handleAdminMessage env ctx w) := by
  by_cases hcmd : isCommand ctx = true
  · rw [handleAdminMessage_command env ctx w hcmd]
    exact hpass
  · have hcmd1 : isCommand ctx = false := by simpa using hcmd
    have hnb : admin.mode ≠ "broadcast" := by
      intro hb
      rw [hb] at hmode
      revert hmode
      decide
    by_cases htext : truthy ctx.text = true
    · obtain ⟨o1, o2, o3, o4⟩ := handleAdminMessage_other env ctx w admin hadmin hcmd1 htext
      rcases hmode with h | h | h | h
      · rw [o1 h]; exact hedit h
      · rw [o2 h]; exact hadd h
      · rw [o3 h]; exact hremove h
      · rw [o4 h]; exact hchannel h
    · have htext1 : truthy ctx.text = false := by simpa using htext
      have hw : handleAdminMessage env ctx w
          = { world := w, replies := [Reply.text "⚠️ Iltimos, matn yuboring."],
              value := some true } := by
        unfold handleAdminMessage
        simp only [hadmin, htext1, hnb, Bool.false_and, Bool.false_eq_true, if_false,
          Bool.not_false, if_true]
      rw [hw]
      exact hnotext

/-- C18 (counterexample). User `42` answers the only question of "Math" while
every write fails: the exception of the failed write escapes, and the quiz state
the session held before the step is gone. -/
theorem final_answer_write_failure :
    quizWorld.session.test = some { testId := 1, index := 0, correct := 0 } ∧
    (ansAction failEnv userCtx 1 0 1 quizWorld).value = none ∧
    (ansAction failEnv userCtx 1 0 1 quizWorld).world.session.test = none ∧
    (ansAction failEnv userCtx 1 0 1 quizWorld).world.session ≠ quizWorld.session := by
  decide

/-- C18 (amended). When the write of a wizard step fails, the session after the
step is the session before it: for test_status and edit_test_title (of a test
that exists) the world is unchanged; for add_admin and remove_admin of a
super-admin the session is unchanged (the dynamic admins in memory may have
changed already); for add_channel, where the failure is caught, the world is
unchanged. For the final answer of a quiz the quiz state is cleared before the
writes: when a write fails the exception escapes, no result is appended, and the
session is left without a quiz state. -/
theorem write_failure_session (env : Env) (ctx : Ctx) (w : World) :
    (∀ status, env.writeJson "tests" = false →
      (testStatusAction env ctx status w).world = w) ∧
    (∀ admin, w.session.admin = some admin → admin.mode = "edit_test_title" →
      (w.store.tests.find? (fun t => some t.id = admin.testId)).isSome = true →
      env.writeJson "tests" = false →
      (handleAdminMessage env ctx w).world = w) ∧
    (∀ admin, w.session.admin = some admin →
      admin.mode = "add_admin" ∨ admin.mode = "remove_admin" →
      isSuperAdmin env ctx.sender.id = true →
      env.writeJson "admins" = false →
      (handleAdminMessage env ctx w).world.session = w.session) ∧
    (∀ admin, w.session.admin = some admin → admin.mode = "add_channel" →
      env.writeJson "channels" = false →
      (handleAdminMessage env ctx w).world = w) ∧
    (∀ (testId qIndex optIndex : ℕ) (st : QuizState) (test : Test) (question : Question),
      w.session.test = some st →
      st.testId = (testId : ℤ) → st.index = qIndex →
      w.store.tests.find? (fun t => t.id = (testId : ℤ)) = some test →
      test.questions[qIndex]? = some question →
      qIndex + 1 ≥ test.questions.length →
      env.writeJson "users" = false ∨ env.writeJson "results" = false →
      (ansAction env ctx testId qIndex optIndex w).value = none ∧
      (ansAction env ctx testId qIndex optIndex w).world.session
        = { w.session with test := none } ∧
      (ansAction env ctx testId qIndex optIndex w).world.store.results = w.store.results) := by
  refine ⟨?_, ?_, ?_, ?_, ?_⟩
  · intro status hfail
    unfold testStatusAction
    repeat' split
    all_goals first
      | rfl
      | (rename_i hw; rw [hfail] at hw; exact absurd rfl hw)
  · intro admin hadmin hmode hfound hfail
    refine handleAdminMessage_of_mode (fun o => o.world = w) env ctx w admin hadmin rfl rfl
      (Or.inl hmode) ?_ ?_ ?_ ?_
    · intro _
      unfold editTestTitleStep
      cases hf : w.store.tests.find? (fun t => some t.id = admin.testId) with
      | none => rw [hf] at hfound; cases hfound
      | some t =>
        dsimp only
        rw [hfail]
        rfl
    · intro h; rw [hmode] at h; exact absurd h (by decide)
    · intro h; rw [hmode] at h; exact absurd h (by decide)
    · intro h; rw [hmode] at h; exact absurd h (by decide)
  · intro admin hadmin hmode hsuper hfail
    refine handleAdminMessage_of_mode (fun o => o.world.session = w.session) env ctx w admin hadmin
      rfl rfl (Or.inr (hmode.elim (fun h => Or.inl h) (fun h => Or.inr (Or.inl h)))) ?_ ?_ ?_ ?_
    · intro h
      rcases hmode with hm | hm <;> (rw [hm] at h; exact absurd h (by decide))
    · intro _
      unfold addAdminStep
      rw [hsuper, hfail]
      dsimp only
      repeat' split
      all_goals first
        | rfl
        | (rename_i hw; exact absurd hw (by decide))
    · intro _
      unfold removeAdminStep
      rw [hsuper, hfail]
      dsimp only
      repeat' split
      all_goals first
        | rfl
        | (rename_i hw; exact absurd hw (by decide))
    · intro h
      rcases hmode with hm | hm <;> (rw [hm] at h; exact absurd h (by decide))
  · intro admin hadmin hmode hfail
    refine handleAdminMessage_of_mode (fun o => o.world = w) env ctx w admin hadmin rfl rfl
      (Or.inr (Or.inr (Or.inr hmode))) ?_ ?_ ?_ ?_
    · intro h; rw [hmode] at h; exact absurd h (by decide)
    · intro h; rw [hmode] at h; exact absurd h (by decide)
    · intro h; rw [hmode] at h; exact absurd h (by decide)
    · intro _
      unfold addChannelStep
      split
      · rfl
      · dsimp only
        split
        · rfl
        · split
          · rfl
          · rw [hfail]
            rfl
  · intro testId qIndex optIndex st test question hst hid hidx hfind hq hlast hfail
    unfold ansAction
    rw [hst]
    dsimp only
    rw [if_neg (by rw [hid, hidx]; simp), hfind]
    dsimp only
    rw [hq]
    dsimp only
    rw [hidx, if_pos hlast]
    generalize (if (optIndex : ℤ) = question.correct_answer then st.correct + 1
      else st.correct) = c
    obtain ⟨hv, hres⟩ := finishTest_write_failure env ctx test c
      { w with session := { w.session with test := none } } hfail
    have hs := finishTest_session env ctx test c
      { w with session := { w.session with test := none } }
    rw [hv]
    exact ⟨hv, hs, hres⟩

/-- C18 (amended), on failing writes: the admin `7` presses "open" at the status
keyboard, renames the test "Math" and adds a channel, the super-admin `1` adds
the admin `5`, and user `42` answers the only question of "Math". The wizard
steps keep their session; the exceptions of test_status and add_admin escape,
the dynamic admins in memory hold `5` already; the quiz state is gone. -/
theorem write_failure_session_witness :
    ((testStatusAction failEnv (adminCtx "") "open" statusWorld).world = statusWorld ∧
      (testStatusAction failEnv (adminCtx "") "open" statusWorld).value = none) ∧
    (handleAdminMessage failEnv (adminCtx "Algebra") editWorld).world = editWorld ∧
    ((handleAdminMessage failEnv (superCtx "5") (wizardWorld addAdminState)).world.session
        = (wizardWorld addAdminState).session ∧
      (handleAdminMessage failEnv (superCtx "5") (wizardWorld addAdminState)).value = none ∧
      (handleAdminMessage failEnv (superCtx "5") (wizardWorld addAdminState)).world.dynamicAdmins
        = [5]) ∧
    (handleAdminMessage channelFailEnv (adminCtx "@math") channelsWorld).world = channelsWorld ∧
    ((ansAction failEnv userCtx 1 0 1 quizWorld).value = none ∧
      (ansAction failEnv userCtx 1 0 1 quizWorld).world.session
        = { quizWorld.session with test := none } ∧
      (ansAction failEnv userCtx 1 0 1 quizWorld).world.store.results
        = quizWorld.store.results) :=
  ⟨⟨(write_failure_session failEnv (adminCtx "") statusWorld).1 "open" rfl, by decide⟩,
    (write_failure_session failEnv (adminCtx "Algebra") editWorld).2.1 editAdmin rfl rfl rfl rfl,
    ⟨(write_failure_session failEnv (superCtx "5") (wizardWorld addAdminState)).2.2.1
        addAdminState rfl (Or.inl rfl) (by decide) rfl, by decide, by decide⟩,
    (write_failure_session channelFailEnv (adminCtx "@math") channelsWorld).2.2.2.1
      { mode := "add_channel", newTest := none, currentQuestion := none, testId := none }
      rfl rfl rfl,
    (write_failure_session failEnv userCtx quizWorld).2.2.2.2 1 0 1
      { testId := 1, index := 0, correct := 0 } mathTest
      { question := "2+2?", options := ["3", "4"], correct_answer := 1 }
      rfl rfl rfl rfl rfl (by decide) (Or.inl rfl)⟩

/-! ## Routing of text messages -/

/-- A text that starts with "/" still starts with "/" when trimmed. -/
theorem startsWithChar_trim (s : String) (h : startsWithChar '/' s = true) :
    startsWithChar '/' (trim s) = true := by
  unfold startsWithChar at h ⊢
  unfold trim
  have hr : ∀ cs, trimChars cs = (cs.dropWhile isWhiteSpace).rdropWhile isWhiteSpace :=
    fun _ => rfl
  cases hd : s.data with
  | nil =>
    rw [hd] at h
    cases h
  | cons c cs =>
    rw [hd] at h
    have hc : c = '/' := by simpa using h
    subst hc
    show ((trimChars ('/' :: cs)).head? == some '/') = true
    rw [hr]
    have hdrop : List.dropWhile isWhiteSpace ('/' :: cs) = '/' :: cs := by
      rw [List.dropWhile_cons_of_neg (by decide)]
    rw [hdrop]
    have hne : List.rdropWhile isWhiteSpace ('/' :: cs) ≠ [] := by
      intro hnil
      rw [List.rdropWhile_eq_nil_iff] at hnil
      have := hnil '/' (List.mem_cons_self _ _)
      revert this
      decide
    have hpre := List.rdropWhile_prefix isWhiteSpace ('/' :: cs)
    have hhead := List.IsPrefix.head hpre hne
    simp only [List.head_cons] at hhead
    rw [List.head?_eq_head hne, hhead]
    rfl

/-- A text that is none of the menu labels is passed to `bot.on("message")`. -/
theorem onText_other (env : Env) (ctx : Ctx) (w : World) (text : String)
    (htext : ctx.text = some text) (hlabel : text ∉ menuLabels) :
    onText env ctx w =
      { world := (onMessage env ctx w).world, replies := (onMessage env ctx w).replies,
        value := (onMessage env ctx w).value.map (fun _ => ()) } := by
  unfold menuLabels at hlabel
  simp only [List.mem_cons, List.mem_singleton, List.not_mem_nil, or_false, not_or] at hlabel
  obtain ⟨h0, h1, h2, h3, h4, h5, h6, h7, h8, h9, h10⟩ := hlabel
  have ne : ∀ l : String, text ≠ l → ctx.text ≠ some l := by
    intro l hl hc
    rw [htext] at hc
    exact hl (Option.some.inj hc)
  unfold onText
  rw [if_neg (ne _ h0), if_neg (ne _ h1), if_neg (ne _ h2), if_neg (ne _ h3), if_neg (ne _ h4),
    if_neg (ne _ h5), if_neg (ne _ h6), if_neg (ne _ h7), if_neg (ne _ h8), if_neg (ne _ h9),
    if_neg (ne _ h10)]

/-- A text that is one of the menu labels is handled by the handler registered
for it. -/
theorem onText_label (env : Env) (ctx : Ctx) (w : World) :
    (ctx.text = some "📝 Testlar" → onText env ctx w = testsHears env ctx w) ∧
    (ctx.text = some "📣 Xabar yuborish" → onText env ctx w = broadcastHears env ctx w) ∧
    (ctx.text = some "🧩 Test yaratish" → onText env ctx w = createTestHears env ctx w) ∧
    (∀ text, ctx.text = some text →
      text ∈ ["⬅️ Orqaga", "📊 Urinishlarim", "ℹ️ Bot haqida", "📚 Testlar", "📊 Natijalar",
        "👥 Foydalanuvchilar", "👑 Adminlar", "📡 Kanallar"] →
      (onText env ctx w).world = w) := by
  refine ⟨?_, ?_, ?_, ?_⟩
  · intro h
    unfold onText
    rw [h, if_neg (by decide), if_pos rfl]
  · intro h
    unfold onText
    rw [h, if_neg (by decide), if_neg (by decide), if_neg (by decide), if_neg (by decide),
      if_pos rfl]
  · intro h
    unfold onText
    rw [h, if_neg (by decide), if_neg (by decide), if_neg (by decide), if_neg (by decide),
      if_neg (by decide), if_pos rfl]
  · intro text h hmem
    simp only [List.mem_cons, List.mem_singleton, List.not_mem_nil, or_false] at hmem
    unfold onText
    rw [h]
    rcases hmem with rfl | rfl | rfl | rfl | rfl | rfl | rfl | rfl <;>
      (repeat rw [if_neg (by decide)]) <;> rw [if_pos rfl] <;>
      first
        | exact infoHears_world _ _ _
        | exact attemptsHears_world _ _ _

/-- C19 (counterexample). The admin `7`, at the title step of the creation
wizard, sends the text "📚 Testlar", which does not start with "/": the handler
registered for that menu label answers with the list of tests and the wizard
state stays as it was, whereas `handleAdminMessage` on this message would have
taken the text as the title and moved on to the count step. -/
theorem menu_label_bypasses_wizard :
    isAdmin sampleEnv (wizardWorld createTestEntry) (adminCtx "📚 Testlar").sender.id = true ∧
    (wizardWorld createTestEntry).session.admin = some createTestEntry ∧
    startsWithChar '/' "📚 Testlar" = false ∧
    (onText sampleEnv (adminCtx "📚 Testlar") (wizardWorld createTestEntry)).world
      = wizardWorld createTestEntry ∧
    (onText sampleEnv (adminCtx "📚 Testlar") (wizardWorld createTestEntry)).replies
      = [Reply.info "📚 Testlar"] ∧
    (handleAdminMessage sampleEnv (adminCtx "📚 Testlar")
        (wizardWorld createTestEntry)).world.session.admin
      = some { createTestEntry with
          mode := "create_test_count"
          newTest := some { title := "📚 Testlar", totalQuestions := 0, questions := [] } } ∧
    (handleAdminMessage sampleEnv (adminCtx "📚 Testlar") (wizardWorld createTestEntry)).value
      = some true := by
  decide

/-- C19 (amended). A text message of an administrator with a wizard state that
does not start with "/" and is none of the eleven menu labels is handled by
`handleAdminMessage` and by nothing else: the outcome of the handling is the
outcome of `handleAdminMessage`. A text that is a menu label is handled by the
handler registered for that label instead, which for eight of the labels changes
nothing, the wizard state included. A text that starts with "/" is never
consumed by the wizard: `handleAdminMessage` returns false and changes nothing. -/
theorem text_routing (env : Env) (ctx : Ctx) (w : World) (text : String)
    (htext : ctx.text = some text) :
    (startsWithChar '/' text = false → text ∉ menuLabels →
      isAdmin env w ctx.sender.id = true → w.session.admin.isSome = true →
      (onText env ctx w).world = (handleAdminMessage env ctx w).world ∧
      (onText env ctx w).replies = (handleAdminMessage env ctx w).replies ∧
      (onText env ctx w).value = (handleAdminMessage env ctx w).value.map (fun _ => ())) ∧
    (text ∈ ["⬅️ Orqaga", "📊 Urinishlarim", "ℹ️ Bot haqida", "📚 Testlar", "📊 Natijalar",
        "👥 Foydalanuvchilar", "👑 Adminlar", "📡 Kanallar"] →
      (onText env ctx w).world = w) ∧
    (text = "📝 Testlar" → onText env ctx w = testsHears env ctx w) ∧
    (text = "📣 Xabar yuborish" → onText env ctx w = broadcastHears env ctx w) ∧
    (text = "🧩 Test yaratish" → onText env ctx w = createTestHears env ctx w) ∧
    (startsWithChar '/' text = true →
      handleAdminMessage env ctx w = { world := w, replies := [], value := some false }) := by
  obtain ⟨l1, l2, l3, l4⟩ := onText_label env ctx w
  refine ⟨?_, l4 text htext, ?_, ?_, ?_, ?_⟩
  · intro _ hlabel hadmin hsome
    rw [onText_other env ctx w text htext hlabel]
    have hmsg : onMessage env ctx w = handleAdminMessage env ctx w := by
      unfold onMessage
      rw [hadmin, hsome]
      rfl
    rw [hmsg]
    exact ⟨rfl, rfl, rfl⟩
  · intro h
    subst h
    exact l1 htext
  · intro h
    subst h
    exact l2 htext
  · intro h
    subst h
    exact l3 htext
  · intro hslash
    apply handleAdminMessage_command
    unfold isCommand
    rw [htext]
    have hne : text ≠ "" := by
      intro he
      rw [he] at hslash
      revert hslash
      decide
    have htrim := startsWithChar_trim text hslash
    simp only [truthy, Option.getD_some, htrim, Bool.and_true, decide_eq_true_eq]
    exact hne

/-- C19 (amended), on messages of the admin `7` at the title step: the text
"Math" is handled by `handleAdminMessage`, the text "📚 Testlar" leaves the
wizard as it is, and the text "/help" is not consumed by the wizard. -/
theorem text_routing_witness :
    ((onText sampleEnv (adminCtx "Math") (wizardWorld createTestEntry)).world
        = (handleAdminMessage sampleEnv (adminCtx "Math") (wizardWorld createTestEntry)).world ∧
      (onText sampleEnv (adminCtx "Math") (wizardWorld createTestEntry)).replies
        = (handleAdminMessage sampleEnv (adminCtx "Math") (wizardWorld createTestEntry)).replies ∧
      (onText sampleEnv (adminCtx "Math") (wizardWorld createTestEntry)).value
        = (handleAdminMessage sampleEnv (adminCtx "Math")
            (wizardWorld createTestEntry)).value.map (fun _ => ())) ∧
    (onText sampleEnv (adminCtx "📚 Testlar") (wizardWorld createTestEntry)).world
      = wizardWorld createTestEntry ∧
    handleAdminMessage sampleEnv (adminCtx "/help") (wizardWorld createTestEntry)
      = { world := wizardWorld createTestEntry, replies := [], value := some false } :=
  ⟨(text_routing sampleEnv (adminCtx "Math") (wizardWorld createTestEntry) "Math" rfl).1
      (by decide) (by decide) (by decide) rfl,
    (text_routing sampleEnv (adminCtx "📚 Testlar") (wizardWorld createTestEntry) "📚 Testlar"
      rfl).2.1 (by decide),
    (text_routing sampleEnv (adminCtx "/help") (wizardWorld createTestEntry) "/help"
      rfl).2.2.2.2.2 (by decide)⟩

/-! ## Splitting and trimming -/

/-- The function `splitChars` returns at least one piece. -/
theorem splitChars_ne_nil (sep : Char) (cs : List Char) : splitChars sep cs ≠ [] := by
  cases cs with
  | nil => simp [splitChars]
  | cons c cs =>
    unfold splitChars
    split
    · simp
    · split <;> simp

/-- The function `splitChars` cuts the text at every `sep`. -/
theorem splitChars_isSplit (sep : Char) (cs : List Char) : IsSplit sep cs (splitChars sep cs) := by
  refine ⟨splitChars_ne_nil sep cs, ?_, ?_⟩
  · induction cs with
    | nil =>
      intro p hp
      simp [splitChars] at hp
      rw [hp]
      simp
    | cons c cs ih =>
      intro p hp
      unfold splitChars at hp
      split at hp
      · rcases List.mem_cons.mp hp with h | h
        · rw [h]; simp
        · exact ih p h
      · rename_i hc
        split at hp
        · rename_i hnil
          exact absurd hnil (splitChars_ne_nil sep cs)
        · rename_i q qs heq
          rw [heq] at ih
          rcases List.mem_cons.mp hp with h | h
          · rw [h]
            intro hmem
            rcases List.mem_cons.mp hmem with h1 | h1
            · exact hc h1.symm
            · exact ih q (List.mem_cons_self _ _) h1
          · exact ih p (List.mem_cons_of_mem _ h)
  · induction cs with
    | nil => simp [splitChars, List.intercalate]
    | cons c cs ih =>
      unfold splitChars
      split
      · rename_i hc
        cases hs : splitChars sep cs with
        | nil => exact absurd hs (splitChars_ne_nil sep cs)
        | cons q qs =>
          rw [hs] at ih
          simp only [List.intercalate, List.intersperse, List.flatten_cons, List.nil_append] at ih ⊢
          rw [ih, hc]
          rfl
      · split
        · rename_i hnil
          exact absurd hnil (splitChars_ne_nil sep cs)
        · rename_i q qs heq
          rw [heq] at ih
          cases qs with
          | nil =>
            simp only [List.intercalate, List.intersperse, List.flatten_cons, List.flatten_nil,
              List.append_nil] at ih ⊢
            rw [ih]
          | cons r rs =>
            simp only [List.intercalate, List.intersperse, List.flatten_cons] at ih ⊢
            rw [List.cons_append, ih]

/-- The function `trimChars` trims. -/
theorem trimChars_isTrimmed (p : List Char) : IsTrimmed p (trimChars p) := by
  have hr : trimChars p = (p.dropWhile isWhiteSpace).rdropWhile isWhiteSpace := rfl
  have hedge := trim_noEdgeWhiteSpace (String.mk p)
  unfold noEdgeWhiteSpace trim at hedge
  refine ⟨⟨p.takeWhile isWhiteSpace,
    ((p.dropWhile isWhiteSpace).reverse.takeWhile isWhiteSpace).reverse, ?_, ?_, ?_⟩, hedge⟩
  · intro c hc
    exact List.mem_takeWhile_imp hc
  · intro c hc
    rw [List.mem_reverse] at hc
    exact List.mem_takeWhile_imp hc
  · have h1 : (p.dropWhile isWhiteSpace)
        = trimChars p ++ ((p.dropWhile isWhiteSpace).reverse.takeWhile isWhiteSpace).reverse := by
      unfold trimChars
      rw [← List.reverse_append, List.takeWhile_append_dropWhile, List.reverse_reverse]
    rw [List.append_assoc, ← h1, List.takeWhile_append_dropWhile]

/-- Every piece is related to its trimmed form. -/
theorem forall₂_trimChars (pieces : List (List Char)) :
    List.Forall₂ IsTrimmed pieces (pieces.map trimChars) := by
  induction pieces with
  | nil => exact List.Forall₂.nil
  | cons p ps ih => exact List.Forall₂.cons (trimChars_isTrimmed p) ih

/-- The function `parseOptions` in three steps: split at "|", trim every piece,
drop the empty ones. -/
theorem parseOptions_eq (text : String) :
    parseOptions text
      = ((((splitChars '|' text.data).map trimChars).filter (fun o => o ≠ [])).map String.mk) := by
  unfold parseOptions
  induction splitChars '|' text.data with
  | nil => rfl
  | cons p ps ih =>
    simp only [List.map_cons, List.filter_cons]
    have hiff : (trim (String.mk p) ≠ "") ↔ (trimChars p ≠ []) := by
      unfold trim
      constructor
      · intro h hnil
        apply h
        rw [hnil]
      · intro h hs
        apply h
        have := congrArg String.data hs
        exact this
    by_cases hp : trimChars p ≠ []
    · rw [if_pos (by simpa using hiff.mpr hp), if_pos (by simpa using hp)]
      rw [List.map_cons, ih]
      rfl
    · rw [if_neg (by simpa using fun h => hp (hiff.mp h)), if_neg (by simpa using hp)]
      exact ih

/-- Two cuts of one text at `sep` are the same cut. -/
theorem isSplit_unique (sep : Char) (cs : List Char) (a b : List (List Char))
    (ha : IsSplit sep cs a) (hb : IsSplit sep cs b) : a = b := by
  have key : ∀ (x y u v : List Char), sep ∉ x → sep ∉ u →
      x ++ sep :: y = u ++ sep :: v → x = u ∧ y = v := by
    intro x
    induction x with
    | nil =>
      intro y u v _ hu h
      cases u with
      | nil => simpa using h
      | cons c u =>
        simp only [List.nil_append, List.cons_append, List.cons.injEq] at h
        exact absurd (h.1 ▸ List.mem_cons_self _ _) hu
    | cons c x ih =>
      intro y u v hx hu h
      cases u with
      | nil =>
        simp only [List.nil_append, List.cons_append, List.cons.injEq] at h
        exact absurd (h.1 ▸ List.mem_cons_self _ _) hx
      | cons d u =>
        simp only [List.cons_append, List.cons.injEq] at h
        obtain ⟨h1, h2⟩ := ih y u v (fun hm => hx (List.mem_cons_of_mem _ hm))
          (fun hm => hu (List.mem_cons_of_mem _ hm)) h.2
        exact ⟨by rw [h.1, h1], h2⟩
  have hcons : ∀ (p q : List Char) (qs : List (List Char)),
      List.intercalate [sep] (p :: q :: qs) = p ++ sep :: List.intercalate [sep] (q :: qs) := by
    intro p q qs
    simp [List.intercalate, List.intersperse]
  have hone : ∀ p : List Char, List.intercalate [sep] [p] = p := by
    intro p
    simp [List.intercalate, List.intersperse]
  obtain ⟨ha0, ha1, ha2⟩ := ha
  obtain ⟨hb0, hb1, hb2⟩ := hb
  rw [← hb2] at ha2
  clear hb2
  induction a generalizing b with
  | nil => exact absurd rfl ha0
  | cons p ps ih =>
    cases b with
    | nil => exact absurd rfl hb0
    | cons q qs =>
      have hp := ha1 p (List.mem_cons_self _ _)
      have hq := hb1 q (List.mem_cons_self _ _)
      cases ps with
      | nil =>
        cases qs with
        | nil =>
          rw [hone, hone] at ha2
          rw [ha2]
        | cons r rs =>
          rw [hone, hcons] at ha2
          rw [ha2] at hp
          exact absurd (List.mem_append_right _ (List.mem_cons_self _ _)) hp
      | cons p1 ps1 =>
        cases qs with
        | nil =>
          rw [hone, hcons] at ha2
          rw [← ha2] at hq
          exact absurd (List.mem_append_right _ (List.mem_cons_self _ _)) hq
        | cons r rs =>
          rw [hcons, hcons] at ha2
          obtain ⟨h1, h2⟩ := key _ _ _ _ hp hq ha2
          rw [h1]
          congr 1
          exact ih (r :: rs) (by simp) (fun x hx => ha1 x (List.mem_cons_of_mem _ hx)) h2
            (by simp) (fun x hx => hb1 x (List.mem_cons_of_mem _ hx))

/-- Two trimmed forms of one text are the same. -/
theorem isTrimmed_unique (p a b : List Char) (ha : IsTrimmed p a) (hb : IsTrimmed p b) :
    a = b := by
  -- a run of whitespace before a text that does not start with whitespace is
  -- determined by the whole
  have key : ∀ (x u y v : List Char), (∀ c ∈ x, isWhiteSpace c = true) →
      (∀ c ∈ u, isWhiteSpace c = true) →
      (∀ c, y.head? = some c → isWhiteSpace c = false) →
      (∀ c, v.head? = some c → isWhiteSpace c = false) →
      y ≠ [] → v ≠ [] → x ++ y = u ++ v → y = v := by
    intro x
    induction x with
    | nil =>
      intro u y v _ hu hy _ hy0 _ h
      cases u with
      | nil => simpa using h
      | cons d u =>
        cases y with
        | nil => exact absurd rfl hy0
        | cons c y =>
          simp only [List.nil_append, List.cons_append, List.cons.injEq] at h
          have h1 := hy c rfl
          have h2 := hu d (List.mem_cons_self _ _)
          rw [h.1, h2] at h1
          cases h1
    | cons c x ih =>
      intro u y v hx hu hy hv hy0 hv0 h
      cases u with
      | nil =>
        cases v with
        | nil => exact absurd rfl hv0
        | cons d v =>
          simp only [List.nil_append, List.cons_append, List.cons.injEq] at h
          have h1 := hv d rfl
          have h2 := hx c (List.mem_cons_self _ _)
          rw [← h.1, h2] at h1
          cases h1
      | cons d u =>
        simp only [List.cons_append, List.cons.injEq] at h
        exact ih u y v (fun c hc => hx c (List.mem_cons_of_mem _ hc))
          (fun c hc => hu c (List.mem_cons_of_mem _ hc)) hy hv hy0 hv0 h.2
  obtain ⟨⟨pre, post, hpre, hpost, hp⟩, hah, hal⟩ := ha
  obtain ⟨⟨pre1, post1, hpre1, hpost1, hp1⟩, hbh, hbl⟩ := hb
  have hall : ∀ o : List Char, o = [] → ∀ pre2 post2 : List Char,
      (∀ c ∈ pre2, isWhiteSpace c = true) → (∀ c ∈ post2, isWhiteSpace c = true) →
      p = pre2 ++ o ++ post2 → ∀ c ∈ p, isWhiteSpace c = true := by
    intro o ho pre2 post2 h1 h2 h3 c hc
    rw [h3, ho, List.append_nil, List.mem_append] at hc
    rcases hc with hc | hc
    · exact h1 c hc
    · exact h2 c hc
  have hempty : ∀ o o1 : List Char, o = [] → (∀ c ∈ p, isWhiteSpace c = true) →
      ∀ pre2 post2 : List Char, p = pre2 ++ o1 ++ post2 →
      (∀ c, o1.head? = some c → isWhiteSpace c = false) → o1 = [] := by
    intro o o1 _ hws pre2 post2 h3 hh
    cases o1 with
    | nil => rfl
    | cons c o1 =>
      have h1 := hh c rfl
      have h2 := hws c (by rw [h3]; simp)
      rw [h2] at h1
      cases h1
  by_cases ha0 : a = []
  · rw [ha0]
    exact (hempty a b ha0 (hall a ha0 pre post hpre hpost hp) pre1 post1 hp1 hbh).symm
  · by_cases hb0 : b = []
    · exact absurd (hempty b a hb0 (hall b hb0 pre1 post1 hpre1 hpost1 hp1) pre post hp hah) ha0
    · -- both are non-empty: cut the leading run, then the trailing one
      have hfront : a ++ post = b ++ post1 := by
        have h := hp.symm.trans hp1
        rw [List.append_assoc, List.append_assoc] at h
        refine key pre pre1 (a ++ post) (b ++ post1) hpre hpre1 ?_ ?_ (by simp [ha0])
          (by simp [hb0]) h
        · intro c hc
          cases a with
          | nil => exact absurd rfl ha0
          | cons d a => exact hah c hc
        · intro c hc
          cases b with
          | nil => exact absurd rfl hb0
          | cons d b => exact hbh c hc
      have hback : post.reverse ++ a.reverse = post1.reverse ++ b.reverse := by
        rw [← List.reverse_append, ← List.reverse_append, hfront]
      have hrev := key post.reverse post1.reverse a.reverse b.reverse
        (fun c hc => hpost c (List.mem_reverse.mp hc))
        (fun c hc => hpost1 c (List.mem_reverse.mp hc))
        (fun c hc => hal c (by rw [← List.head?_reverse]; exact hc))
        (fun c hc => hbl c (by rw [← List.head?_reverse]; exact hc))
        (by simpa using ha0) (by simpa using hb0) hback
      exact List.reverse_injective hrev

/-- The trimmed forms of the pieces are what `trimChars` returns for them. -/
theorem forall₂_isTrimmed (pieces trimmed : List (List Char))
    (h : List.Forall₂ IsTrimmed pieces trimmed) : trimmed = pieces.map trimChars := by
  induction h with
  | nil => rfl
  | cons hp _ ih =>
    rw [List.map_cons, ih]
    congr 1
    exact isTrimmed_unique _ _ _ hp (trimChars_isTrimmed _)

/-- C11. A text message that reaches the Options step of the creation wizard is
accepted (the wizard state changes) if and only if splitting its trimmed text on
`|`, trimming each piece and dropping the empty pieces leaves at least two
entries; when it is accepted the stored options are exactly those entries, in
their order, the wizard is at the Correct step, and every stored option is
non-empty and has no whitespace at its ends. Splitting and trimming are taken as
the specifications `IsSplit` and `IsTrimmed`: `body` is the trimmed text of the
message, `pieces` are its pieces between the `|`, `trimmed` are the pieces
trimmed one by one. -/
theorem options_step_accepts (env : Env) (ctx : Ctx) (w : World) (admin : AdminState) (cq : Draft)
    (body : List Char) (pieces trimmed : List (List Char))
    (hadmin : w.session.admin = some admin) (hmode : admin.mode = "create_test_options")
    (hcq : admin.currentQuestion = some cq)
    (hcmd : isCommand ctx = false) (htext : truthy ctx.text = true)
    (hbody : IsTrimmed (ctx.text.getD "").data body) (hpieces : IsSplit '|' body pieces)
    (htrimmed : List.Forall₂ IsTrimmed pieces trimmed) :
    ((handleAdminMessage env ctx w).world ≠ w ↔
      2 ≤ (trimmed.filter (fun o => o ≠ [])).length) ∧
    (2 ≤ (trimmed.filter (fun o => o ≠ [])).length →
      (handleAdminMessage env ctx w).world.session.admin
        = some { admin with
                 mode := "create_test_correct"
                 currentQuestion := some
                   { cq with
                     options := some ((trimmed.filter (fun o => o ≠ [])).map String.mk) } }) ∧
    (∀ o ∈ (trimmed.filter (fun o => o ≠ [])).map String.mk, o ≠ "" ∧ noEdgeWhiteSpace o) := by
  have h1 : body = (messageText ctx).data :=
    isTrimmed_unique _ _ _ hbody (trimChars_isTrimmed _)
  have h2 : pieces = splitChars '|' (messageText ctx).data := by
    rw [h1] at hpieces
    exact isSplit_unique _ _ _ _ hpieces (splitChars_isSplit _ _)
  have h3 : (trimmed.filter (fun o => o ≠ [])).map String.mk = parseOptions (messageText ctx) := by
    rw [parseOptions_eq, forall₂_isTrimmed pieces trimmed htrimmed, h2]
  have hlen : (trimmed.filter (fun o => o ≠ [])).length = (parseOptions (messageText ctx)).length := by
    rw [← h3, List.length_map]
  rw [hlen, h3]
  obtain ⟨p1, p2⟩ := options_step_parse env ctx w admin cq hadmin hmode hcq hcmd htext
  exact ⟨p1, fun h => (p2 h).1, parseOptions_entries _⟩

/-- C11 at the Options step of "Math", for the text " 3 | 4 ||": the trimmed
text is "3 | 4 ||", its pieces are "3 ", " 4 ", "" and "", and the stored options
are "3" and "4". -/
theorem options_step_accepts_witness :
    trimChars " 3 | 4 ||".data = "3 | 4 ||".data ∧
    splitChars '|' "3 | 4 ||".data = ["3 ".data, " 4 ".data, [], []] ∧
    ["3 ".data, " 4 ".data, [], []].map trimChars = ["3".data, "4".data, [], []] ∧
    ((handleAdminMessage sampleEnv (adminCtx " 3 | 4 ||") (wizardWorld optionsAdmin)).world
        ≠ wizardWorld optionsAdmin ↔
      2 ≤ (["3".data, "4".data, [], []].filter (fun o => o ≠ [])).length) ∧
    (2 ≤ (["3".data, "4".data, [], []].filter (fun o => o ≠ [])).length →
      (handleAdminMessage sampleEnv (adminCtx " 3 | 4 ||") (wizardWorld optionsAdmin)).world.session.admin
        = some { optionsAdmin with
                 mode := "create_test_correct"
                 currentQuestion := some
                   { question := "2+2?"
                     options := some
                       ((["3".data, "4".data, [], []].filter (fun o => o ≠ [])).map String.mk)
                     correct_answer := none } }) ∧
    (∀ o ∈ (["3".data, "4".data, [], []].filter (fun o => o ≠ [])).map String.mk,
      o ≠ "" ∧ noEdgeWhiteSpace o) ∧
    (["3".data, "4".data, [], []].filter (fun o => o ≠ [])).map String.mk = ["3", "4"] :=
  have hbody : trimChars " 3 | 4 ||".data = "3 | 4 ||".data := by decide
  have hsplit : splitChars '|' "3 | 4 ||".data = ["3 ".data, " 4 ".data, [], []] := by decide
  have htrim : ["3 ".data, " 4 ".data, [], []].map trimChars = ["3".data, "4".data, [], []] := by
    decide
  have h := options_step_accepts sampleEnv (adminCtx " 3 | 4 ||") (wizardWorld optionsAdmin)
    optionsAdmin { question := "2+2?", options := none, correct_answer := none }
    "3 | 4 ||".data ["3 ".data, " 4 ".data, [], []] ["3".data, "4".data, [], []]
    rfl rfl rfl (by decide) (by decide)
    (hbody ▸ trimChars_isTrimmed " 3 | 4 ||".data)
    (hsplit ▸ splitChars_isSplit '|' "3 | 4 ||".data)
    (htrim ▸ forall₂_trimChars ["3 ".data, " 4 ".data, [], []])
  ⟨hbody, hsplit, htrim, h.1, h.2.1, h.2.2, by decide⟩

end Feruza
